import Mathlib

/-!
# Performa data submission (`lib/api/submit.js`)

A shallow embedding of `lib/api/submit.js`: the API methods `api_hello` and
`api_submit` and the submission pipeline `processDataSubmission`,
`updateGroupData` and `processSystem`, followed by the properties proved about
them.

Conventions of the embedding.

* JavaScript numbers are exact rationals or `NaN` (`JSNum`); infinities and
  rounding are not represented.
* JavaScript objects used as string-keyed maps are association lists (`Dict`);
  `for (key in obj)` visits every key once (`Dict.keys`).
* The storage engine, the caches, the transaction log and the notifications sent
  are fields of an explicit `State`; storage operations are recorded in
  `State.trace`. They always succeed in `processSystem` and
  `processDataSubmission`; `processSystemF` and `processDataSubmissionF` are the
  same methods with storage operations that may pass an error.
* A call of `sendAlertNotification` is recorded in `State.sent`. The data tree
  of a submission is that of the Performa agent: it carries the `load`, `memory`
  and `os` fields the method reads to render a notification.
* Functions of the libraries `pixl-tools` and `notevil`, regular expression
  matching, number parsing and the clock are fields of `Env`.
* Timestamps are whole seconds (`Tools.timeNow(true)`).
-/

namespace Performa

/-! ## JavaScript values -/

/-- A JavaScript number: a finite value, kept exact, or `NaN`. -/
inductive JSNum where
  | fin (q : ℚ)
  | nan
deriving DecidableEq

namespace JSNum

/-- JavaScript `a + b` on numbers. -/
def add : JSNum → JSNum → JSNum
  | fin a, fin b => fin (a + b)
  | _, _ => nan

/-- JavaScript `a - b` on numbers. -/
def sub : JSNum → JSNum → JSNum
  | fin a, fin b => fin (a - b)
  | _, _ => nan

/-- JavaScript `a * b` on numbers. -/
def mul : JSNum → JSNum → JSNum
  | fin a, fin b => fin (a * b)
  | _, _ => nan

/-- JavaScript `a / b` on numbers; the code only divides by non-zero values
(`elapsed || 1`, a truthy `divide`), a zero divisor is mapped to `NaN`. -/
def div : JSNum → JSNum → JSNum
  | fin a, fin b => if b = 0 then nan else fin (a / b)
  | _, _ => nan

/-- The function `Math.floor`. -/
def floor : JSNum → JSNum
  | fin a => fin (⌊a⌋ : ℤ)
  | nan => nan

/-- JavaScript `a < b` on numbers: false as soon as one side is `NaN`. -/
def lt : JSNum → JSNum → Bool
  | fin a, fin b => decide (a < b)
  | _, _ => false

/-- JavaScript `a >= b` on numbers: false as soon as one side is `NaN`. -/
def ge : JSNum → JSNum → Bool
  | fin a, fin b => decide (b ≤ a)
  | _, _ => false

/-- Truthiness of a number: `0` and `NaN` are falsy. -/
def truthy : JSNum → Bool
  | fin a => decide (a ≠ 0)
  | nan => false

instance : Add JSNum := ⟨add⟩

instance : Zero JSNum := ⟨fin 0⟩

end JSNum

/-- Addition of JavaScript numbers is a commutative monoid: `NaN` absorbs. -/
instance : AddCommMonoid JSNum where
  add := JSNum.add
  zero := JSNum.fin 0
  add_assoc a b c := by
    cases a <;> cases b <;> cases c <;>
      simp only [HAdd.hAdd, JSNum.add, JSNum.fin.injEq]
    exact add_assoc _ _ _
  zero_add a := by
    cases a <;> simp only [HAdd.hAdd, OfNat.ofNat, JSNum.add, JSNum.fin.injEq]
    exact zero_add _
  add_zero a := by
    cases a <;> simp only [HAdd.hAdd, OfNat.ofNat, JSNum.add, JSNum.fin.injEq]
    exact add_zero _
  add_comm a b := by
    cases a <;> cases b <;> simp only [HAdd.hAdd, JSNum.add, JSNum.fin.injEq]
    exact add_comm _ _
  nsmul := nsmulRec

/-- A resolved monitor value: after the `data_type` switch of
`processDataSubmission` a value is a number or a string. -/
inductive Value where
  | num (n : JSNum)
  | str (s : String)
deriving DecidableEq

namespace Value

/-- The test that `typeof(v)` is the number type (lines 453 and 514). -/
def isNumber : Value → Bool
  | num _ => true
  | str _ => false

/-- Truthiness of a value: `0`, `NaN` and the empty string are falsy. -/
def truthy : Value → Bool
  | num n => n.truthy
  | str s => decide (s ≠ "")

end Value

/-- A value before coercion: what `Tools.sub` or `safeEval` produced. -/
inductive Raw where
  | val (v : Value)
  | bool (b : Bool)
  | other
deriving DecidableEq

/-! ## Objects as association lists -/

/-- A JavaScript object used as a map from string keys. -/
abbrev Dict (α : Type) := List (String × α)

namespace Dict

variable {α : Type}

/-- The property read `obj[key]`; `none` is `undefined`. -/
def get : Dict α → String → Option α
  | [], _ => none
  | (k', v') :: rest, k => if k' = k then some v' else get rest k

/-- The test `key in obj`. -/
def has (d : Dict α) (k : String) : Bool := (get d k).isSome

/-- The assignment `obj[key] = value`. -/
def set : Dict α → String → α → Dict α
  | [], k, v => [(k, v)]
  | (k', v') :: rest, k, v => if k' = k then (k, v) :: rest else (k', v') :: set rest k v

/-- The keys visited by `for (key in obj)`: every key once. -/
def keys (d : Dict α) : List String := (d.map Prod.fst).dedup

end Dict

/-! ## Data model -/

/-- A monitor definition (`this.monitors`). `group_match` and `data_match` are
empty when unset, `multiply` and `divide` are `0` when unset. -/
structure MonitorDef where
  id : String
  source : String
  data_type : String
  data_match : String
  delta : Bool
  divide_by_delta : Bool
  multiply : ℚ
  divide : ℚ
  group_match : String
deriving DecidableEq

/-- An alert definition (`this.alerts`). `group_match` is empty when unset. -/
structure AlertDef where
  id : String
  title : String
  expression : String
  message : String
  group_match : String
  enabled : Bool
deriving DecidableEq

/-- A group definition (`this.groups`). -/
structure GroupDef where
  id : String
  hostname_match : String
  sort_order : ℚ
  alerts_enabled : Bool
  title : String
deriving DecidableEq

/-- A timeline resolution (`this.systems`): `epoch_div` is the bucket width in
seconds. -/
structure Sys where
  id : String
  epoch_div : ℤ
  date_format : String
  single_only : Bool
deriving DecidableEq

/-- An entry of `params.alerts`. -/
structure AlertEntry where
  date : ℤ
  exp : String
  message : String
deriving DecidableEq

/-- The object `params.data`: the data tree sent by the client (`raw`, only read through
`Tools.sub` and `safeEval`) with the `monitors` and `deltas` maps that
`processDataSubmission` stores in it. -/
structure Data where
  raw : String
  monitors : Dict Value
  deltas : Dict Value
deriving DecidableEq

/-- The object `params` while a submission is processed; it is also what is
written to storage as the host record. -/
structure Params where
  hostname : String
  group : String
  custom_group : Bool
  ip : String
  date : ℤ
  data : Data
  alerts : Dict AlertEntry
  new_alerts : Option (Dict Bool)
deriving DecidableEq

/-- The task enqueued by `api_submit`: the request fields
`{ hostname, group, data }` with `ip`, `date` and `custom_group` added. -/
structure Submission where
  hostname : String
  group : String
  custom_group : Bool
  ip : String
  date : ℤ
  data : String
deriving DecidableEq

/-- The object `host_data` read by `processDataSubmission`: the fields of a
stored record that the code reads back. -/
structure HostData where
  ip : Option String
  date : Option ℤ
  monitors : Dict Value
  alerts : Dict AlertEntry
deriving DecidableEq

/-- A timeline bucket (an item of a storage list). -/
structure Bucket where
  date : ℤ
  epoch_div : ℤ
  totals : Dict Value
  count : ℕ
  alerts : Option (Dict Bool)
deriving DecidableEq

/-- An entry of `this.groupCache`. -/
structure GroupCache where
  totals : Dict Value
  count : ℕ
deriving DecidableEq

/-- A storage call. -/
inductive Op where
  | lock (key : String)
  | unlock (key : String)
  | get (key : String)
  | put (key : String)
  | listGet (key : String)
  | listPush (key : String)
  | listSplice (key : String)
  | expire (key : String) (date : ℚ)
deriving DecidableEq

/-- A line of the transaction or error log. -/
inductive LogEvent where
  | server_add (hostname : String)
  | warning (msg : String)
  | alert_new (hostname : String) (id : String) (alert : AlertEntry)
  | alert_cleared (hostname : String) (id : String) (alert : AlertEntry)
  | error (msg : String)
deriving DecidableEq

/-- A call of `sendAlertNotification` (lines 563-668): the template, the alert
and the elapsed time it is given. The mail and the web hooks it sends are
asynchronous, and their errors are only logged. -/
structure Notification where
  template : String
  alert_id : String
  hostname : String
  alert : AlertEntry
  elapsed : Option ℤ
deriving DecidableEq

/-- The mutable state around a submission: storage records and lists, the
in-memory caches, and what was emitted (storage calls, log, notifications). -/
structure State where
  hosts : Dict Params
  lists : Dict (List Bucket)
  trace : List Op
  groupCache : Dict GroupCache
  alertCache : Dict (Dict AlertEntry)
  hostnameCache : Dict (Dict ℕ)
  log : List LogEvent
  sent : List Notification
deriving DecidableEq

/-- The configuration of the server object: definitions, `state.alert_snooze`
(`0` when unset) and the `expiration` setting (empty when unset). -/
structure Server where
  monitors : List MonitorDef
  alerts : List AlertDef
  groups : List GroupDef
  systems : List Sys
  alert_snooze : ℚ
  expiration : String

/-- Library functions and the clock. -/
structure Env where
  /-- The function `Tools.formatDate(epoch, format)`. -/
  formatDate : ℤ → String → String
  /-- The function `Tools.getSecondsFromText`. -/
  getSecondsFromText : String → ℚ
  /-- The clock `Tools.timeNow()`. -/
  now : ℚ
  /-- The call `Tools.sub(text, data, true)`: `none` is `null`. -/
  subFatal : String → Data → Option String
  /-- The call `Tools.sub(text, data)`. -/
  sub : String → Data → String
  /-- The test of line 170: the source, placeholders removed, has an operator. -/
  hasMath : String → Bool
  /-- The evaluator `safeEval(exp, params)`; `Except.error` is a thrown error. -/
  safeEval : String → Params → Except String Raw
  /-- The call `text.match(pattern)`: the match array, `none` when no match. -/
  regexMatch : String → String → Option (List (Option String))
  /-- String conversion of a value (lines 195 and 223). -/
  toStr : Raw → String
  /-- The function `parseInt`. -/
  parseInt : Raw → JSNum
  /-- The function `parseFloat`. -/
  parseFloat : Raw → JSNum
  /-- Number conversion of a string operand of `-`, `*` and `/`. -/
  toNumber : String → JSNum
  /-- The formatter pass of `alertSub`: `text.replace` of the `[name:path]` tags
  through the `bytes`, `commify`, `pct`, `integer` and `float` handlers. -/
  replaceTags : String → Data → String

/-! ## Timeline aggregation: `processSystem` -/

/-- One round of the merge loop shared by `processSystem` (lines 513-519) and
`updateGroupData` (lines 452-458): two numbers are summed, anything else is
overwritten by the incoming value. -/
def mergeKey (data : Dict Value) (t : Dict Value) (key : String) : Dict Value :=
  match Dict.get data key with
  | none => t
  | some v =>
    match Dict.get t key with
    | some old =>
      match v, old with
      | Value.num a, Value.num b => Dict.set t key (Value.num (b + a))
      | _, _ => Dict.set t key v
    | none => Dict.set t key v

/-- The merge loop `for (var key in data)` of lines 512-520 and 451-459. -/
def mergeTotals (totals data : Dict Value) : Dict Value :=
  (Dict.keys data).foldl (mergeKey data) totals

/-- The value a key of `data` holds after the merge loop, from the value `old`
it held before and the incoming value `v`. -/
def mergeVal (old : Option Value) (v : Value) : Value :=
  match old, v with
  | some (Value.num b), Value.num a => Value.num (b + a)
  | _, _ => v

/-- The function `Tools.mergeHashInto(a, b)`. -/
def mergeHashInto (a b : Dict Bool) : Dict Bool :=
  (Dict.keys b).foldl
    (fun acc key =>
      match Dict.get b key with
      | none => acc
      | some v => Dict.set acc key v)
    a

/-- The errors `processSystem` passes to its callback. -/
inductive SysError where
  | doubleSubmission (hostname : String)
  | outOfOrder (epoch_div last : ℤ) (timeline_key : String)
deriving DecidableEq

/-- The bucket index of line 472, `Math.floor( epoch / sys.epoch_div )`. A zero
`sys.epoch_div`, for which JavaScript yields an infinity or `NaN`, is outside the
model (the quotient is then `0`). -/
def epochDiv (sys : Sys) (p : Params) : ℤ :=
  ⌊(p.date : ℚ) / (sys.epoch_div : ℚ)⌋

/-- The storage key of line 473. -/
def timelineKey (env : Env) (sys : Sys) (p : Params) : String :=
  "timeline/" ++ sys.id ++ "/" ++ p.hostname ++ "/" ++ env.formatDate p.date sys.date_format

/-- The hostname cache key of lines 485-486. -/
def hostCacheKey (p : Params) : String :=
  if p.custom_group then p.group ++ "/" ++ p.hostname else p.hostname

/-- The call `storage.listGet( key, -1, 1 )`: the last item of the list. -/
def listGetLast (st : State) (key : String) : Option Bucket :=
  ((Dict.get st.lists key).getD []).getLast?

/-- Lines 477 and 489: the host is marked in the cache of the system. -/
def markHostname (cache : Dict (Dict ℕ)) (sys : Sys) (p : Params) : Dict (Dict ℕ) :=
  Dict.set cache sys.id (Dict.set ((Dict.get cache sys.id).getD []) (hostCacheKey p) 1)

/-- First step of `processSystem` (lines 481-507): the decision taken from the
last item. `Except.ok (some b)` is `update_data = b`, `Except.ok none` leaves
`update_data` null. -/
def loadLast (env : Env) (sys : Sys) (p : Params) (last : Option Bucket) :
    Except SysError (Option Bucket) :=
  match last with
  | some item =>
    if item.epoch_div = epochDiv sys p then
      if sys.single_only then Except.error (SysError.doubleSubmission p.hostname)
      else Except.ok (some item)
    else if item.epoch_div > epochDiv sys p then
      Except.error (SysError.outOfOrder (epochDiv sys p) item.epoch_div (timelineKey env sys p))
    else Except.ok none
  | none => Except.ok none

/-- Lines 511-527: `data` and the new alerts merged into `update_data`. -/
def mergeBucket (p : Params) (data : Dict Value) (update_data : Bucket) : Bucket :=
  { update_data with
    totals := mergeTotals update_data.totals data
    count := update_data.count + 1
    alerts :=
      match p.new_alerts with
      | some na => some (mergeHashInto (update_data.alerts.getD []) na)
      | none => update_data.alerts }

/-- Lines 533-543: the item pushed for a new bucket. -/
def newBucket (sys : Sys) (p : Params) (data : Dict Value) : Bucket :=
  { date := epochDiv sys p * sys.epoch_div
    epoch_div := epochDiv sys p
    totals := data
    count := 1
    alerts := p.new_alerts }

/-- Second step of `processSystem` (lines 508-557): splice the merged item over
the last one, or push a new item and set the expiration of a list just created. -/
def pushOrMerge (env : Env) (srv : Server) (st : State) (sys : Sys) (p : Params)
    (data : Dict Value) (update_data : Option Bucket) : State :=
  let key := timelineKey env sys p
  let list := (Dict.get st.lists key).getD []
  match update_data with
  | some b =>
    { st with
      lists := Dict.set st.lists key (list.dropLast ++ [mergeBucket p data b])
      trace := st.trace ++ [Op.listSplice key] }
  | none =>
    let list' := list ++ [newBucket sys p data]
    { st with
      lists := Dict.set st.lists key list'
      trace := st.trace ++ [Op.listPush key] ++
        (if list'.length = 1 ∧ srv.expiration ≠ "" then
          [Op.expire key (env.now + env.getSecondsFromText srv.expiration)]
        else []) }

/-- The method `processSystem` (lines 464-561): the state after the call and the
error passed to the callback, if any. -/
def processSystem (env : Env) (srv : Server) (st : State) (sys : Sys) (p : Params)
    (data : Dict Value) : State × Option SysError :=
  let key := timelineKey env sys p
  let st1 : State :=
    { st with
      hostnameCache := markHostname st.hostnameCache sys p
      trace := st.trace ++ [Op.listGet key] }
  match loadLast env sys p (listGetLast st key) with
  | Except.error e => (st1, some e)
  | Except.ok update_data => (pushOrMerge env srv st1 sys p data update_data, none)

/-- A sequence of `processSystem` calls for one system, each on the state left
by the previous one, whatever each call returned. -/
def runSystem (env : Env) (srv : Server) (sys : Sys) (st : State)
    (calls : List (Params × Dict Value)) : State :=
  calls.foldl (fun s c => (processSystem env srv s sys c.1 c.2).1) st

/-! ## Monitor resolution (lines 155-242) -/

/-- The lookup `Tools.findObject( group_defs, { id } )`. -/
def findGroup (defs : List GroupDef) (id : String) : Option GroupDef :=
  defs.find? (fun d => decide (d.id = id))

/-- The lookup `Tools.findObject( alert_defs, { id } )`. -/
def findAlert (defs : List AlertDef) (id : String) : Option AlertDef :=
  defs.find? (fun d => decide (d.id = id))

/-- The guard `def.group_match && !params.group.match(def.group_match)` of
lines 164 and 318: the definition is skipped. -/
def groupFiltered (env : Env) (group_match group : String) : Bool :=
  decide (group_match ≠ "") && (env.regexMatch group group_match).isNone

/-- The data types of lines 215-218 and of the pattern
`/^(integer|bytes|seconds|milliseconds)$/` of line 305. -/
def integerLike (data_type : String) : Bool :=
  decide (data_type ∈ ["integer", "bytes", "seconds", "milliseconds"])

/-- The number `0` as an uncoerced value. -/
def Raw.zero : Raw := Raw.val (Value.num (JSNum.fin 0))

/-- The expression `n || 0` on a number. -/
def orZero (n : JSNum) : JSNum := if n.truthy then n else JSNum.fin 0

/-- Number conversion of an operand of `-`, `*`, `/`. -/
def toNum (env : Env) : Value → JSNum
  | Value.num n => n
  | Value.str s => env.toNumber s

/-- Lines 166-191: the source template is substituted and, when it has math
operations, evaluated; a failure is logged and leaves `value = 0`. -/
def resolveSource (env : Env) (p : Params) (mon : MonitorDef) : Raw × List LogEvent :=
  match env.subFatal mon.source p.data with
  | some exp =>
    if exp ≠ "" then
      if env.hasMath mon.source then
        match env.safeEval exp p with
        | Except.ok v => (v, [])
        | Except.error err =>
          (Raw.zero, [LogEvent.error ("Monitor expression failed to evaluate: " ++ err)])
      else (Raw.val (Value.str exp), [])
    else (Raw.zero, [LogEvent.error "Monitor expression failed to evaluate"])
  | none => (Raw.zero, [LogEvent.error "Monitor expression failed to evaluate"])

/-- Lines 194-212: the custom `data_match` pattern extracts the value. -/
def applyDataMatch (env : Env) (mon : MonitorDef) (value : Raw) : Raw × List LogEvent :=
  if mon.data_match ≠ "" then
    match env.regexMatch (env.toStr value) mon.data_match with
    | some ms =>
      let pick (m : Option (Option String)) : Raw :=
        match m with
        | some (some s) => Raw.val (Value.str s)
        | _ => Raw.other
      if ms.length ≥ 2 then (pick ms[1]?, []) else (pick ms[0]?, [])
    | none => (Raw.zero, [LogEvent.error "Custom data regular expression did not match"])
  else (value, [])

/-- Lines 214-229: the `data_type` switch. -/
def coerce (env : Env) (mon : MonitorDef) (value : Raw) : Value :=
  if integerLike mon.data_type then Value.num (orZero (env.parseInt value))
  else if mon.data_type = "string" then Value.str (env.toStr value)
  else Value.num (orZero (env.parseFloat value))

/-- Lines 232-233: the optional `multiply` or `divide` factor. -/
def scale (env : Env) (mon : MonitorDef) (value : Value) : Value :=
  if mon.multiply ≠ 0 then Value.num (JSNum.mul (toNum env value) (JSNum.fin mon.multiply))
  else if mon.divide ≠ 0 then Value.num (JSNum.div (toNum env value) (JSNum.fin mon.divide))
  else value

/-- The variables of the monitor loop: `params`, the working map `data`,
`delta_defs` and the errors logged. -/
structure MonState where
  params : Params
  data : Dict Value
  delta_defs : List MonitorDef
  log : List LogEvent

/-- The body of `monitor_defs.forEach` (lines 163-242). -/
def monitorStep (env : Env) (s : MonState) (mon : MonitorDef) : MonState :=
  if groupFiltered env mon.group_match s.params.group then s
  else
    let r := resolveSource env s.params mon
    let m := applyDataMatch env mon r.1
    let value := scale env mon (coerce env mon m.1)
    { params :=
        { s.params with
          data := { s.params.data with monitors := Dict.set s.params.data.monitors mon.id value } }
      data := Dict.set s.data mon.id value
      delta_defs := if mon.delta then s.delta_defs ++ [mon] else s.delta_defs
      log := s.log ++ r.2 ++ m.2 }

/-- The object `params` at the start of `processDataSubmission`, after lines
160-161 and 246 reset `data.monitors`, `data.deltas` and `alerts`. -/
def initParams (task : Submission) : Params :=
  { hostname := task.hostname
    group := task.group
    custom_group := task.custom_group
    ip := task.ip
    date := task.date
    data := { raw := task.data, monitors := [], deltas := [] }
    alerts := []
    new_alerts := none }

/-- The monitor loop (lines 155-242). -/
def monitorPass (env : Env) (monitor_defs : List MonitorDef) (task : Submission) : MonState :=
  monitor_defs.foldl (monitorStep env)
    { params := initParams task, data := [], delta_defs := [], log := [] }

/-! ## Host record, deltas and alerts (lines 244-410) -/

/-- The storage key of line 245. -/
def hostKey (hostname : String) : String := "hosts/" ++ hostname ++ "/data"

/-- The record of a brand new server (line 263). -/
def HostData.brandNew : HostData :=
  { ip := none, date := none, monitors := [], alerts := [] }

/-- The fields read back from a stored record. -/
def HostData.ofParams (r : Params) : HostData :=
  { ip := some r.ip, date := some r.date, monitors := r.data.monitors, alerts := r.alerts }

/-- The object `host_data` of lines 258-283: the stored record of the host, or
the record of a brand new server. -/
def hostData (st : State) (hostname : String) : HostData :=
  match Dict.get st.hosts (hostKey hostname) with
  | none => HostData.brandNew
  | some r => HostData.ofParams r

/-- The transactions logged while the host record is loaded (lines 264-278). -/
def loadHostLog (st : State) (p : Params) : List LogEvent :=
  match Dict.get st.hosts (hostKey p.hostname) with
  | none => [LogEvent.server_add p.hostname]
  | some r =>
    if r.ip ≠ "" ∧ r.ip ≠ p.ip then
      [LogEvent.warning ("IP address has changed for: " ++ p.hostname ++
        " (" ++ r.ip ++ " to " ++ p.ip ++ ")")]
    else []

/-- Line 297, `host_data.data.monitors[ id ] || 0`. -/
def oldValue (prev : Value) : Value :=
  if prev.truthy then prev else Value.num (JSNum.fin 0)

/-- Line 301, `(params.date - host_data.date) || 1`. -/
def elapsedOf (date d : ℤ) : ℤ :=
  if date - d ≠ 0 then date - d else 1

/-- Lines 300-303: with `divide_by_delta` and a truthy `host_data.date`, the
delta is divided by the elapsed seconds. -/
def divideByElapsed (mon : MonitorDef) (date : ℤ) (hdate : Option ℤ) (delta : JSNum) : JSNum :=
  match hdate with
  | some d =>
    if mon.divide_by_delta ∧ d ≠ 0 then JSNum.div delta (JSNum.fin (elapsedOf date d))
    else delta
  | none => delta

/-- Line 304, `if (delta < 0) delta = 0`. -/
def clampDelta (delta : JSNum) : JSNum :=
  if JSNum.lt delta (JSNum.fin 0) then JSNum.fin 0 else delta

/-- Lines 305-307: the delta of an integer-like monitor is floored. -/
def floorDelta (mon : MonitorDef) (delta : JSNum) : JSNum :=
  if integerLike mon.data_type then JSNum.floor delta else delta

/-- Lines 297-307: the delta of a monitor from its current working-map entry
`cur` (`data[ id ]`, `none` when undefined) and the stored entry `prev` of a host
record dated `hdate`. -/
def computeDelta (env : Env) (mon : MonitorDef) (date : ℤ) (hdate : Option ℤ)
    (cur : Option Value) (prev : Value) : JSNum :=
  floorDelta mon
    (clampDelta
      (divideByElapsed mon date hdate
        (JSNum.sub
          (match cur with
            | some v => toNum env v
            | none => JSNum.nan)
          (toNum env (oldValue prev)))))

/-- The body of `delta_defs.forEach` (lines 286-314) on `params` and `data`. -/
def deltaStep (env : Env) (hd : HostData) (s : Params × Dict Value) (mon : MonitorDef) :
    Params × Dict Value :=
  match Dict.get hd.monitors mon.id with
  | none => (s.1, Dict.set s.2 mon.id (Value.num (JSNum.fin 0)))
  | some prev =>
    let delta := computeDelta env mon s.1.date hd.date (Dict.get s.2 mon.id) prev
    ({ s.1 with data := { s.1.data with deltas := Dict.set s.1.data.deltas mon.id (Value.num delta) } },
      Dict.set s.2 mon.id (Value.num delta))

/-- The delta pass (lines 285-314). -/
def deltaPass (env : Env) (hd : HostData) (delta_defs : List MonitorDef) (p : Params)
    (data : Dict Value) : Params × Dict Value :=
  delta_defs.foldl (deltaStep env hd) (p, data)

/-- The method `alertSub` (lines 670-685). -/
def alertSub (env : Env) (text : String) (data : Data) : String :=
  env.sub (env.replaceTags text data) data

/-- The test `result === true` of line 337, where `result` stays `null` when
the evaluation throws. -/
def strictTrue (result : Except String Raw) : Bool :=
  match result with
  | Except.ok (Raw.bool true) => true
  | _ => false

/-- The errors logged by the `catch` of lines 329-335. -/
def alertEvalLog (result : Except String Raw) : List LogEvent :=
  match result with
  | Except.error err => [LogEvent.error ("Alert expression failed to evaluate: " ++ err)]
  | Except.ok _ => []

/-- Lines 339 and 344-347: the trigger date of an alert is the date of the
submission, replaced by the date kept in the host record when the alert is
active there. -/
def triggerDate (hd : HostData) (date : ℤ) (id : String) : ℤ :=
  match Dict.get hd.alerts id with
  | some prev => prev.date
  | none => date

/-- The body of `alert_defs.forEach` (lines 317-349): an expression that
evaluates to `true` records the alert in `params.alerts`. -/
def alertStep (env : Env) (hd : HostData) (s : Params × List LogEvent) (a : AlertDef) :
    Params × List LogEvent :=
  if groupFiltered env a.group_match s.1.group then s
  else
    let exp := env.sub a.expression s.1.data
    let result := env.safeEval exp s.1
    if strictTrue result then
      ({ s.1 with
          alerts := Dict.set s.1.alerts a.id
            { date := triggerDate hd s.1.date a.id
              exp := exp
              message := alertSub env a.message s.1.data } },
        s.2 ++ alertEvalLog result)
    else (s.1, s.2 ++ alertEvalLog result)

/-- The alert loop (lines 317-349). -/
def alertPass (env : Env) (hd : HostData) (alert_defs : List AlertDef) (p : Params) :
    Params × List LogEvent :=
  alert_defs.foldl (alertStep env hd) (p, [])

/-- What the transition loops produce: `params`, log lines and notifications. -/
structure Transitions where
  params : Params
  log : List LogEvent
  sent : List Notification

/-- The body of the loop of lines 352-378 for one key of `params.alerts`;
`none` is the `TypeError` of reading `alert_def.title` when no definition has
the id. -/
def newAlertStep (srv : Server) (group_def : GroupDef) (alerts_snoozed : Bool) (hd : HostData)
    (t : Transitions) (key : String) : Option Transitions :=
  match Dict.get hd.alerts key, Dict.get t.params.alerts key with
  | none, some alert =>
    match findAlert srv.alerts key with
    | none => none
    | some alert_def =>
      some
        { params :=
            { t.params with new_alerts := some (Dict.set (t.params.new_alerts.getD []) key true) }
          log := t.log ++ [LogEvent.alert_new t.params.hostname key alert]
          sent :=
            if group_def.alerts_enabled && alert_def.enabled && !alerts_snoozed then
              t.sent ++
                [{ template := "alert_new", alert_id := alert_def.id,
                   hostname := t.params.hostname, alert := alert, elapsed := none }]
            else t.sent }
  | _, _ => some t

/-- The loop of lines 352-378 over the keys of `params.alerts`. -/
def newTransitions (srv : Server) (group_def : GroupDef) (alerts_snoozed : Bool) (hd : HostData)
    (t : Transitions) : Option Transitions :=
  (Dict.keys t.params.alerts).foldlM (newAlertStep srv group_def alerts_snoozed hd) t

/-- The body of the loop of lines 380-402 for one key of `host_data.alerts`. -/
def clearedStep (env : Env) (srv : Server) (group_def : GroupDef) (alerts_snoozed : Bool)
    (hd : HostData) (t : Transitions) (key : String) : Transitions :=
  match Dict.get t.params.alerts key, Dict.get hd.alerts key, findAlert srv.alerts key with
  | none, some alert, some alert_def =>
    { t with
      log := t.log ++ [LogEvent.alert_cleared t.params.hostname key alert]
      sent :=
        if group_def.alerts_enabled && alert_def.enabled && !alerts_snoozed then
          t.sent ++
            [{ template := "alert_cleared", alert_id := alert_def.id,
               hostname := t.params.hostname, alert := alert,
               elapsed := some (⌊env.now⌋ - alert.date) }]
        else t.sent }
  | _, _, _ => t

/-- The loop of lines 380-402 over the keys of `host_data.alerts`. -/
def clearedTransitions (env : Env) (srv : Server) (group_def : GroupDef) (alerts_snoozed : Bool)
    (hd : HostData) (t : Transitions) : Transitions :=
  (Dict.keys hd.alerts).foldl (clearedStep env srv group_def alerts_snoozed hd) t

/-- The method `updateGroupData` (lines 445-462) on `this.groupCache`. -/
def updateGroupData (cache : Dict GroupCache) (group_id : String) (data : Dict Value) :
    Dict GroupCache :=
  let c : GroupCache := (Dict.get cache group_id).getD { totals := [], count := 0 }
  Dict.set cache group_id { totals := mergeTotals c.totals data, count := c.count + 1 }

/-- The message of an error of `processSystem`. -/
def SysError.message : SysError → String
  | SysError.doubleSubmission hostname =>
    "Double submission in same minute for hostname: " ++ hostname
  | SysError.outOfOrder e last key =>
    "Timeline out of order: Cannot submit " ++ toString e ++ " after " ++ toString last ++
      " into " ++ key

/-- Lines 412-424, `async.eachSeries( self.systems, ... )`: the systems in
sequence, the first error ends the iteration. -/
def processSystems (env : Env) (srv : Server) (p : Params) (data : Dict Value) :
    State → List Sys → State × Option SysError
  | st, [] => (st, none)
  | st, sys :: rest =>
    match processSystem env srv st sys p data with
    | (st1, some e) => (st1, some e)
    | (st1, none) => processSystems env srv p data st1 rest

/-- The result of `processDataSubmission`: the state after the final callback,
the object `params`, the working map `data`, the error of the series, and the
log lines and notifications of this submission. -/
structure Outcome where
  st : State
  params : Params
  data : Dict Value
  err : Option SysError
  log : List LogEvent
  sent : List Notification

/-- The test of line 250. -/
def alertsSnoozed (env : Env) (srv : Server) : Bool :=
  decide (srv.alert_snooze ≠ 0) && decide (srv.alert_snooze > env.now)

/-- The object `params` and the working map `data` after the monitor loop and
the delta pass (lines 155-314). -/
def deltaStage (env : Env) (srv : Server) (st : State) (task : Submission) :
    Params × Dict Value :=
  deltaPass env (hostData st task.hostname) (monitorPass env srv.monitors task).delta_defs
    (monitorPass env srv.monitors task).params (monitorPass env srv.monitors task).data

/-- The object `params` after the alert loop (lines 316-349), with the errors
logged by the loop. -/
def alertStage (env : Env) (srv : Server) (st : State) (task : Submission) :
    Params × List LogEvent :=
  alertPass env (hostData st task.hostname) srv.alerts (deltaStage env srv st task).1

/-- Lines 412-441 of `processDataSubmission`: the timelines are processed, the
host record is written when none of them failed, and the final callback unlocks
the record and logs the error. `st1` is the state after the alert checks,
`log` and `sent` what the submission logged and sent so far. -/
def finishSubmission (env : Env) (srv : Server) (st1 : State) (host_key : String)
    (params : Params) (data : Dict Value) (log : List LogEvent) (sent : List Notification) :
    Outcome :=
  match processSystems env srv params data st1 srv.systems with
  | (st2, some e) =>
    { st :=
        { st2 with
          trace := st2.trace ++ [Op.unlock host_key]
          log := st2.log ++ [LogEvent.error ("Failed to submit data: " ++ e.message)] }
      params := params
      data := data
      err := some e
      log := log ++ [LogEvent.error ("Failed to submit data: " ++ e.message)]
      sent := sent }
  | (st2, none) =>
    { st :=
        { st2 with
          hosts := Dict.set st2.hosts host_key params
          trace := st2.trace ++ [Op.put host_key, Op.unlock host_key] }
      params := params
      data := data
      err := none
      log := log
      sent := sent }

/-- The method `processDataSubmission` (lines 145-443). `none` is an uncaught
`TypeError`: no group definition has the id `params.group`, or a triggered alert
has no definition. -/
def processDataSubmission (env : Env) (srv : Server) (st : State) (task : Submission) :
    Option Outcome :=
  match findGroup srv.groups task.group with
  | none => none
  | some group_def =>
    let ms := monitorPass env srv.monitors task
    let host_key := hostKey task.hostname
    let alerts_snoozed := alertsSnoozed env srv
    let hd := hostData st task.hostname
    let dp := deltaStage env srv st task
    let ap := alertStage env srv st task
    match newTransitions srv group_def alerts_snoozed hd
        { params := ap.1, log := [], sent := [] } with
    | none => none
    | some nt =>
      let ct := clearedTransitions env srv group_def alerts_snoozed hd nt
      let log := ms.log ++ loadHostLog st ms.params ++ ap.2 ++ ct.log
      some
        (finishSubmission env srv
          { st with
            trace := st.trace ++ [Op.lock host_key, Op.get host_key]
            log := st.log ++ log
            sent := st.sent ++ ct.sent
            groupCache := updateGroupData st.groupCache group_def.id dp.2
            alertCache := Dict.set st.alertCache ct.params.hostname ct.params.alerts }
          host_key ct.params dp.2 log ct.sent)

/-- A sequence of submissions, each processed on the state left by the previous
one (with the clock and library of its own time); `none` when one of them
raises. -/
def processAll (srv : Server) : State → List (Env × Submission) → Option (List Outcome)
  | _, [] => some []
  | st, c :: rest =>
    match processDataSubmission c.1 srv st c.2 with
    | none => none
    | some o => (processAll srv o.st rest).map (fun os => o :: os)

/-! ## Predicates used in the statements -/

/-- The `epoch_div` values of the list stored under `key`, first to last. -/
def epochDivs (st : State) (key : String) : List ℤ :=
  ((Dict.get st.lists key).getD []).map Bucket.epoch_div

/-- Every stored list has strictly increasing `epoch_div` values. -/
def Ordered (st : State) : Prop :=
  ∀ key, (epochDivs st key).Pairwise (· < ·)

/-- The working map holds, under `k`, a value that converts to a finite number. -/
def FiniteAt (env : Env) (data : Dict Value) (k : String) : Prop :=
  ∃ v c, Dict.get data k = some v ∧ toNum env v = JSNum.fin c

/-- The value stored for `k` in the host record, when truthy, converts to a
finite number. -/
def FinitePrev (env : Env) (hd : HostData) (k : String) : Prop :=
  ∀ prev, Dict.get hd.monitors k = some prev → prev.truthy = true →
    ∃ q, toNum env prev = JSNum.fin q

/-- The working map holds a finite number `>= 0` under `k`. -/
def NonnegAt (data : Dict Value) (k : String) : Prop :=
  ∃ q : ℚ, 0 ≤ q ∧ Dict.get data k = some (Value.num (JSNum.fin q))

/-- The condition of the new-alert branch (lines 352-353): the alert `id` is in
`params.alerts` and is not in the alerts of the host record. -/
def fires (hd : HostData) (p : Params) (id : String) : Bool :=
  (Dict.get hd.alerts id).isNone && (Dict.get p.alerts id).isSome

/-- A log line that is neither an `alert_new` nor an `alert_cleared`. -/
def LogEvent.isPlain : LogEvent → Bool
  | LogEvent.alert_new _ _ _ => false
  | LogEvent.alert_cleared _ _ _ => false
  | _ => true

/-- The log line is the `alert_new` transaction of alert `id`. -/
def LogEvent.isNew (id : String) : LogEvent → Bool
  | LogEvent.alert_new _ key _ => decide (key = id)
  | _ => false

/-- The log line is the `alert_cleared` transaction of alert `id`. -/
def LogEvent.isCleared (id : String) : LogEvent → Bool
  | LogEvent.alert_cleared _ key _ => decide (key = id)
  | _ => false

/-! ## Sequences of cache updates, and the key of a storage call -/

/-- A sequence of `updateGroupData` calls for one group id, each on the cache
left by the previous one. -/
def updateGroupCalls (cache : Dict GroupCache) (group_id : String)
    (calls : List (Dict Value)) : Dict GroupCache :=
  calls.foldl (fun c data => updateGroupData c group_id data) cache

/-- The key a storage call is made on. -/
def Op.key : Op → String
  | Op.lock k => k
  | Op.unlock k => k
  | Op.get k => k
  | Op.put k => k
  | Op.listGet k => k
  | Op.listPush k => k
  | Op.listSplice k => k
  | Op.expire k _ => k

/-- The storage call is a `lock` or an `unlock`. -/
def Op.isLocking : Op → Bool
  | Op.lock _ => true
  | Op.unlock _ => true
  | _ => false

/-- The storage call is one of the list calls of `processSystem`. -/
def Op.isList : Op → Bool
  | Op.listGet _ => true
  | Op.listPush _ => true
  | Op.listSplice _ => true
  | Op.expire _ _ => true
  | _ => false

/-! ## The API layer: `api_hello` and `api_submit` (lines 13-143) -/

/-- A character of the class `\s` of a JavaScript regular expression: the white
space and line terminator code points. -/
def isSpace (c : Char) : Bool :=
  decide (c.toNat ∈ [0x09, 0x0A, 0x0B, 0x0C, 0x0D, 0x20, 0xA0, 0x1680, 0x2028, 0x2029,
    0x202F, 0x205F, 0x3000, 0xFEFF]) ||
  (decide (0x2000 ≤ c.toNat) && decide (c.toNat ≤ 0x200A))

/-- The pattern `/^\S+$/` of lines 23, 24 and 84: one or more characters, none
of them white space. -/
def isToken (s : String) : Bool :=
  !s.data.isEmpty && s.data.all (fun c => !isSpace c)

/-- The call `.replace(/\//g, '')` of lines 28 and 102. -/
def removeSlashes (s : String) : String :=
  String.mk (s.data.filter (fun c => c != '/'))

/-- A command definition (`this.commands`). -/
structure CommandDef where
  id : String
  group_match : String
  enabled : Bool
deriving DecidableEq

/-- The object `args.params` of a request: `hostname` and `nonce` are `none`
when the request does not have them, `data` is the data tree of the request,
`none` when the request has none (`params.data` is falsy), and `group` is empty
when unset. -/
structure Request where
  hostname : Option String
  group : String
  data : Option String
  nonce : Option String
deriving DecidableEq

/-- What the API layer uses of the storage and server components. -/
structure Api where
  /-- The function `storage.normalizeKey`. -/
  normalizeKey : String → String
  /-- The function `Tools.digestHex( text, 'sha256' )`. -/
  digestHex : String → String
  /-- The setting `secret_key`. -/
  secret_key : String
  /-- The list `this.commands`. -/
  commands : List CommandDef

/-- The object passed to the callback of an API call: `{ code: 0 }`, the answer
to a hello, the error of `requireParams` for the parameter `name`, or the error
`{ code, description }` of `doError`. -/
inductive Response where
  | ok
  | hello (nonce auth : String) (commands : List CommandDef)
  | badParam (name : String)
  | error (code msg : String)
deriving DecidableEq

/-- The response is an error. -/
def Response.isError : Response → Bool
  | Response.badParam _ => true
  | Response.error _ _ => true
  | _ => false

/-- One round of the loop of lines 37-43 and 112-118 on the pair
`(params.group, lowest_sort_order)`. -/
def detectStep (env : Env) (hostname : String) (s : String × ℚ) (group_def : GroupDef) :
    String × ℚ :=
  if (env.regexMatch hostname group_def.hostname_match).isSome ∧ group_def.sort_order < s.2 then
    (group_def.id, group_def.sort_order)
  else s

/-- The group detected from the hostname (lines 36-43 and 111-118); empty when
the loop assigns none. -/
def detectGroup (env : Env) (group_defs : List GroupDef) (hostname : String) : String :=
  (group_defs.foldl (detectStep env hostname) ("", 999999)).1

/-- Lines 29-31 and 103-106: a group sent with the request is normalized. -/
def normalizeGroup (api : Api) (group : String) : String :=
  if group ≠ "" then api.normalizeKey group else group

/-- The value of `params.group` at lines 45 and 120: the normalized group of the
request when that is not empty, else the group detected from the hostname. -/
def resolveGroup (env : Env) (api : Api) (group_defs : List GroupDef)
    (group hostname : String) : String :=
  if normalizeGroup api group ≠ "" then normalizeGroup api group
  else detectGroup env group_defs hostname

/-- The result of an API call: the state, the response, and the tasks handed to
`storage.enqueue`. -/
structure ApiResult where
  st : State
  response : Response
  enqueued : List Submission

/-- The rejection of lines 45-49 and 120-124. -/
def rejectNoGroup (st : State) (hostname : String) : ApiResult :=
  { st :=
      { st with
        log := st.log ++
          [LogEvent.warning ("Hostname is not a member of any groups: " ++ hostname)] }
    response := Response.error "submit" ("Hostname is not a member of any groups: " ++ hostname)
    enqueued := [] }

/-- The rejection of lines 53-56 and 128-131. -/
def rejectUnknownGroup (st : State) (group hostname : String) : ApiResult :=
  { st :=
      { st with
        log := st.log ++
          [LogEvent.warning ("Unknown group: " ++ group ++ " (sent from: " ++ hostname ++ ")")] }
    response := Response.error "submit" ("Unknown group: " ++ group)
    enqueued := [] }

/-- The method `api_submit` (lines 75-143) for a request from the address `ip`. -/
def api_submit (env : Env) (api : Api) (srv : Server) (st : State) (ip : String)
    (req : Request) : ApiResult :=
  match req.hostname with
  | none => { st := st, response := Response.badParam "hostname", enqueued := [] }
  | some name =>
    if isToken name = false then
      { st := st, response := Response.badParam "hostname", enqueued := [] }
    else
      match req.data with
      | none =>
        { st := st, response := Response.error "submit" "Missing required data object",
          enqueued := [] }
      | some data =>
        let hostname := removeSlashes (api.normalizeKey name)
        let group := resolveGroup env api srv.groups req.group hostname
        if group = "" then rejectNoGroup st hostname
        else
          match findGroup srv.groups group with
          | none => rejectUnknownGroup st group hostname
          | some _ =>
            { st := st
              response := Response.ok
              enqueued :=
                [{ hostname := hostname, group := group, custom_group := decide (req.group ≠ ""),
                   ip := ip, date := ⌊env.now⌋, data := data }] }

/-- The method `api_hello` (lines 13-73). -/
def api_hello (env : Env) (api : Api) (srv : Server) (st : State) (req : Request) : ApiResult :=
  match req.hostname with
  | none => { st := st, response := Response.badParam "hostname", enqueued := [] }
  | some name =>
    if isToken name = false then
      { st := st, response := Response.badParam "hostname", enqueued := [] }
    else
      match req.nonce with
      | none => { st := st, response := Response.badParam "nonce", enqueued := [] }
      | some nonce =>
        if isToken nonce = false then
          { st := st, response := Response.badParam "nonce", enqueued := [] }
        else
          let hostname := removeSlashes (api.normalizeKey name)
          let group := resolveGroup env api srv.groups req.group hostname
          if group = "" then rejectNoGroup st hostname
          else
            match findGroup srv.groups group with
            | none => rejectUnknownGroup st group hostname
            | some group_def =>
              { st := st
                response :=
                  Response.hello nonce (api.digestHex (nonce ++ api.secret_key))
                    (api.commands.filter
                      (fun command =>
                        (env.regexMatch group_def.id command.group_match).isSome &&
                          command.enabled))
                enqueued := [] }

/-! ## Storage calls that fail -/

/-- The storage calls of a submission that pass an error to their callback
(`listGet` and the list writes by key), and the text of that error. -/
structure Faults where
  lock : Bool
  get : Bool
  listGet : String → Bool
  listWrite : String → Bool
  put : Bool
  message : String

/-- No storage call fails. -/
def noFaults : Faults :=
  { lock := false, get := false, listGet := fun _ => false, listWrite := fun _ => false,
    put := false, message := "" }

/-- The error of a series: an error of `processSystem`, or the error of the
storage call `op`. -/
inductive RunError where
  | timeline (e : SysError)
  | storage (op : Op)
deriving DecidableEq

/-- The message of the error of a series. -/
def RunError.message (f : Faults) : RunError → String
  | RunError.timeline e => e.message
  | RunError.storage _ => f.message

/-- The method `processSystem` (lines 464-561) with storage calls that may fail:
an error of `listGet` is ignored (line 483, `items` is then undefined), an error
of `listSplice` (line 529) or `listPush` (line 546) is passed to the callback. -/
def processSystemF (f : Faults) (env : Env) (srv : Server) (st : State) (sys : Sys) (p : Params)
    (data : Dict Value) : State × Option RunError :=
  let key := timelineKey env sys p
  let st1 : State :=
    { st with
      hostnameCache := markHostname st.hostnameCache sys p
      trace := st.trace ++ [Op.listGet key] }
  match loadLast env sys p (if f.listGet key then none else listGetLast st key) with
  | Except.error e => (st1, some (RunError.timeline e))
  | Except.ok update_data =>
    if f.listWrite key then
      match update_data with
      | some _ =>
        ({ st1 with trace := st1.trace ++ [Op.listSplice key] },
          some (RunError.storage (Op.listSplice key)))
      | none =>
        ({ st1 with trace := st1.trace ++ [Op.listPush key] },
          some (RunError.storage (Op.listPush key)))
    else (pushOrMerge env srv st1 sys p data update_data, none)

/-- Lines 412-424 with storage calls that may fail. -/
def processSystemsF (f : Faults) (env : Env) (srv : Server) (p : Params) (data : Dict Value) :
    State → List Sys → State × Option RunError
  | st, [] => (st, none)
  | st, sys :: rest =>
    match processSystemF f env srv st sys p data with
    | (st1, some e) => (st1, some e)
    | (st1, none) => processSystemsF f env srv p data st1 rest

/-- The result of `processDataSubmission` when storage calls may fail. -/
structure Run where
  st : State
  params : Params
  data : Dict Value
  err : Option RunError
  log : List LogEvent
  sent : List Notification

/-- The final callback of lines 431-441 on an error `e`: the record is unlocked
and the error logged. -/
def failRun (f : Faults) (st : State) (host_key : String) (params : Params) (data : Dict Value)
    (log : List LogEvent) (sent : List Notification) (e : RunError) : Run :=
  { st :=
      { st with
        trace := st.trace ++ [Op.unlock host_key]
        log := st.log ++ [LogEvent.error ("Failed to submit data: " ++ e.message f)] }
    params := params
    data := data
    err := some e
    log := log ++ [LogEvent.error ("Failed to submit data: " ++ e.message f)]
    sent := sent }

/-- Lines 412-441 with storage calls that may fail. -/
def finishSubmissionF (f : Faults) (env : Env) (srv : Server) (st1 : State) (host_key : String)
    (params : Params) (data : Dict Value) (log : List LogEvent) (sent : List Notification) :
    Run :=
  match processSystemsF f env srv params data st1 srv.systems with
  | (st2, some e) => failRun f st2 host_key params data log sent e
  | (st2, none) =>
    if f.put then
      failRun f { st2 with trace := st2.trace ++ [Op.put host_key] } host_key params data log sent
        (RunError.storage (Op.put host_key))
    else
      { st :=
          { st2 with
            hosts := Dict.set st2.hosts host_key params
            trace := st2.trace ++ [Op.put host_key, Op.unlock host_key] }
        params := params
        data := data
        err := none
        log := log
        sent := sent }

/-- The method `processDataSubmission` (lines 145-443) with storage calls that
may fail. An error of `lock` ends the series at once (line 256); an error of
`get` leaves `data` undefined, so that the host is taken for a brand new server
(line 261); an error of a list write or of `put` reaches the final callback.
`none` is an uncaught `TypeError`, as in `processDataSubmission`. -/
def processDataSubmissionF (f : Faults) (env : Env) (srv : Server) (st : State)
    (task : Submission) : Option Run :=
  let ms := monitorPass env srv.monitors task
  let host_key := hostKey task.hostname
  if f.lock then
    some
      (failRun f
        { st with trace := st.trace ++ [Op.lock host_key], log := st.log ++ ms.log }
        host_key ms.params ms.data ms.log [] (RunError.storage (Op.lock host_key)))
  else
    match findGroup srv.groups task.group with
    | none => none
    | some group_def =>
      let alerts_snoozed := alertsSnoozed env srv
      let hd := if f.get then HostData.brandNew else hostData st task.hostname
      let loadLog :=
        if f.get then [LogEvent.server_add ms.params.hostname] else loadHostLog st ms.params
      let dp := deltaPass env hd ms.delta_defs ms.params ms.data
      let ap := alertPass env hd srv.alerts dp.1
      match newTransitions srv group_def alerts_snoozed hd
          { params := ap.1, log := [], sent := [] } with
      | none => none
      | some nt =>
        let ct := clearedTransitions env srv group_def alerts_snoozed hd nt
        let log := ms.log ++ loadLog ++ ap.2 ++ ct.log
        some
          (finishSubmissionF f env srv
            { st with
              trace := st.trace ++ [Op.lock host_key, Op.get host_key]
              log := st.log ++ log
              sent := st.sent ++ ct.sent
              groupCache := updateGroupData st.groupCache group_def.id dp.2
              alertCache := Dict.set st.alertCache ct.params.hostname ct.params.alerts }
            host_key ct.params dp.2 log ct.sent)

/-- The result of a submission without storage errors, as a `Run`. -/
def Outcome.toRun (o : Outcome) : Run :=
  { st := o.st, params := o.params, data := o.data, err := o.err.map RunError.timeline,
    log := o.log, sent := o.sent }

/-- The notifications of a result are dropped, and the state keeps the
notifications `sent` it had. -/
def Outcome.quiet (sent : List Notification) (o : Outcome) : Outcome :=
  { o with st := { o.st with sent := sent }, sent := [] }

/-! ## Failing definitions, and definitions that do not refer to a monitor -/

/-- The source of the monitor fails to resolve on `params` (lines 166-191): the
template has an unresolved placeholder or is empty once substituted, or it has
math operations and its evaluation throws. -/
def sourceFails (env : Env) (p : Params) (mon : MonitorDef) : Bool :=
  match env.subFatal mon.source p.data with
  | none => true
  | some exp =>
    decide (exp = "") ||
      (env.hasMath mon.source &&
        match env.safeEval exp p with
        | Except.error _ => true
        | Except.ok _ => false)

/-- The alert definition triggers on `params` (lines 318-337): the group filter
lets it through and its expression evaluates to `true`. -/
def alertTriggers (env : Env) (p : Params) (a : AlertDef) : Bool :=
  !groupFiltered env a.group_match p.group &&
    strictTrue (env.safeEval (env.sub a.expression p.data) p)

/-- Two `params` objects that differ at most in the entry `id` of
`data.monitors` and of `data.deltas`. -/
structure AgreeOff (id : String) (p p' : Params) : Prop where
  hostname : p.hostname = p'.hostname
  group : p.group = p'.group
  custom_group : p.custom_group = p'.custom_group
  ip : p.ip = p'.ip
  date : p.date = p'.date
  raw : p.data.raw = p'.data.raw
  alerts : p.alerts = p'.alerts
  new_alerts : p.new_alerts = p'.new_alerts
  monitors : ∀ k, k ≠ id → Dict.get p.data.monitors k = Dict.get p'.data.monitors k
  deltas : ∀ k, k ≠ id → Dict.get p.data.deltas k = Dict.get p'.data.deltas k

/-- Two states of the monitor loop that differ at most in the entries `id` of
`params.data.monitors` and of the working map, and in the delta monitors of id
`id`. -/
structure MonAgree (id : String) (s s' : MonState) : Prop where
  params : AgreeOff id s.params s'.params
  data : ∀ k, k ≠ id → Dict.get s.data k = Dict.get s'.data k
  delta_defs : s'.delta_defs = s.delta_defs.filter (fun m => decide (m.id ≠ id))

/-- The source of the monitor does not refer to the value of the monitor `id`:
it resolves alike on `params` objects that differ in that value only. -/
def MonitorIndependent (env : Env) (id : String) (mon : MonitorDef) : Prop :=
  ∀ p p', AgreeOff id p p' → resolveSource env p mon = resolveSource env p' mon

/-- The expression and the message of the alert do not refer to the value of the
monitor `id`: they substitute and evaluate alike on `params` objects that differ
in that value only. -/
def AlertIndependent (env : Env) (id : String) (a : AlertDef) : Prop :=
  ∀ p p', AgreeOff id p p' →
    env.sub a.expression p.data = env.sub a.expression p'.data ∧
    env.safeEval (env.sub a.expression p.data) p =
      env.safeEval (env.sub a.expression p.data) p' ∧
    alertSub env a.message p.data = alertSub env a.message p'.data

/-! ## Example inputs -/

/-- Number conversion of the strings used in the examples (`""`, `"1000"`,
`"1500"`); any other string of the examples is not a number. -/
def exToNumber (s : String) : JSNum :=
  if s = "" then JSNum.fin 0
  else if s = "1000" then JSNum.fin 1000
  else if s = "1500" then JSNum.fin 1500
  else JSNum.nan

/-- An example environment: a source template resolves to the raw payload of the
submission, and an alert expression is true when it is the text `true`. -/
def exEnv : Env :=
  { formatDate := fun _ format => format
    getSecondsFromText := fun _ => 86400
    now := 100000
    subFatal := fun _ data => some data.raw
    sub := fun text _ => text
    hasMath := fun _ => false
    safeEval := fun exp _ => Except.ok (Raw.bool (decide (exp = "true")))
    regexMatch := fun text _ => some [some text]
    toStr := fun r =>
      match r with
      | Raw.val (Value.str s) => s
      | _ => ""
    parseInt := fun r =>
      match r with
      | Raw.val (Value.str s) => exToNumber s
      | _ => JSNum.nan
    parseFloat := fun r =>
      match r with
      | Raw.val (Value.str s) => exToNumber s
      | _ => JSNum.nan
    toNumber := exToNumber
    replaceTags := fun text _ => text }

/-- The delta monitor of the example of the specification: `net.bytes_in`,
`data_type` bytes, divided by the elapsed seconds. -/
def exMon : MonitorDef :=
  { id := "net", source := "[net/bytes_in]", data_type := "bytes", data_match := "",
    delta := true, divide_by_delta := true, multiply := 0, divide := 0, group_match := "" }

/-- A delta monitor of `data_type` string. -/
def exLabelMon : MonitorDef :=
  { id := "label", source := "[label]", data_type := "string", data_match := "",
    delta := true, divide_by_delta := false, multiply := 0, divide := 0, group_match := "" }

/-- An alert whose expression is always true. -/
def exAlert : AlertDef :=
  { id := "hot", title := "Hot", expression := "true", message := "hot", group_match := "",
    enabled := true }

/-- An example group. -/
def exGroup : GroupDef :=
  { id := "main", hostname_match := ".+", sort_order := 1, alerts_enabled := true,
    title := "Main" }

/-- An hourly resolution. -/
def exSys (single_only : Bool) : Sys :=
  { id := "hourly", epoch_div := 3600, date_format := "yyyy/mm/dd", single_only := single_only }

/-- An example server with the monitor `mon`. -/
def exSrv (mon : MonitorDef) : Server :=
  { monitors := [mon], alerts := [exAlert], groups := [exGroup], systems := [exSys false],
    alert_snooze := 0, expiration := "" }

/-- The state of a server that has stored nothing yet, with the timeline lists
`lists`. -/
def exState (lists : Dict (List Bucket)) : State :=
  { hosts := [], lists := lists, trace := [], groupCache := [], alertCache := [],
    hostnameCache := [], log := [], sent := [] }

/-- A submission of host `web1` at `date` with the raw payload `raw`. -/
def exTask (date : ℤ) (raw : String) : Submission :=
  { hostname := "web1", group := "main", custom_group := false, ip := "10.0.0.1", date := date,
    data := raw }

/-- The object `params` of `exTask date raw` once its monitor `id` resolved to
`value`. -/
def exParams (date : ℤ) (raw id : String) (value : Value) : Params :=
  { initParams (exTask date raw) with
    data := { raw := raw, monitors := [(id, value)], deltas := [] } }

/-- A host record dated `date` that holds `value` for the monitor `id`. -/
def exHost (date : ℤ) (id : String) (value : Value) : HostData :=
  { ip := some "10.0.0.1", date := some date, monitors := [(id, value)], alerts := [] }

/-- The state left by the submission `task` on a server that had stored nothing. -/
def exAfter (mon : MonitorDef) (task : Submission) : State :=
  match processDataSubmission exEnv (exSrv mon) (exState []) task with
  | some o => o.st
  | none => exState []

/-- A bucket of the hourly resolution with index `epoch_div` holding `total`
under `a`. -/
def exBucket (epoch_div : ℤ) (total : ℚ) : Bucket :=
  { date := epoch_div * 3600, epoch_div := epoch_div,
    totals := [("a", Value.num (JSNum.fin total))], count := 1, alerts := none }

/-- The timeline key of host `web1` in the hourly resolution. -/
def exKey : String := "timeline/hourly/web1/yyyy/mm/dd"

/-- The API component of the examples: keys are already normalized. -/
def exApi : Api :=
  { normalizeKey := fun key => key, digestHex := fun text => text, secret_key := "secret",
    commands := [] }

/-- A request of host `web1` that names no group. -/
def exRequest : Request :=
  { hostname := some "web1", group := "", data := some "1000", nonce := some "n1" }

/-- A group whose pattern matches every hostname, with a large `sort_order`. -/
def exBigGroup : GroupDef :=
  { id := "big", hostname_match := ".+", sort_order := 1000000, alerts_enabled := true,
    title := "Big" }

/-- A daily resolution. -/
def exDaily : Sys :=
  { id := "daily", epoch_div := 86400, date_format := "yyyy", single_only := false }

/-- The write of the host record fails. -/
def exFaults : Faults :=
  { lock := false, get := false, listGet := fun _ => false, listWrite := fun _ => false,
    put := true, message := "write failed" }

/-- An example server with two resolutions: the hourly one, `single_only`, and
the daily one. -/
def exSrvTwo : Server :=
  { monitors := [exMon], alerts := [exAlert], groups := [exGroup],
    systems := [exSys true, exDaily], alert_snooze := 0, expiration := "" }

/-- The example server once the alert definitions are removed. -/
def exSrvNoAlerts : Server :=
  { monitors := [exMon], alerts := [], groups := [exGroup], systems := [exSys false],
    alert_snooze := 0, expiration := "" }

/-- The example server once the expression of the alert `hot` is edited to one
that is false. -/
def exSrvCool : Server :=
  { monitors := [exMon], alerts := [{ exAlert with expression := "false" }],
    groups := [exGroup], systems := [exSys false], alert_snooze := 0, expiration := "" }

/-- An environment in which the template `[missing]` is unresolved, the alert
expression `[monitors/a] < 5` is substituted to `0 < 5` when the monitor `a` holds
`0` (and is left as it is when `a` has no value), the expressions `0 < 5` and
`true` evaluate to `true`, any other expression throws, and the number `0`
converts to the text `0`. -/
def exEnvRef : Env :=
  { exEnv with
    subFatal := fun source data => if source = "[missing]" then none else some data.raw
    sub := fun text data =>
      if text = "[monitors/a] < 5" ∧
          Dict.get data.monitors "a" = some (Value.num (JSNum.fin 0)) then "0 < 5"
      else text
    safeEval := fun exp _ =>
      if exp = "0 < 5" ∨ exp = "true" then Except.ok (Raw.bool true)
      else Except.error "ReferenceError: monitors is not defined"
    toStr := fun r =>
      match r with
      | Raw.val (Value.str s) => s
      | Raw.val (Value.num n) => if n = JSNum.fin 0 then "0" else ""
      | _ => ""
    parseInt := fun r =>
      match r with
      | Raw.val (Value.str s) => exToNumber s
      | Raw.val (Value.num n) => n
      | _ => JSNum.nan
    parseFloat := fun r =>
      match r with
      | Raw.val (Value.str s) => exToNumber s
      | Raw.val (Value.num n) => n
      | _ => JSNum.nan }

/-- A monitor of `data_type` integer whose template is unresolved. -/
def exFailMon : MonitorDef :=
  { id := "a", source := "[missing]", data_type := "integer", data_match := "",
    delta := false, divide_by_delta := false, multiply := 0, divide := 0, group_match := "" }

/-- A monitor of `data_type` string whose template is unresolved. -/
def exFailLabel : MonitorDef :=
  { id := "label", source := "[missing]", data_type := "string", data_match := "",
    delta := false, divide_by_delta := false, multiply := 0, divide := 0, group_match := "" }

/-- An alert on the value of the monitor `a`. -/
def exLowAlert : AlertDef :=
  { id := "low", title := "Low", expression := "[monitors/a] < 5", message := "low",
    group_match := "", enabled := true }

/-- An alert whose expression throws. -/
def exBadAlert : AlertDef :=
  { id := "bad", title := "Bad", expression := "oops(", message := "bad",
    group_match := "", enabled := true }

/-- A server with the failing monitors `a` and `label` and the alert `low`. -/
def exSrvFail : Server :=
  { monitors := [exFailMon, exFailLabel], alerts := [exLowAlert], groups := [exGroup],
    systems := [exSys false], alert_snooze := 0, expiration := "" }

/-- The server `exSrvFail` without the definition of the monitor `a`. -/
def exSrvFailLess : Server :=
  { monitors := [exFailLabel], alerts := [exLowAlert], groups := [exGroup],
    systems := [exSys false], alert_snooze := 0, expiration := "" }

/-- A server with the failing monitors `a` and `label`, the alert `bad` whose
expression throws and the alert `hot`. -/
def exSrvBad : Server :=
  { monitors := [exFailMon, exFailLabel], alerts := [exBadAlert, exAlert], groups := [exGroup],
    systems := [exSys false], alert_snooze := 0, expiration := "" }

/-! # Properties -/

/-! ## Association lists -/

theorem Dict.get_set_self {α : Type} (d : Dict α) (k : String) (v : α) :
    Dict.get (Dict.set d k v) k = some v := by
  induction d with
  | nil => simp [Dict.set, Dict.get]
  | cons hd tl ih =>
    obtain ⟨k', v'⟩ := hd
    by_cases h : k' = k
    · simp [Dict.set, Dict.get, h]
    · simp [Dict.set, Dict.get, h, ih]

theorem Dict.get_set_ne {α : Type} (d : Dict α) (k k' : String) (v : α) (h : k' ≠ k) :
    Dict.get (Dict.set d k v) k' = Dict.get d k' := by
  induction d with
  | nil => simp [Dict.set, Dict.get, Ne.symm h]
  | cons hd tl ih =>
    obtain ⟨k₁, v₁⟩ := hd
    by_cases h₁ : k₁ = k
    · subst h₁
      simp [Dict.set, Dict.get, Ne.symm h]
    · by_cases h₂ : k₁ = k'
      · subst h₂
        simp [Dict.set, Dict.get, h₁]
      · simp [Dict.set, Dict.get, h₁, h₂, ih]

theorem Dict.get_eq_none_iff {α : Type} (d : Dict α) (k : String) :
    Dict.get d k = none ↔ k ∉ d.map Prod.fst := by
  induction d with
  | nil => simp [Dict.get]
  | cons hd tl ih =>
    obtain ⟨k₁, v₁⟩ := hd
    by_cases h₁ : k₁ = k
    · simp [Dict.get, h₁]
    · simp [Dict.get, h₁, ih, Ne.symm h₁]

theorem Dict.mem_keys_iff {α : Type} (d : Dict α) (k : String) :
    k ∈ Dict.keys d ↔ ∃ v, Dict.get d k = some v := by
  unfold Dict.keys
  rw [List.mem_dedup]
  constructor
  · intro h
    cases hg : Dict.get d k with
    | none => exact absurd h ((Dict.get_eq_none_iff d k).1 hg)
    | some v => exact ⟨v, rfl⟩
  · rintro ⟨v, hv⟩
    by_contra h
    rw [(Dict.get_eq_none_iff d k).2 h] at hv
    exact Option.noConfusion hv

theorem Dict.nodup_keys {α : Type} (d : Dict α) : (Dict.keys d).Nodup :=
  List.nodup_dedup _

/-! ## The merge loop -/

theorem mergeTotals_eq (totals data : Dict Value) :
    mergeTotals totals data = (Dict.keys data).foldl (mergeKey data) totals := rfl

theorem mergeKey_get_self (data t : Dict Value) (key : String) (v : Value)
    (h : Dict.get data key = some v) :
    Dict.get (mergeKey data t key) key = some (mergeVal (Dict.get t key) v) := by
  unfold mergeKey
  rw [h]
  cases ht : Dict.get t key with
  | none => simp [mergeVal, Dict.get_set_self]
  | some old =>
    cases v <;> cases old <;> simp [mergeVal, Dict.get_set_self]

theorem mergeKey_get_ne (data t : Dict Value) (key k : String) (h : k ≠ key) :
    Dict.get (mergeKey data t key) k = Dict.get t k := by
  unfold mergeKey
  cases hd : Dict.get data key with
  | none => rfl
  | some v =>
    cases ht : Dict.get t key with
    | none => simp [Dict.get_set_ne _ _ _ _ h]
    | some old =>
      cases v <;> cases old <;> simp [Dict.get_set_ne _ _ _ _ h]

theorem foldl_mergeKey_get_not_mem (data : Dict Value) (k : String) :
    ∀ (ks : List String) (t : Dict Value), k ∉ ks →
      Dict.get (ks.foldl (mergeKey data) t) k = Dict.get t k := by
  intro ks
  induction ks with
  | nil => intro t _; rfl
  | cons a rest ih =>
    intro t hk
    simp only [List.mem_cons, not_or] at hk
    rw [List.foldl_cons, ih _ hk.2, mergeKey_get_ne _ _ _ _ hk.1]

theorem foldl_mergeKey_get_mem (data : Dict Value) (k : String) (v : Value)
    (hv : Dict.get data k = some v) :
    ∀ (ks : List String) (t : Dict Value), ks.Nodup → k ∈ ks →
      Dict.get (ks.foldl (mergeKey data) t) k = some (mergeVal (Dict.get t k) v) := by
  intro ks
  induction ks with
  | nil => intro t _ hk; exact absurd hk (List.not_mem_nil _)
  | cons a rest ih =>
    intro t hnd hk
    rw [List.nodup_cons] at hnd
    rw [List.foldl_cons]
    by_cases ha : k = a
    · subst ha
      rw [foldl_mergeKey_get_not_mem _ _ _ _ hnd.1, mergeKey_get_self _ _ _ _ hv]
    · have hk' : k ∈ rest := by
        rcases List.mem_cons.1 hk with h | h
        · exact absurd h ha
        · exact h
      rw [ih _ hnd.2 hk', mergeKey_get_ne _ _ _ _ ha]

/-- After the merge loop, a key of `data` holds the merged value. -/
theorem mergeTotals_get_of_some (totals data : Dict Value) (k : String) (v : Value)
    (hv : Dict.get data k = some v) :
    Dict.get (mergeTotals totals data) k = some (mergeVal (Dict.get totals k) v) := by
  rw [mergeTotals_eq]
  exact foldl_mergeKey_get_mem data k v hv _ _ (Dict.nodup_keys data)
    ((Dict.mem_keys_iff data k).2 ⟨v, hv⟩)

/-- After the merge loop, a key absent from `data` keeps its value. -/
theorem mergeTotals_get_of_none (totals data : Dict Value) (k : String)
    (hv : Dict.get data k = none) :
    Dict.get (mergeTotals totals data) k = Dict.get totals k := by
  rw [mergeTotals_eq]
  apply foldl_mergeKey_get_not_mem
  intro hmem
  obtain ⟨v, h⟩ := (Dict.mem_keys_iff data k).1 hmem
  rw [hv] at h
  exact Option.noConfusion h

/-! ## `processSystem` -/

/-- The items of the list stored under `key`. -/
theorem listGetLast_eq (st : State) (key : String) :
    listGetLast st key = ((Dict.get st.lists key).getD []).getLast? := rfl

theorem loadLast_push (env : Env) (sys : Sys) (p : Params) (last : Option Bucket)
    (h : ∀ b, last = some b → b.epoch_div < epochDiv sys p) :
    loadLast env sys p last = Except.ok none := by
  cases last with
  | none => rfl
  | some b =>
    have hb := h b rfl
    have h1 : ¬ b.epoch_div = epochDiv sys p := ne_of_lt hb
    have h2 : ¬ b.epoch_div > epochDiv sys p := not_lt.2 (le_of_lt hb)
    simp [loadLast, h1, h2]

theorem loadLast_merge (env : Env) (sys : Sys) (p : Params) (b : Bucket)
    (hs : sys.single_only = false) (h : b.epoch_div = epochDiv sys p) :
    loadLast env sys p (some b) = Except.ok (some b) := by
  simp [loadLast, h, hs]

theorem loadLast_double (env : Env) (sys : Sys) (p : Params) (b : Bucket)
    (hs : sys.single_only = true) (h : b.epoch_div = epochDiv sys p) :
    loadLast env sys p (some b) = Except.error (SysError.doubleSubmission p.hostname) := by
  simp [loadLast, h, hs]

theorem loadLast_order (env : Env) (sys : Sys) (p : Params) (b : Bucket)
    (h : epochDiv sys p < b.epoch_div) :
    loadLast env sys p (some b) =
      Except.error (SysError.outOfOrder (epochDiv sys p) b.epoch_div (timelineKey env sys p)) := by
  have h1 : ¬ b.epoch_div = epochDiv sys p := ne_of_gt h
  simp [loadLast, h1, h]

/-- The state `processSystem` leaves when the first step fails: only the
hostname cache and the trace (one `listGet`) differ. -/
theorem processSystem_of_error (env : Env) (srv : Server) (st : State) (sys : Sys) (p : Params)
    (data : Dict Value) (e : SysError)
    (h : loadLast env sys p (listGetLast st (timelineKey env sys p)) = Except.error e) :
    processSystem env srv st sys p data =
      ({ st with
          hostnameCache := markHostname st.hostnameCache sys p
          trace := st.trace ++ [Op.listGet (timelineKey env sys p)] }, some e) := by
  simp [processSystem, h]

theorem processSystem_of_ok (env : Env) (srv : Server) (st : State) (sys : Sys) (p : Params)
    (data : Dict Value) (u : Option Bucket)
    (h : loadLast env sys p (listGetLast st (timelineKey env sys p)) = Except.ok u) :
    processSystem env srv st sys p data =
      (pushOrMerge env srv
        { st with
          hostnameCache := markHostname st.hostnameCache sys p
          trace := st.trace ++ [Op.listGet (timelineKey env sys p)] } sys p data u, none) := by
  simp [processSystem, h]

theorem pushOrMerge_lists_none (env : Env) (srv : Server) (st : State) (sys : Sys) (p : Params)
    (data : Dict Value) :
    (pushOrMerge env srv st sys p data none).lists =
      Dict.set st.lists (timelineKey env sys p)
        ((Dict.get st.lists (timelineKey env sys p)).getD [] ++ [newBucket sys p data]) := rfl

theorem pushOrMerge_lists_some (env : Env) (srv : Server) (st : State) (sys : Sys) (p : Params)
    (data : Dict Value) (b : Bucket) :
    (pushOrMerge env srv st sys p data (some b)).lists =
      Dict.set st.lists (timelineKey env sys p)
        (((Dict.get st.lists (timelineKey env sys p)).getD []).dropLast ++
          [mergeBucket p data b]) := rfl

/-- A call that appends: the new last item is the new bucket. -/
theorem processSystem_push (env : Env) (srv : Server) (st : State) (sys : Sys) (p : Params)
    (data : Dict Value)
    (h : ∀ b, listGetLast st (timelineKey env sys p) = some b → b.epoch_div < epochDiv sys p) :
    (processSystem env srv st sys p data).2 = none ∧
    (processSystem env srv st sys p data).1.lists =
      Dict.set st.lists (timelineKey env sys p)
        ((Dict.get st.lists (timelineKey env sys p)).getD [] ++ [newBucket sys p data]) := by
  rw [processSystem_of_ok env srv st sys p data none (loadLast_push env sys p _ h)]
  exact ⟨rfl, rfl⟩

/-- A call that merges: the last item is replaced by the merged bucket. -/
theorem processSystem_merge (env : Env) (srv : Server) (st : State) (sys : Sys) (p : Params)
    (data : Dict Value) (b : Bucket) (hs : sys.single_only = false)
    (hb : listGetLast st (timelineKey env sys p) = some b)
    (h : b.epoch_div = epochDiv sys p) :
    (processSystem env srv st sys p data).2 = none ∧
    (processSystem env srv st sys p data).1.lists =
      Dict.set st.lists (timelineKey env sys p)
        (((Dict.get st.lists (timelineKey env sys p)).getD []).dropLast ++
          [mergeBucket p data b]) := by
  have hl : loadLast env sys p (listGetLast st (timelineKey env sys p)) = Except.ok (some b) := by
    rw [hb]
    exact loadLast_merge env sys p b hs h
  rw [processSystem_of_ok env srv st sys p data (some b) hl]
  exact ⟨rfl, rfl⟩

theorem listGetLast_set_concat (st : State) (key : String) (l : List Bucket) (b : Bucket)
    (lists : Dict (List Bucket)) (h : st.lists = Dict.set lists key (l ++ [b])) :
    listGetLast st key = some b := by
  rw [listGetLast_eq, h, Dict.get_set_self]
  simp

theorem runSystem_cons (env : Env) (srv : Server) (sys : Sys) (st : State)
    (c : Params × Dict Value) (cs : List (Params × Dict Value)) :
    runSystem env srv sys st (c :: cs) =
      runSystem env srv sys (processSystem env srv st sys c.1 c.2).1 cs := rfl

theorem mergeBucket_totals_num (p : Params) (data : Dict Value) (b : Bucket) (k : String)
    (t x : JSNum) (ht : Dict.get b.totals k = some (Value.num t))
    (hx : Dict.get data k = some (Value.num x)) :
    Dict.get (mergeBucket p data b).totals k = some (Value.num (t + x)) := by
  show Dict.get (mergeTotals b.totals data) k = _
  rw [mergeTotals_get_of_some _ _ _ _ hx, ht]
  rfl

/-- Merging a sequence of submissions of one bucket into a list whose last item
is that bucket adds their values to the total and their number to the count. -/
theorem runSystem_merge (env : Env) (srv : Server) (sys : Sys) (key k : String) (e : ℤ)
    (hs : sys.single_only = false) :
    ∀ (calls : List (Params × Dict Value × JSNum)) (st : State) (b : Bucket) (t : JSNum),
      listGetLast st key = some b → b.epoch_div = e →
      Dict.get b.totals k = some (Value.num t) →
      (∀ c ∈ calls, timelineKey env sys c.1 = key ∧ epochDiv sys c.1 = e ∧
        Dict.get c.2.1 k = some (Value.num c.2.2)) →
      ∃ b', listGetLast (runSystem env srv sys st (calls.map fun c => (c.1, c.2.1))) key =
          some b' ∧
        b'.epoch_div = e ∧ b'.date = b.date ∧
        Dict.get b'.totals k = some (Value.num (t + (calls.map fun c => c.2.2).sum)) ∧
        b'.count = b.count + calls.length := by
  intro calls
  induction calls with
  | nil =>
    intro st b t hb he ht _
    exact ⟨b, hb, he, rfl, by simpa using ht, rfl⟩
  | cons c rest ih =>
    intro st b t hb he ht hc
    obtain ⟨hkey, hdiv, hval⟩ := hc c (List.mem_cons_self _ _)
    have hb' : listGetLast st (timelineKey env sys c.1) = some b := by rw [hkey]; exact hb
    have hm := processSystem_merge env srv st sys c.1 c.2.1 b hs hb' (by rw [he, hdiv])
    have hlast : listGetLast (processSystem env srv st sys c.1 c.2.1).1 key =
        some (mergeBucket c.1 c.2.1 b) := by
      rw [← hkey]
      exact listGetLast_set_concat _ _ _ _ _ hm.2
    obtain ⟨b', h1, h2, h3, h4, h5⟩ :=
      ih (processSystem env srv st sys c.1 c.2.1).1 (mergeBucket c.1 c.2.1 b) (t + c.2.2)
        hlast he (mergeBucket_totals_num _ _ _ _ _ _ ht hval)
        (fun c' hc' => hc c' (List.mem_cons_of_mem _ hc'))
    refine ⟨b', ?_, h2, h3, ?_, ?_⟩
    · simpa [runSystem_cons] using h1
    · rw [h4, List.map_cons, List.sum_cons, add_assoc]
    · rw [h5]
      show b.count + 1 + rest.length = b.count + (rest.length + 1)
      omega

/-- C1. Timeline merge within one bucket. For a resolution that is not
`single_only`, a list (stored under `key`) that is empty or whose last bucket has
a lower `epoch_div` than `e`, and `K >= 1` submissions addressed to that list
whose timestamps all map to `e` and whose working maps carry the numbers
`x1..xK` under `k`: running `processSystem` on them in any order leaves a last
bucket whose total for `k` is `x1 + ... + xK` and whose count is `K`. -/
theorem processSystem_bucket_sum (env : Env) (srv : Server) (sys : Sys) (st : State)
    (key k : String) (e : ℤ) (subs order : List (Params × Dict Value × JSNum))
    (hs : sys.single_only = false)
    (hlast : ∀ b, listGetLast st key = some b → b.epoch_div < e)
    (hK : subs ≠ [])
    (hsubs : ∀ c ∈ subs, timelineKey env sys c.1 = key ∧ epochDiv sys c.1 = e ∧
      Dict.get c.2.1 k = some (Value.num c.2.2))
    (horder : order.Perm subs) :
    ∃ b, listGetLast (runSystem env srv sys st (order.map fun c => (c.1, c.2.1))) key = some b ∧
      b.epoch_div = e ∧
      Dict.get b.totals k = some (Value.num (subs.map fun c => c.2.2).sum) ∧
      b.count = subs.length := by
  have hsum : (subs.map fun c => c.2.2).sum = (order.map fun c => c.2.2).sum :=
    (List.Perm.sum_eq (horder.map _)).symm
  have hlen : subs.length = order.length := horder.length_eq.symm
  have hord : ∀ c ∈ order, timelineKey env sys c.1 = key ∧ epochDiv sys c.1 = e ∧
      Dict.get c.2.1 k = some (Value.num c.2.2) := fun c hc => hsubs c (horder.mem_iff.1 hc)
  rw [hsum, hlen]
  cases order with
  | nil => exact absurd (List.Perm.nil_eq horder) (Ne.symm hK)
  | cons c rest =>
    obtain ⟨hkey, hdiv, hval⟩ := hord c (List.mem_cons_self _ _)
    have hp := processSystem_push env srv st sys c.1 c.2.1
      (by rw [hkey, hdiv]; exact hlast)
    have hl : listGetLast (processSystem env srv st sys c.1 c.2.1).1 key =
        some (newBucket sys c.1 c.2.1) := by
      rw [← hkey]
      exact listGetLast_set_concat _ _ _ _ _ hp.2
    obtain ⟨b', h1, h2, _, h4, h5⟩ :=
      runSystem_merge env srv sys key k e hs rest (processSystem env srv st sys c.1 c.2.1).1
        (newBucket sys c.1 c.2.1) c.2.2 hl hdiv hval
        (fun c' hc' => hord c' (List.mem_cons_of_mem _ hc'))
    refine ⟨b', ?_, h2, ?_, ?_⟩
    · simpa [runSystem_cons] using h1
    · rw [h4, List.map_cons, List.sum_cons]
    · rw [h5]
      show 1 + rest.length = rest.length + 1
      omega

/-- C2. A submission whose `epoch_div` is lower than that of the last bucket of
its list: `processSystem` returns the ordering error, its only storage call is
the `listGet` (no `listPush`, no `listSplice`), and every list is unmodified. -/
theorem processSystem_out_of_order (env : Env) (srv : Server) (st : State) (sys : Sys)
    (p : Params) (data : Dict Value) (b : Bucket)
    (hb : listGetLast st (timelineKey env sys p) = some b)
    (h : epochDiv sys p < b.epoch_div) :
    (processSystem env srv st sys p data).2 =
        some (SysError.outOfOrder (epochDiv sys p) b.epoch_div (timelineKey env sys p)) ∧
      (processSystem env srv st sys p data).1.trace =
        st.trace ++ [Op.listGet (timelineKey env sys p)] ∧
      (processSystem env srv st sys p data).1.lists = st.lists := by
  have hl : loadLast env sys p (listGetLast st (timelineKey env sys p)) =
      Except.error (SysError.outOfOrder (epochDiv sys p) b.epoch_div (timelineKey env sys p)) := by
    rw [hb]
    exact loadLast_order env sys p b h
  rw [processSystem_of_error env srv st sys p data _ hl]
  exact ⟨rfl, rfl, rfl⟩

/-- C4. On a `single_only` resolution, a submission whose `epoch_div` equals that
of the last bucket of its list: `processSystem` returns the double-submission
error, its only storage call is the `listGet`, and every list is unmodified, so
the totals and count of the bucket are not summed or incremented. -/
theorem processSystem_single_only (env : Env) (srv : Server) (st : State) (sys : Sys)
    (p : Params) (data : Dict Value) (b : Bucket)
    (hs : sys.single_only = true)
    (hb : listGetLast st (timelineKey env sys p) = some b)
    (h : b.epoch_div = epochDiv sys p) :
    (processSystem env srv st sys p data).2 = some (SysError.doubleSubmission p.hostname) ∧
      (processSystem env srv st sys p data).1.trace =
        st.trace ++ [Op.listGet (timelineKey env sys p)] ∧
      (processSystem env srv st sys p data).1.lists = st.lists ∧
      listGetLast (processSystem env srv st sys p data).1 (timelineKey env sys p) = some b := by
  have hl : loadLast env sys p (listGetLast st (timelineKey env sys p)) =
      Except.error (SysError.doubleSubmission p.hostname) := by
    rw [hb]
    exact loadLast_double env sys p b hs h
  rw [processSystem_of_error env srv st sys p data _ hl]
  exact ⟨rfl, rfl, rfl, hb⟩

/-! ### The ordering invariant -/

theorem pairwise_lt_concat (l : List ℤ) (e : ℤ) (hl : l.Pairwise (· < ·))
    (h : ∀ x, l.getLast? = some x → x < e) : (l ++ [e]).Pairwise (· < ·) := by
  rw [List.pairwise_append]
  refine ⟨hl, List.pairwise_singleton _ _, ?_⟩
  intro a ha b hb
  rw [List.mem_singleton] at hb
  subst hb
  rcases List.eq_nil_or_concat l with hnil | ⟨l', x, hx⟩
  · subst hnil
    exact absurd ha (List.not_mem_nil _)
  · rw [List.concat_eq_append] at hx
    subst hx
    have hxe : x < b := h x (by simp)
    rw [List.pairwise_append] at hl
    rcases List.mem_append.1 ha with h1 | h1
    · exact lt_trans (hl.2.2 a h1 x (List.mem_singleton_self _)) hxe
    · rw [List.mem_singleton] at h1
      rw [h1]
      exact hxe

theorem map_dropLast_concat_last (l : List Bucket) (b b' : Bucket) (hb : l.getLast? = some b)
    (he : b'.epoch_div = b.epoch_div) :
    (l.dropLast ++ [b']).map Bucket.epoch_div = l.map Bucket.epoch_div := by
  rcases List.eq_nil_or_concat l with hnil | ⟨l', x, hx⟩
  · subst hnil
    simp at hb
  · rw [List.concat_eq_append] at hx
    subst hx
    simp at hb
    subst hb
    simp [he]

theorem epochDivs_set (st : State) (lists : Dict (List Bucket)) (key k : String)
    (l : List Bucket) (h : st.lists = Dict.set lists key l) :
    epochDivs st k =
      if k = key then l.map Bucket.epoch_div
      else ((Dict.get lists k).getD []).map Bucket.epoch_div := by
  unfold epochDivs
  by_cases hk : k = key
  · subst hk
    simp [h, Dict.get_set_self]
  · simp [h, hk, Dict.get_set_ne _ _ _ _ hk]

/-- Every call of `processSystem` keeps the lists strictly increasing. -/
theorem processSystem_ordered (env : Env) (srv : Server) (st : State) (sys : Sys) (p : Params)
    (data : Dict Value) (h : Ordered st) : Ordered (processSystem env srv st sys p data).1 := by
  intro k
  cases hl : loadLast env sys p (listGetLast st (timelineKey env sys p)) with
  | error e =>
    rw [processSystem_of_error env srv st sys p data e hl]
    exact h k
  | ok u =>
    rw [processSystem_of_ok env srv st sys p data u hl]
    cases u with
    | none =>
      rw [epochDivs_set _ _ _ k _ (pushOrMerge_lists_none env srv _ sys p data)]
      by_cases hk : k = timelineKey env sys p
      · rw [if_pos hk, List.map_append]
        apply pairwise_lt_concat _ _ (h (timelineKey env sys p))
        intro x hx
        show x < epochDiv sys p
        have hx' : ((Dict.get st.lists (timelineKey env sys p)).getD []).getLast?.map
            Bucket.epoch_div = some x := by
          rw [← List.getLast?_map]; exact hx
        cases hb : ((Dict.get st.lists (timelineKey env sys p)).getD []).getLast? with
        | none => rw [hb] at hx'; simp at hx'
        | some b =>
          rw [hb] at hx'
          simp at hx'
          rw [listGetLast_eq, hb] at hl
          subst hx'
          unfold loadLast at hl
          simp only at hl
          by_cases h1 : b.epoch_div = epochDiv sys p
          · rw [if_pos h1] at hl
            split at hl <;> simp at hl
          · rw [if_neg h1] at hl
            by_cases h2 : b.epoch_div > epochDiv sys p
            · rw [if_pos h2] at hl
              simp at hl
            · exact lt_of_le_of_ne (not_lt.1 h2) h1
      · rw [if_neg hk]
        exact h k
    | some b =>
      rw [epochDivs_set _ _ _ k _ (pushOrMerge_lists_some env srv _ sys p data b)]
      by_cases hk : k = timelineKey env sys p
      · rw [if_pos hk]
        have hlast : ((Dict.get st.lists (timelineKey env sys p)).getD []).getLast? = some b := by
          cases hb : ((Dict.get st.lists (timelineKey env sys p)).getD []).getLast? with
          | none => rw [listGetLast_eq, hb] at hl; simp [loadLast] at hl
          | some b0 =>
            rw [listGetLast_eq, hb] at hl
            unfold loadLast at hl
            simp only at hl
            split at hl
            · split at hl
              · simp at hl
              · simp at hl
                rw [hl]
            · split at hl <;> simp at hl
        rw [map_dropLast_concat_last _ b (mergeBucket p data b) hlast rfl]
        exact h (timelineKey env sys p)
      · rw [if_neg hk]
        exact h k

theorem runSystem_ordered (env : Env) (srv : Server) (sys : Sys) :
    ∀ (calls : List (Params × Dict Value)) (st : State), Ordered st →
      Ordered (runSystem env srv sys st calls) := by
  intro calls
  induction calls with
  | nil => intro st h; exact h
  | cons c rest ih =>
    intro st h
    rw [runSystem_cons]
    exact ih _ (processSystem_ordered env srv st sys c.1 c.2 h)

/-- C3. Bucket ordering invariant. Starting from a storage without lists, after
any sequence of `processSystem` calls for one resolution (appends, merges and
rejected calls alike) every list has `epoch_div` values that are non-decreasing
and in fact strictly increasing from first to last bucket, so no two buckets of
a list share an `epoch_div`. -/
theorem processSystem_bucket_order (env : Env) (srv : Server) (sys : Sys) (st : State)
    (calls : List (Params × Dict Value)) (key : String) :
    (epochDivs (runSystem env srv sys { st with lists := [] } calls) key).Pairwise (· ≤ ·) ∧
      (epochDivs (runSystem env srv sys { st with lists := [] } calls) key).Pairwise (· < ·) ∧
      (epochDivs (runSystem env srv sys { st with lists := [] } calls) key).Nodup := by
  have h0 : Ordered { st with lists := [] } := by
    intro k
    simp [epochDivs, Dict.get]
  have h := runSystem_ordered env srv sys calls _ h0 key
  refine ⟨h.imp (fun hab => le_of_lt hab), h, h.imp (fun hab => ne_of_lt hab)⟩

/-! ## The delta pass -/

theorem deltaStep_get_ne (env : Env) (hd : HostData) (s : Params × Dict Value) (mon : MonitorDef)
    (k : String) (h : k ≠ mon.id) :
    Dict.get (deltaStep env hd s mon).2 k = Dict.get s.2 k := by
  unfold deltaStep
  cases Dict.get hd.monitors mon.id <;> simp [Dict.get_set_ne _ _ _ _ h]

theorem deltaStep_of_none (env : Env) (hd : HostData) (s : Params × Dict Value) (mon : MonitorDef)
    (h : Dict.get hd.monitors mon.id = none) :
    deltaStep env hd s mon = (s.1, Dict.set s.2 mon.id (Value.num (JSNum.fin 0))) := by
  simp [deltaStep, h]

theorem deltaStep_get_of_some (env : Env) (hd : HostData) (s : Params × Dict Value)
    (mon : MonitorDef) (prev : Value) (h : Dict.get hd.monitors mon.id = some prev) :
    Dict.get (deltaStep env hd s mon).2 mon.id =
      some (Value.num (computeDelta env mon s.1.date hd.date (Dict.get s.2 mon.id) prev)) := by
  simp [deltaStep, h, Dict.get_set_self]

theorem oldValue_fin (env : Env) (prev : Value) (p : ℚ)
    (hp : prev.truthy = true → toNum env prev = JSNum.fin p) :
    ∃ p', toNum env (oldValue prev) = JSNum.fin p' := by
  unfold oldValue
  by_cases ht : prev.truthy = true
  · exact ⟨p, by rw [if_pos ht]; exact hp ht⟩
  · exact ⟨0, by rw [if_neg ht]; rfl⟩

theorem elapsedOf_ne_zero (date d : ℤ) : ((elapsedOf date d : ℤ) : ℚ) ≠ 0 := by
  unfold elapsedOf
  by_cases h0 : date - d ≠ 0
  · rw [if_pos h0]; exact_mod_cast h0
  · rw [if_neg h0]; norm_num

theorem divideByElapsed_fin (mon : MonitorDef) (date : ℤ) (hdate : Option ℤ) (x : ℚ) :
    ∃ y, divideByElapsed mon date hdate (JSNum.fin x) = JSNum.fin y := by
  unfold divideByElapsed
  cases hdate with
  | none => exact ⟨x, rfl⟩
  | some d =>
    by_cases hcond : mon.divide_by_delta ∧ d ≠ 0
    · refine ⟨x / (elapsedOf date d : ℤ), ?_⟩
      simp only [if_pos hcond, JSNum.div, if_neg (elapsedOf_ne_zero date d)]
    · exact ⟨x, by simp only [if_neg hcond]⟩

theorem clampDelta_fin (x : ℚ) : clampDelta (JSNum.fin x) = JSNum.fin (max x 0) := by
  unfold clampDelta
  by_cases hlt : x < 0
  · have : JSNum.lt (JSNum.fin x) (JSNum.fin 0) = true := by simp [JSNum.lt, hlt]
    rw [if_pos this, max_eq_right (le_of_lt hlt)]
  · have : ¬ JSNum.lt (JSNum.fin x) (JSNum.fin 0) = true := by simp [JSNum.lt, hlt]
    rw [if_neg this, max_eq_left (not_lt.1 hlt)]

theorem floorDelta_nonneg (mon : MonitorDef) (x : ℚ) (hx : 0 ≤ x) :
    ∃ q : ℚ, 0 ≤ q ∧ floorDelta mon (JSNum.fin x) = JSNum.fin q := by
  unfold floorDelta
  by_cases hi : integerLike mon.data_type = true
  · rw [if_pos hi]
    exact ⟨((⌊x⌋ : ℤ) : ℚ), by exact_mod_cast Int.floor_nonneg.2 hx, rfl⟩
  · rw [if_neg hi]
    exact ⟨x, hx, rfl⟩

/-- The clamp and floor of lines 304-307 leave a finite delta non-negative. -/
theorem computeDelta_nonneg (env : Env) (mon : MonitorDef) (date : ℤ) (hdate : Option ℤ)
    (cur prev : Value) (c p : ℚ) (hc : toNum env cur = JSNum.fin c)
    (hp : prev.truthy = true → toNum env prev = JSNum.fin p) :
    ∃ q : ℚ, 0 ≤ q ∧ computeDelta env mon date hdate (some cur) prev = JSNum.fin q := by
  obtain ⟨p', hp'⟩ := oldValue_fin env prev p hp
  obtain ⟨y, hy⟩ := divideByElapsed_fin mon date hdate (c - p')
  unfold computeDelta
  simp only []
  rw [hc, hp']
  show ∃ q : ℚ, 0 ≤ q ∧
    floorDelta mon (clampDelta (divideByElapsed mon date hdate (JSNum.fin (c - p')))) = JSNum.fin q
  rw [hy, clampDelta_fin]
  exact floorDelta_nonneg mon _ (le_max_right _ _)

theorem NonnegAt.finiteAt (env : Env) (data : Dict Value) (k : String) (h : NonnegAt data k) :
    FiniteAt env data k := by
  obtain ⟨q, _, hq⟩ := h
  exact ⟨_, q, hq, rfl⟩

theorem deltaStep_nonnegAt_self (env : Env) (hd : HostData) (s : Params × Dict Value)
    (mon : MonitorDef) (hc : FiniteAt env s.2 mon.id) (hp : FinitePrev env hd mon.id) :
    NonnegAt (deltaStep env hd s mon).2 mon.id := by
  cases hprev : Dict.get hd.monitors mon.id with
  | none =>
    rw [deltaStep_of_none env hd s mon hprev]
    exact ⟨0, le_refl _, Dict.get_set_self _ _ _⟩
  | some prev =>
    obtain ⟨v, c, hv, hvc⟩ := hc
    have hp' : prev.truthy = true → toNum env prev = JSNum.fin
        (match toNum env prev with | JSNum.fin q => q | JSNum.nan => 0) := by
      intro ht
      obtain ⟨q, hq⟩ := hp prev hprev ht
      rw [hq]
    obtain ⟨q, hq0, hq⟩ := computeDelta_nonneg env mon s.1.date hd.date v prev c _ hvc hp'
    refine ⟨q, hq0, ?_⟩
    rw [deltaStep_get_of_some env hd s mon prev hprev, hv, hq]

theorem deltaStep_nonnegAt (env : Env) (hd : HostData) (s : Params × Dict Value)
    (mon : MonitorDef) (k : String) (hc : FiniteAt env s.2 k) (hp : FinitePrev env hd k)
    (h : NonnegAt s.2 k ∨ mon.id = k) : NonnegAt (deltaStep env hd s mon).2 k := by
  by_cases hk : k = mon.id
  · subst hk
    exact deltaStep_nonnegAt_self env hd s mon hc hp
  · rcases h with h | h
    · obtain ⟨q, hq0, hq⟩ := h
      exact ⟨q, hq0, by rw [deltaStep_get_ne env hd s mon k hk]; exact hq⟩
    · exact absurd h.symm hk

theorem deltaStep_finiteAt (env : Env) (hd : HostData) (s : Params × Dict Value)
    (mon : MonitorDef) (k : String) (hc : FiniteAt env s.2 k) (hp : FinitePrev env hd k) :
    FiniteAt env (deltaStep env hd s mon).2 k := by
  by_cases hk : k = mon.id
  · subst hk
    exact (deltaStep_nonnegAt_self env hd s mon hc hp).finiteAt env
  · obtain ⟨v, c, hv, hvc⟩ := hc
    exact ⟨v, c, by rw [deltaStep_get_ne env hd s mon k hk]; exact hv, hvc⟩

theorem deltaPass_cons (env : Env) (hd : HostData) (m : MonitorDef) (rest : List MonitorDef)
    (p : Params) (data : Dict Value) :
    deltaPass env hd (m :: rest) p data =
      deltaPass env hd rest (deltaStep env hd (p, data) m).1 (deltaStep env hd (p, data) m).2 :=
  rfl

theorem deltaPass_nonnegAt (env : Env) (hd : HostData) (k : String)
    (hp : FinitePrev env hd k) :
    ∀ (defs : List MonitorDef) (p : Params) (data : Dict Value),
      FiniteAt env data k → (NonnegAt data k ∨ ∃ m ∈ defs, m.id = k) →
        NonnegAt (deltaPass env hd defs p data).2 k := by
  intro defs
  induction defs with
  | nil =>
    intro p data _ hk
    rcases hk with h | ⟨m, hm, _⟩
    · exact h
    · exact absurd hm (List.not_mem_nil _)
  | cons m rest ih =>
    intro p data hc hk
    rw [deltaPass_cons]
    apply ih _ _ (deltaStep_finiteAt env hd (p, data) m k hc hp)
    rcases hk with h | ⟨m', hm', hid⟩
    · exact Or.inl (deltaStep_nonnegAt env hd (p, data) m k hc hp (Or.inl h))
    · rcases List.mem_cons.1 hm' with h1 | h1
      · subst h1
        exact Or.inl (deltaStep_nonnegAt env hd (p, data) m' k hc hp (Or.inr hid))
      · exact Or.inr ⟨m', h1, hid⟩

theorem deltaPass_first_report (env : Env) (hd : HostData) (k : String)
    (hk : Dict.get hd.monitors k = none) :
    ∀ (defs : List MonitorDef) (p : Params) (data : Dict Value),
      (Dict.get data k = some (Value.num (JSNum.fin 0)) ∨ ∃ m ∈ defs, m.id = k) →
        Dict.get (deltaPass env hd defs p data).2 k = some (Value.num (JSNum.fin 0)) := by
  intro defs
  induction defs with
  | nil =>
    intro p data h
    rcases h with h | ⟨m, hm, _⟩
    · exact h
    · exact absurd hm (List.not_mem_nil _)
  | cons m rest ih =>
    intro p data h
    rw [deltaPass_cons]
    apply ih
    by_cases hid : m.id = k
    · left
      subst hid
      rw [deltaStep_of_none env hd (p, data) m hk]
      exact Dict.get_set_self _ _ _
    · rcases h with h | ⟨m', hm', hid'⟩
      · left
        rw [deltaStep_get_ne env hd (p, data) m k (Ne.symm hid)]
        exact h
      · rcases List.mem_cons.1 hm' with h1 | h1
        · subst h1
          exact absurd hid' hid
        · exact Or.inr ⟨m', h1, hid'⟩

theorem orZero_fin (n : JSNum) : ∃ q, orZero n = JSNum.fin q := by
  unfold orZero
  cases n with
  | fin q =>
    by_cases h : (JSNum.fin q).truthy = true
    · exact ⟨q, by rw [if_pos h]⟩
    · exact ⟨0, by rw [if_neg h]⟩
  | nan => exact ⟨0, by simp [JSNum.truthy]⟩

/-- The value the monitor loop resolves for a `data_type` other than string is
a finite number. -/
theorem scale_coerce_fin (env : Env) (mon : MonitorDef) (v : Raw)
    (h : mon.data_type ≠ "string") :
    ∃ q, scale env mon (coerce env mon v) = Value.num (JSNum.fin q) := by
  have hc : ∃ q, coerce env mon v = Value.num (JSNum.fin q) := by
    unfold coerce
    by_cases hi : integerLike mon.data_type = true
    · obtain ⟨q, hq⟩ := orZero_fin (env.parseInt v)
      exact ⟨q, by rw [if_pos hi, hq]⟩
    · obtain ⟨q, hq⟩ := orZero_fin (env.parseFloat v)
      exact ⟨q, by rw [if_neg hi, if_neg h, hq]⟩
  obtain ⟨q, hq⟩ := hc
  rw [hq]
  unfold scale
  by_cases hm : mon.multiply ≠ 0
  · exact ⟨q * mon.multiply, by rw [if_pos hm]; rfl⟩
  · rw [if_neg hm]
    by_cases hd : mon.divide ≠ 0
    · refine ⟨q / mon.divide, ?_⟩
      rw [if_pos hd]
      simp only [toNum, JSNum.div]
      rw [if_neg hd]
    · exact ⟨q, by rw [if_neg hd]⟩

/-- C5, as amended. For every delta monitor of the pass: on a first report (the
host record holds no previous value for it) the delta placed in the working map
is exactly `0`; and when its current value and its stored previous value
convert to finite numbers (not `NaN`), as does every value the monitor loop
resolves for a `data_type` other than string, the delta placed in the working
map is a number `>= 0`. -/
theorem deltaPass_nonneg (env : Env) (hd : HostData) (defs : List MonitorDef) (p : Params)
    (data : Dict Value) :
    (∀ m ∈ defs, Dict.get hd.monitors m.id = none →
      Dict.get (deltaPass env hd defs p data).2 m.id = some (Value.num (JSNum.fin 0))) ∧
    (∀ m ∈ defs, FiniteAt env data m.id → FinitePrev env hd m.id →
      ∃ q : ℚ, 0 ≤ q ∧
        Dict.get (deltaPass env hd defs p data).2 m.id = some (Value.num (JSNum.fin q))) ∧
    (∀ (mon : MonitorDef) (v : Raw), mon.data_type ≠ "string" →
      ∃ q, scale env mon (coerce env mon v) = Value.num (JSNum.fin q)) := by
  refine ⟨?_, ?_, fun mon v h => scale_coerce_fin env mon v h⟩
  · intro m hm hnone
    exact deltaPass_first_report env hd m.id hnone defs p data (Or.inr ⟨m, hm, rfl⟩)
  · intro m hm hc hp
    exact deltaPass_nonnegAt env hd m.id hp defs p data hc (Or.inr ⟨m, hm, rfl⟩)

theorem toNum_oldValue_fin (env : Env) (p : ℚ) :
    toNum env (oldValue (Value.num (JSNum.fin p))) = JSNum.fin p := by
  unfold oldValue
  by_cases h : p = 0
  · subst h
    simp [Value.truthy, JSNum.truthy, toNum]
  · simp [Value.truthy, JSNum.truthy, toNum, h]

/-- The working-map entry written by a round of the delta pass for a monitor
with `divide_by_delta`: the difference over `elapsed` when the host record has a
non-zero timestamp and `elapsed` is not `0`, over `1` otherwise, clamped and, for
an integer-like type, floored. -/
theorem deltaStep_divided (env : Env) (hd : HostData) (s : Params × Dict Value)
    (mon : MonitorDef) (p c : ℚ)
    (hdiv : mon.divide_by_delta = true)
    (hprev : Dict.get hd.monitors mon.id = some (Value.num (JSNum.fin p)))
    (hcur : Dict.get s.2 mon.id = some (Value.num (JSNum.fin c))) :
    Dict.get (deltaStep env hd s mon).2 mon.id =
      some (Value.num (floorDelta mon (JSNum.fin
        (max ((c - p) /
          (((match hd.date with
            | some d => if d ≠ 0 ∧ s.1.date - d ≠ 0 then s.1.date - d else 1
            | none => 1 : ℤ) : ℚ))) 0)))) := by
  rw [deltaStep_get_of_some env hd s mon _ hprev, hcur]
  unfold computeDelta
  simp only []
  rw [toNum_oldValue_fin]
  have h1 : divideByElapsed mon s.1.date hd.date (JSNum.sub (toNum env (Value.num (JSNum.fin c)))
      (JSNum.fin p)) = JSNum.fin ((c - p) /
        (((match hd.date with
          | some d => if d ≠ 0 ∧ s.1.date - d ≠ 0 then s.1.date - d else 1
          | none => 1 : ℤ) : ℚ))) := by
    simp only [divideByElapsed, toNum, JSNum.sub]
    cases hd.date with
    | none => simp
    | some d =>
      simp only []
      by_cases hd0 : d = 0
      · have : ¬ (mon.divide_by_delta = true ∧ d ≠ 0) := fun hc => hc.2 hd0
        rw [if_neg this]
        simp [hd0]
      · have hel : elapsedOf s.1.date d =
            if d ≠ 0 ∧ s.1.date - d ≠ 0 then s.1.date - d else 1 := by
          unfold elapsedOf
          by_cases he : s.1.date - d = 0
          · simp [he]
          · simp [he, hd0]
        rw [if_pos ⟨hdiv, hd0⟩]
        simp only [JSNum.div]
        rw [if_neg (elapsedOf_ne_zero _ _), hel]
  rw [h1, clampDelta_fin]

/-- C7, as amended. For a delta monitor with `divide_by_delta` set, a previous
absolute value `p` and a current value `c`: the difference `c - p` is divided by
`elapsed = date - d` whenever the host record has a non-zero previous timestamp
`d` and `elapsed` is not `0` (also when `elapsed` is negative), and by exactly
`1` otherwise (`elapsed` is `0`, or the record has no timestamp or the timestamp
`0`); the quotient is then clamped at `0` and, for an integer-like type,
floored. -/
theorem deltaStep_divisor (env : Env) (hd : HostData) (s : Params × Dict Value)
    (mon : MonitorDef) (p c : ℚ)
    (hdiv : mon.divide_by_delta = true)
    (hprev : Dict.get hd.monitors mon.id = some (Value.num (JSNum.fin p)))
    (hcur : Dict.get s.2 mon.id = some (Value.num (JSNum.fin c))) :
    Dict.get (deltaStep env hd s mon).2 mon.id =
      some (Value.num (floorDelta mon (JSNum.fin
        (max ((c - p) /
          (((match hd.date with
            | some d => if d ≠ 0 ∧ s.1.date - d ≠ 0 then s.1.date - d else 1
            | none => 1 : ℤ) : ℚ))) 0)))) :=
  deltaStep_divided env hd s mon p c hdiv hprev hcur

/-- C6, as amended. For a delta monitor with `divide_by_delta` set and an
integer-like `data_type`, previous absolute value `p`, current absolute value
`c >= p`, a non-zero previous timestamp `d` of the host and
`elapsed = date - d >= 1`: the working-map delta is `floor((c - p) / elapsed)`. -/
theorem deltaStep_divide_floor (env : Env) (hd : HostData) (s : Params × Dict Value)
    (mon : MonitorDef) (p c : ℚ) (d : ℤ)
    (hdiv : mon.divide_by_delta = true) (hint : integerLike mon.data_type = true)
    (hprev : Dict.get hd.monitors mon.id = some (Value.num (JSNum.fin p)))
    (hcur : Dict.get s.2 mon.id = some (Value.num (JSNum.fin c)))
    (hpc : p ≤ c) (hdate : hd.date = some d) (hd0 : d ≠ 0) (hel : 1 ≤ s.1.date - d) :
    Dict.get (deltaStep env hd s mon).2 mon.id =
      some (Value.num (JSNum.fin ((⌊(c - p) / ((s.1.date - d : ℤ) : ℚ)⌋ : ℤ) : ℚ))) := by
  rw [deltaStep_divided env hd s mon p c hdiv hprev hcur, hdate]
  simp only []
  have hne : s.1.date - d ≠ 0 := by omega
  have hpos : (0 : ℚ) < ((s.1.date - d : ℤ) : ℚ) := by exact_mod_cast (by omega : 0 < s.1.date - d)
  have hq : 0 ≤ (c - p) / ((s.1.date - d : ℤ) : ℚ) :=
    div_nonneg (sub_nonneg.2 hpc) (le_of_lt hpos)
  rw [if_pos ⟨hd0, hne⟩, max_eq_left hq]
  simp [floorDelta, hint, JSNum.floor]

/-! ## Frame properties of the passes -/

theorem monitorStep_frame (env : Env) (s : MonState) (mon : MonitorDef) :
    (monitorStep env s mon).params.hostname = s.params.hostname ∧
    (monitorStep env s mon).params.date = s.params.date ∧
    (monitorStep env s mon).params.alerts = s.params.alerts ∧
    (monitorStep env s mon).params.new_alerts = s.params.new_alerts ∧
    (monitorStep env s mon).params.group = s.params.group := by
  unfold monitorStep
  split <;> exact ⟨rfl, rfl, rfl, rfl, rfl⟩

theorem monitorStep_monitors (env : Env) (s : MonState) (mon : MonitorDef)
    (h : s.params.data.monitors = s.data) :
    (monitorStep env s mon).params.data.monitors = (monitorStep env s mon).data := by
  unfold monitorStep
  split
  · exact h
  · simp [h]

theorem foldl_monitorStep_frame (env : Env) :
    ∀ (defs : List MonitorDef) (s : MonState),
      (defs.foldl (monitorStep env) s).params.hostname = s.params.hostname ∧
      (defs.foldl (monitorStep env) s).params.date = s.params.date ∧
      (defs.foldl (monitorStep env) s).params.alerts = s.params.alerts ∧
      (defs.foldl (monitorStep env) s).params.new_alerts = s.params.new_alerts ∧
      (defs.foldl (monitorStep env) s).params.group = s.params.group ∧
      (s.params.data.monitors = s.data →
        (defs.foldl (monitorStep env) s).params.data.monitors =
          (defs.foldl (monitorStep env) s).data) := by
  intro defs
  induction defs with
  | nil => intro s; exact ⟨rfl, rfl, rfl, rfl, rfl, id⟩
  | cons m rest ih =>
    intro s
    obtain ⟨h1, h2, h3, h4, h5, h6⟩ := ih (monitorStep env s m)
    obtain ⟨g1, g2, g3, g4, g5⟩ := monitorStep_frame env s m
    rw [List.foldl_cons]
    exact ⟨h1.trans g1, h2.trans g2, h3.trans g3, h4.trans g4, h5.trans g5,
      fun h => h6 (monitorStep_monitors env s m h)⟩

/-- After the monitor loop: the fields of the task are in `params`, and the
absolute-values map `params.data.monitors` equals the working map. -/
theorem monitorPass_frame (env : Env) (defs : List MonitorDef) (task : Submission) :
    (monitorPass env defs task).params.hostname = task.hostname ∧
    (monitorPass env defs task).params.date = task.date ∧
    (monitorPass env defs task).params.alerts = [] ∧
    (monitorPass env defs task).params.new_alerts = none ∧
    (monitorPass env defs task).params.group = task.group ∧
    (monitorPass env defs task).params.data.monitors = (monitorPass env defs task).data := by
  obtain ⟨h1, h2, h3, h4, h5, h6⟩ := foldl_monitorStep_frame env defs
    { params := initParams task, data := [], delta_defs := [], log := [] }
  exact ⟨h1, h2, h3, h4, h5, h6 rfl⟩

theorem deltaStep_frame (env : Env) (hd : HostData) (s : Params × Dict Value)
    (mon : MonitorDef) :
    (deltaStep env hd s mon).1.hostname = s.1.hostname ∧
    (deltaStep env hd s mon).1.date = s.1.date ∧
    (deltaStep env hd s mon).1.alerts = s.1.alerts ∧
    (deltaStep env hd s mon).1.new_alerts = s.1.new_alerts ∧
    (deltaStep env hd s mon).1.group = s.1.group ∧
    (deltaStep env hd s mon).1.data.monitors = s.1.data.monitors := by
  unfold deltaStep
  cases Dict.get hd.monitors mon.id <;> exact ⟨rfl, rfl, rfl, rfl, rfl, rfl⟩

/-- The delta pass leaves the absolute-values map `params.data.monitors` (and
the hostname, date and alerts of `params`) untouched. -/
theorem deltaPass_frame (env : Env) (hd : HostData) :
    ∀ (defs : List MonitorDef) (p : Params) (data : Dict Value),
      (deltaPass env hd defs p data).1.hostname = p.hostname ∧
      (deltaPass env hd defs p data).1.date = p.date ∧
      (deltaPass env hd defs p data).1.alerts = p.alerts ∧
      (deltaPass env hd defs p data).1.new_alerts = p.new_alerts ∧
      (deltaPass env hd defs p data).1.group = p.group ∧
      (deltaPass env hd defs p data).1.data.monitors = p.data.monitors := by
  intro defs
  induction defs with
  | nil => intro p data; exact ⟨rfl, rfl, rfl, rfl, rfl, rfl⟩
  | cons m rest ih =>
    intro p data
    rw [deltaPass_cons]
    obtain ⟨h1, h2, h3, h4, h5, h6⟩ :=
      ih (deltaStep env hd (p, data) m).1 (deltaStep env hd (p, data) m).2
    obtain ⟨g1, g2, g3, g4, g5, g6⟩ := deltaStep_frame env hd (p, data) m
    exact ⟨h1.trans g1, h2.trans g2, h3.trans g3, h4.trans g4, h5.trans g5, h6.trans g6⟩

theorem deltaStage_frame (env : Env) (srv : Server) (st : State) (task : Submission) :
    (deltaStage env srv st task).1.hostname = task.hostname ∧
    (deltaStage env srv st task).1.date = task.date ∧
    (deltaStage env srv st task).1.alerts = [] ∧
    (deltaStage env srv st task).1.new_alerts = none ∧
    (deltaStage env srv st task).1.data.monitors = (monitorPass env srv.monitors task).data := by
  obtain ⟨h1, h2, h3, h4, _, h6⟩ := deltaPass_frame env (hostData st task.hostname)
    (monitorPass env srv.monitors task).delta_defs (monitorPass env srv.monitors task).params
    (monitorPass env srv.monitors task).data
  obtain ⟨g1, g2, g3, g4, _, g6⟩ := monitorPass_frame env srv.monitors task
  exact ⟨h1.trans g1, h2.trans g2, h3.trans g3, h4.trans g4, h6.trans g6⟩

/-! ## The alert loop -/

theorem alertStep_frame (env : Env) (hd : HostData) (s : Params × List LogEvent) (a : AlertDef) :
    (alertStep env hd s a).1.hostname = s.1.hostname ∧
    (alertStep env hd s a).1.date = s.1.date ∧
    (alertStep env hd s a).1.new_alerts = s.1.new_alerts ∧
    (alertStep env hd s a).1.data = s.1.data := by
  unfold alertStep
  by_cases hf : groupFiltered env a.group_match s.1.group = true
  · rw [if_pos hf]
    exact ⟨rfl, rfl, rfl, rfl⟩
  · rw [if_neg hf]
    by_cases ht : strictTrue (env.safeEval (env.sub a.expression s.1.data) s.1) = true
    · rw [if_pos ht]
      exact ⟨rfl, rfl, rfl, rfl⟩
    · rw [if_neg ht]
      exact ⟨rfl, rfl, rfl, rfl⟩

theorem alertStep_date (env : Env) (hd : HostData) (s : Params × List LogEvent) (a : AlertDef)
    (id : String)
    (h : ∀ e, Dict.get s.1.alerts id = some e → e.date = triggerDate hd s.1.date id) :
    ∀ e, Dict.get (alertStep env hd s a).1.alerts id = some e →
      e.date = triggerDate hd s.1.date id := by
  unfold alertStep
  by_cases hf : groupFiltered env a.group_match s.1.group = true
  · rw [if_pos hf]
    exact h
  · rw [if_neg hf]
    by_cases ht : strictTrue (env.safeEval (env.sub a.expression s.1.data) s.1) = true
    · rw [if_pos ht]
      intro e he
      by_cases hid : id = a.id
      · subst hid
        simp only [Dict.get_set_self, Option.some.injEq] at he
        rw [← he]
      · simp only [Dict.get_set_ne _ _ _ _ hid] at he
        exact h e he
    · rw [if_neg ht]
      exact h

theorem foldl_alertStep (env : Env) (hd : HostData) (id : String) :
    ∀ (defs : List AlertDef) (s : Params × List LogEvent),
      (defs.foldl (alertStep env hd) s).1.hostname = s.1.hostname ∧
      (defs.foldl (alertStep env hd) s).1.date = s.1.date ∧
      (defs.foldl (alertStep env hd) s).1.new_alerts = s.1.new_alerts ∧
      (defs.foldl (alertStep env hd) s).1.data = s.1.data ∧
      ((∀ e, Dict.get s.1.alerts id = some e → e.date = triggerDate hd s.1.date id) →
        ∀ e, Dict.get (defs.foldl (alertStep env hd) s).1.alerts id = some e →
          e.date = triggerDate hd s.1.date id) := by
  intro defs
  induction defs with
  | nil => intro s; exact ⟨rfl, rfl, rfl, rfl, fun h => h⟩
  | cons a rest ih =>
    intro s
    rw [List.foldl_cons]
    obtain ⟨h1, h2, h3, h4, h5⟩ := ih (alertStep env hd s a)
    obtain ⟨g1, g2, g3, g4⟩ := alertStep_frame env hd s a
    refine ⟨h1.trans g1, h2.trans g2, h3.trans g3, h4.trans g4, ?_⟩
    intro h e he
    rw [g2] at h5
    exact h5 (alertStep_date env hd s a id h) e he

theorem alertStage_frame (env : Env) (srv : Server) (st : State) (task : Submission) :
    (alertStage env srv st task).1.hostname = task.hostname ∧
    (alertStage env srv st task).1.date = task.date ∧
    (alertStage env srv st task).1.new_alerts = none ∧
    (alertStage env srv st task).1.data.monitors = (monitorPass env srv.monitors task).data ∧
    ∀ id e, Dict.get (alertStage env srv st task).1.alerts id = some e →
      e.date = triggerDate (hostData st task.hostname) task.date id := by
  obtain ⟨g1, g2, g3, g4, g5⟩ := deltaStage_frame env srv st task
  refine ⟨?_, ?_, ?_, ?_, ?_⟩
  · exact (foldl_alertStep env _ "" srv.alerts (_, [])).1.trans g1
  · exact (foldl_alertStep env _ "" srv.alerts (_, [])).2.1.trans g2
  · exact (foldl_alertStep env _ "" srv.alerts (_, [])).2.2.1.trans g4
  · rw [← g5]
    exact congrArg Data.monitors (foldl_alertStep env _ "" srv.alerts (_, [])).2.2.2.1
  · intro id e he
    have h := (foldl_alertStep env (hostData st task.hostname) id srv.alerts
      ((deltaStage env srv st task).1, [])).2.2.2.2
    rw [g2] at h
    apply h _ e he
    intro e' he'
    rw [g3] at he'
    simp [Dict.get] at he'

/-! ## Transition detection -/

theorem findAlert_id (defs : List AlertDef) (id : String) (d : AlertDef)
    (h : findAlert defs id = some d) : d.id = id := by
  unfold findAlert at h
  have := List.find?_some h
  simpa using this

theorem newAlertStep_of_not_fires (srv : Server) (g : GroupDef) (sn : Bool) (hd : HostData)
    (t : Transitions) (key : String) (h : fires hd t.params key = false) :
    newAlertStep srv g sn hd t key = some t := by
  unfold newAlertStep
  unfold fires at h
  cases h1 : Dict.get hd.alerts key with
  | some e => rfl
  | none =>
    cases h2 : Dict.get t.params.alerts key with
    | none => rfl
    | some e => simp [h1, h2] at h

theorem newAlertStep_of_fires (srv : Server) (g : GroupDef) (sn : Bool) (hd : HostData)
    (t t' : Transitions) (key : String) (h : fires hd t.params key = true)
    (hs : newAlertStep srv g sn hd t key = some t') :
    ∃ alert alert_def, Dict.get t.params.alerts key = some alert ∧
      findAlert srv.alerts key = some alert_def ∧
      t'.params = { t.params with
        new_alerts := some (Dict.set (t.params.new_alerts.getD []) key true) } ∧
      t'.log = t.log ++ [LogEvent.alert_new t.params.hostname key alert] ∧
      t'.sent = (if g.alerts_enabled && alert_def.enabled && !sn then
          t.sent ++ [{ template := "alert_new", alert_id := alert_def.id,
                       hostname := t.params.hostname, alert := alert, elapsed := none }]
        else t.sent) := by
  unfold fires at h
  unfold newAlertStep at hs
  cases h1 : Dict.get hd.alerts key with
  | some e => simp [h1] at h
  | none =>
    cases h2 : Dict.get t.params.alerts key with
    | none => simp [h2] at h
    | some alert =>
      rw [h1, h2] at hs
      simp only at hs
      cases h3 : findAlert srv.alerts key with
      | none => rw [h3] at hs; simp at hs
      | some alert_def =>
        rw [h3] at hs
        simp only [Option.some.injEq] at hs
        subst hs
        exact ⟨alert, alert_def, rfl, rfl, rfl, rfl, rfl⟩

/-- What the new-alert loop over the keys `ks` does to `params`, the log and the
notifications. -/
theorem foldlM_newAlertStep (srv : Server) (g : GroupDef) (sn : Bool) (hd : HostData) :
    ∀ (ks : List String) (t t' : Transitions), ks.Nodup →
      ks.foldlM (newAlertStep srv g sn hd) t = some t' →
      t'.params.hostname = t.params.hostname ∧ t'.params.date = t.params.date ∧
      t'.params.alerts = t.params.alerts ∧ t'.params.data = t.params.data ∧
      (∀ id, id ∈ ks → fires hd t.params id = true →
        Dict.get (t'.params.new_alerts.getD []) id = some true) ∧
      (∀ id, ¬ (id ∈ ks ∧ fires hd t.params id = true) →
        Dict.get (t'.params.new_alerts.getD []) id =
          Dict.get (t.params.new_alerts.getD []) id) ∧
      (∀ id, (t'.log.filter (LogEvent.isNew id)).length =
        (t.log.filter (LogEvent.isNew id)).length +
          (if id ∈ ks ∧ fires hd t.params id = true then 1 else 0)) ∧
      (∀ id, t'.log.filter (LogEvent.isCleared id) = t.log.filter (LogEvent.isCleared id)) ∧
      (∀ n ∈ t'.sent, n ∈ t.sent ∨ (n.alert_id ∈ ks ∧ fires hd t.params n.alert_id = true)) := by
  intro ks
  induction ks with
  | nil =>
    intro t t' _ h
    simp only [List.foldlM_nil, pure, Option.some.injEq] at h
    subst h
    refine ⟨rfl, rfl, rfl, rfl, ?_, ?_, ?_, ?_, ?_⟩
    · intro id hid; exact absurd hid (List.not_mem_nil _)
    · intro id _; rfl
    · intro id; simp
    · intro id; rfl
    · intro n hn; exact Or.inl hn
  | cons k rest ih =>
    intro t t' hnd h
    rw [List.nodup_cons] at hnd
    rw [List.foldlM_cons] at h
    cases hstep : newAlertStep srv g sn hd t k with
    | none => rw [hstep] at h; simp at h
    | some t1 =>
      rw [hstep] at h
      simp only [bind, Option.bind] at h
      by_cases hf : fires hd t.params k = true
      · obtain ⟨alert, alert_def, ha, hfa, hp, hl, hsent⟩ :=
          newAlertStep_of_fires srv g sn hd t t1 k hf hstep
        have hfires : ∀ id, fires hd t1.params id = fires hd t.params id := by
          intro id; rw [hp]; rfl
        obtain ⟨h1, h2, h3, h4, h5, h6, h7, h8, h9⟩ := ih t1 t' hnd.2 h
        have halerts : t1.params.alerts = t.params.alerts := by rw [hp]
        refine ⟨h1.trans (by rw [hp]), h2.trans (by rw [hp]), h3.trans halerts,
          h4.trans (by rw [hp]), ?_, ?_, ?_, ?_, ?_⟩
        · intro id hid hfid
          rcases List.mem_cons.1 hid with hk | hk
          · subst hk
            rw [h6 id (fun hc => hnd.1 hc.1), hp]
            exact Dict.get_set_self _ _ _
          · exact h5 id hk (by rw [hfires]; exact hfid)
        · intro id hid
          have hidk : id ≠ k := by
            intro hc; subst hc
            exact hid ⟨List.mem_cons_self _ _, hf⟩
          rw [h6 id (fun hc => hid ⟨List.mem_cons_of_mem _ hc.1, by rw [← hfires]; exact hc.2⟩),
            hp]
          exact Dict.get_set_ne _ _ _ _ hidk
        · intro id
          rw [h7 id, hl, List.filter_append, List.length_append]
          by_cases hidk : id = k
          · subst hidk
            have hnr : ¬ (id ∈ rest ∧ fires hd t1.params id = true) := fun hc => hnd.1 hc.1
            simp [hnr, hf, LogEvent.isNew]
          · have hne : ¬ k = id := fun hc => hidk hc.symm
            simp [LogEvent.isNew, hne, hidk, hfires]
        · intro id
          rw [h8 id, hl, List.filter_append]
          simp [LogEvent.isCleared]
        · intro n hn
          rcases h9 n hn with hn1 | ⟨hn1, hn2⟩
          · rw [hsent] at hn1
            by_cases hcond : (g.alerts_enabled && alert_def.enabled && !sn) = true
            · rw [if_pos hcond] at hn1
              rcases List.mem_append.1 hn1 with hn3 | hn3
              · exact Or.inl hn3
              · rw [List.mem_singleton] at hn3
                right
                have : n.alert_id = k := by rw [hn3]; exact findAlert_id _ _ _ hfa
                rw [this]
                exact ⟨List.mem_cons_self _ _, hf⟩
            · rw [if_neg hcond] at hn1
              exact Or.inl hn1
          · exact Or.inr ⟨List.mem_cons_of_mem _ hn1, by rw [← hfires]; exact hn2⟩
      · have hf' : fires hd t.params k = false := by
          cases hb : fires hd t.params k with
          | true => exact absurd hb hf
          | false => rfl
        have ht1 : t1 = t := by
          rw [newAlertStep_of_not_fires srv g sn hd t k hf'] at hstep
          exact (Option.some.inj hstep).symm
        subst ht1
        obtain ⟨h1, h2, h3, h4, h5, h6, h7, h8, h9⟩ := ih t1 t' hnd.2 h
        refine ⟨h1, h2, h3, h4, ?_, ?_, ?_, h8, ?_⟩
        · intro id hid hfid
          rcases List.mem_cons.1 hid with hk | hk
          · subst hk; exact absurd hfid hf
          · exact h5 id hk hfid
        · intro id hid
          exact h6 id (fun hc => hid ⟨List.mem_cons_of_mem _ hc.1, hc.2⟩)
        · intro id
          rw [h7 id]
          by_cases hidk : id = k
          · subst hidk
            have hnr : ¬ (id ∈ rest ∧ fires hd t1.params id = true) := fun hc => hf hc.2
            have hnr' : ¬ (id ∈ id :: rest ∧ fires hd t1.params id = true) := fun hc => hf hc.2
            rw [if_neg hnr, if_neg hnr']
          · simp [hidk]
        · intro n hn
          rcases h9 n hn with hn1 | ⟨hn1, hn2⟩
          · exact Or.inl hn1
          · exact Or.inr ⟨List.mem_cons_of_mem _ hn1, hn2⟩

theorem clearedStep_params (env : Env) (srv : Server) (g : GroupDef) (sn : Bool) (hd : HostData)
    (t : Transitions) (key : String) :
    (clearedStep env srv g sn hd t key).params = t.params := by
  unfold clearedStep
  split <;> rfl

theorem clearedStep_quiet (env : Env) (srv : Server) (g : GroupDef) (sn : Bool) (hd : HostData)
    (t : Transitions) (key id : String) (e : AlertEntry)
    (hact : Dict.get t.params.alerts id = some e) :
    (clearedStep env srv g sn hd t key).log.filter (LogEvent.isCleared id) =
        t.log.filter (LogEvent.isCleared id) ∧
      (∀ n ∈ (clearedStep env srv g sn hd t key).sent, n ∈ t.sent ∨ n.alert_id ≠ id) := by
  unfold clearedStep
  split
  · next alert alert_def h1 h2 h3 =>
    have hne : key ≠ id := by
      intro hc; subst hc
      rw [hact] at h1
      exact Option.noConfusion h1
    constructor
    · simp [List.filter_append, LogEvent.isCleared, hne]
    · intro n hn
      simp only at hn
      split at hn
      · rcases List.mem_append.1 hn with hn1 | hn1
        · exact Or.inl hn1
        · rw [List.mem_singleton] at hn1
          right
          rw [hn1]
          show alert_def.id ≠ id
          rw [findAlert_id _ _ _ h3]
          exact hne
      · exact Or.inl hn
  · exact ⟨rfl, fun n hn => Or.inl hn⟩

theorem clearedStep_isNew (env : Env) (srv : Server) (g : GroupDef) (sn : Bool) (hd : HostData)
    (t : Transitions) (key id : String) :
    (clearedStep env srv g sn hd t key).log.filter (LogEvent.isNew id) =
        t.log.filter (LogEvent.isNew id) ∧
      (∀ n ∈ (clearedStep env srv g sn hd t key).sent, n ∈ t.sent ∨ n.template = "alert_cleared") := by
  unfold clearedStep
  split
  · constructor
    · simp [List.filter_append, LogEvent.isNew]
    · intro n hn
      simp only at hn
      split at hn
      · rcases List.mem_append.1 hn with hn1 | hn1
        · exact Or.inl hn1
        · rw [List.mem_singleton] at hn1
          right
          rw [hn1]
      · exact Or.inl hn
  · exact ⟨rfl, fun n hn => Or.inl hn⟩

/-- The cleared-alert loop leaves `params` as it is, logs no `alert_new`, and
logs or notifies nothing for an alert that is active in `params.alerts`. -/
theorem clearedTransitions_frame (env : Env) (srv : Server) (g : GroupDef) (sn : Bool)
    (hd : HostData) :
    ∀ (ks : List String) (t : Transitions),
      (ks.foldl (clearedStep env srv g sn hd) t).params = t.params ∧
      (∀ id, (ks.foldl (clearedStep env srv g sn hd) t).log.filter (LogEvent.isNew id) =
        t.log.filter (LogEvent.isNew id)) ∧
      (∀ id e, Dict.get t.params.alerts id = some e →
        (ks.foldl (clearedStep env srv g sn hd) t).log.filter (LogEvent.isCleared id) =
            t.log.filter (LogEvent.isCleared id) ∧
          ∀ n ∈ (ks.foldl (clearedStep env srv g sn hd) t).sent, n ∈ t.sent ∨ n.alert_id ≠ id) := by
  intro ks
  induction ks with
  | nil =>
    intro t
    exact ⟨rfl, fun _ => rfl, fun _ _ _ => ⟨rfl, fun n hn => Or.inl hn⟩⟩
  | cons k rest ih =>
    intro t
    rw [List.foldl_cons]
    obtain ⟨h1, h2, h3⟩ := ih (clearedStep env srv g sn hd t k)
    have hp := clearedStep_params env srv g sn hd t k
    refine ⟨h1.trans hp, ?_, ?_⟩
    · intro id
      rw [h2 id]
      exact (clearedStep_isNew env srv g sn hd t k id).1
    · intro id e he
      obtain ⟨g1, g2⟩ := h3 id e (by rw [hp]; exact he)
      obtain ⟨q1, q2⟩ := clearedStep_quiet env srv g sn hd t k id e he
      refine ⟨g1.trans q1, ?_⟩
      intro n hn
      rcases g2 n hn with hn1 | hn1
      · exact q2 n hn1
      · exact Or.inr hn1

/-! ## The systems loop -/

theorem processSystem_frame (env : Env) (srv : Server) (st : State) (sys : Sys) (p : Params)
    (data : Dict Value) :
    (processSystem env srv st sys p data).1.hosts = st.hosts ∧
    (processSystem env srv st sys p data).1.log = st.log ∧
    (processSystem env srv st sys p data).1.sent = st.sent ∧
    (processSystem env srv st sys p data).1.groupCache = st.groupCache ∧
    (processSystem env srv st sys p data).1.alertCache = st.alertCache := by
  cases hl : loadLast env sys p (listGetLast st (timelineKey env sys p)) with
  | error e =>
    rw [processSystem_of_error env srv st sys p data e hl]
    exact ⟨rfl, rfl, rfl, rfl, rfl⟩
  | ok u =>
    rw [processSystem_of_ok env srv st sys p data u hl]
    cases u <;> exact ⟨rfl, rfl, rfl, rfl, rfl⟩

theorem processSystems_frame (env : Env) (srv : Server) (p : Params) (data : Dict Value) :
    ∀ (systems : List Sys) (st : State),
      (processSystems env srv p data st systems).1.hosts = st.hosts ∧
      (processSystems env srv p data st systems).1.log = st.log ∧
      (processSystems env srv p data st systems).1.sent = st.sent ∧
      (processSystems env srv p data st systems).1.groupCache = st.groupCache ∧
      (processSystems env srv p data st systems).1.alertCache = st.alertCache := by
  intro systems
  induction systems with
  | nil => intro st; exact ⟨rfl, rfl, rfl, rfl, rfl⟩
  | cons sys rest ih =>
    intro st
    obtain ⟨f1, f2, f3, f4, f5⟩ := processSystem_frame env srv st sys p data
    unfold processSystems
    cases hps : processSystem env srv st sys p data with
    | mk st1 err =>
      rw [hps] at f1 f2 f3 f4 f5
      cases err with
      | some e => exact ⟨f1, f2, f3, f4, f5⟩
      | none =>
        obtain ⟨h1, h2, h3, h4, h5⟩ := ih st1
        exact ⟨h1.trans f1, h2.trans f2, h3.trans f3, h4.trans f4, h5.trans f5⟩

/-! ## The whole submission -/

theorem filter_isNew_of_plain (l : List LogEvent) (id : String)
    (h : ∀ e ∈ l, LogEvent.isPlain e = true) : l.filter (LogEvent.isNew id) = [] := by
  rw [List.filter_eq_nil_iff]
  intro e he
  have := h e he
  cases e <;> simp [LogEvent.isPlain, LogEvent.isNew] at this ⊢

theorem filter_isCleared_of_plain (l : List LogEvent) (id : String)
    (h : ∀ e ∈ l, LogEvent.isPlain e = true) : l.filter (LogEvent.isCleared id) = [] := by
  rw [List.filter_eq_nil_iff]
  intro e he
  have := h e he
  cases e <;> simp [LogEvent.isPlain, LogEvent.isCleared] at this ⊢

theorem resolveSource_plain (env : Env) (p : Params) (mon : MonitorDef) :
    ∀ e ∈ (resolveSource env p mon).2, LogEvent.isPlain e = true := by
  unfold resolveSource
  intro e he
  split at he
  · split at he
    · split at he
      · split at he
        · simp at he
        · simp at he; rw [he]; rfl
      · simp at he
    · simp at he; rw [he]; rfl
  · simp at he; rw [he]; rfl

theorem applyDataMatch_plain (env : Env) (mon : MonitorDef) (v : Raw) :
    ∀ e ∈ (applyDataMatch env mon v).2, LogEvent.isPlain e = true := by
  unfold applyDataMatch
  intro e he
  split at he
  · split at he
    · simp only at he
      split at he <;> simp at he
    · simp at he; rw [he]; rfl
  · simp at he

theorem monitorStep_plain (env : Env) (s : MonState) (mon : MonitorDef)
    (h : ∀ e ∈ s.log, LogEvent.isPlain e = true) :
    ∀ e ∈ (monitorStep env s mon).log, LogEvent.isPlain e = true := by
  unfold monitorStep
  split
  · exact h
  · intro e he
    simp only [List.mem_append] at he
    rcases he with (he | he) | he
    · exact h e he
    · exact resolveSource_plain env _ _ e he
    · exact applyDataMatch_plain env _ _ e he

theorem monitorPass_plain (env : Env) (defs : List MonitorDef) (task : Submission) :
    ∀ e ∈ (monitorPass env defs task).log, LogEvent.isPlain e = true := by
  unfold monitorPass
  generalize hs : ({ params := initParams task, data := [], delta_defs := [], log := [] } :
    MonState) = s
  have h0 : ∀ e ∈ s.log, LogEvent.isPlain e = true := by
    rw [← hs]; intro e he; simp at he
  clear hs
  induction defs generalizing s with
  | nil => exact h0
  | cons m rest ih =>
    rw [List.foldl_cons]
    exact ih _ (monitorStep_plain env s m h0)

theorem loadHostLog_plain (st : State) (p : Params) :
    ∀ e ∈ loadHostLog st p, LogEvent.isPlain e = true := by
  unfold loadHostLog
  intro e he
  split at he
  · simp at he; rw [he]; rfl
  · split at he
    · simp at he; rw [he]; rfl
    · simp at he

theorem alertStep_plain (env : Env) (hd : HostData) (s : Params × List LogEvent) (a : AlertDef)
    (h : ∀ e ∈ s.2, LogEvent.isPlain e = true) :
    ∀ e ∈ (alertStep env hd s a).2, LogEvent.isPlain e = true := by
  have hlog : ∀ r : Except String Raw, ∀ e ∈ alertEvalLog r, LogEvent.isPlain e = true := by
    intro r e he
    unfold alertEvalLog at he
    split at he
    · simp at he; rw [he]; rfl
    · simp at he
  unfold alertStep
  split
  · exact h
  · intro e he
    simp only at he
    split at he
    · simp only [List.mem_append] at he
      rcases he with he | he
      · exact h e he
      · exact hlog _ e he
    · simp only [List.mem_append] at he
      rcases he with he | he
      · exact h e he
      · exact hlog _ e he

theorem alertPass_plain (env : Env) (hd : HostData) (defs : List AlertDef) (p : Params) :
    ∀ e ∈ (alertPass env hd defs p).2, LogEvent.isPlain e = true := by
  unfold alertPass
  generalize hs : ((p, []) : Params × List LogEvent) = s
  have h0 : ∀ e ∈ s.2, LogEvent.isPlain e = true := by
    rw [← hs]; intro e he; simp at he
  clear hs
  induction defs generalizing s with
  | nil => exact h0
  | cons m rest ih =>
    rw [List.foldl_cons]
    exact ih _ (alertStep_plain env hd s m h0)

theorem finishSubmission_frame (env : Env) (srv : Server) (st1 : State) (host_key : String)
    (params : Params) (data : Dict Value) (log : List LogEvent) (sent : List Notification) :
    (finishSubmission env srv st1 host_key params data log sent).params = params ∧
    (finishSubmission env srv st1 host_key params data log sent).data = data ∧
    (finishSubmission env srv st1 host_key params data log sent).sent = sent ∧
    (finishSubmission env srv st1 host_key params data log sent).st.sent = st1.sent ∧
    (∃ plain, (∀ e ∈ plain, LogEvent.isPlain e = true) ∧
      (finishSubmission env srv st1 host_key params data log sent).log = log ++ plain ∧
      (finishSubmission env srv st1 host_key params data log sent).st.log = st1.log ++ plain) ∧
    ((finishSubmission env srv st1 host_key params data log sent).err = none →
      (finishSubmission env srv st1 host_key params data log sent).st.hosts =
        Dict.set st1.hosts host_key params) ∧
    ((finishSubmission env srv st1 host_key params data log sent).err ≠ none →
      (finishSubmission env srv st1 host_key params data log sent).st.hosts = st1.hosts) := by
  have hfr := processSystems_frame env srv params data srv.systems st1
  unfold finishSubmission
  cases hps : processSystems env srv params data st1 srv.systems with
  | mk st2 err =>
    rw [hps] at hfr
    obtain ⟨g1, g2, g3, _, _⟩ := hfr
    simp only at g1 g2 g3
    cases err with
    | some e =>
      refine ⟨rfl, rfl, rfl, g3,
        ⟨[LogEvent.error ("Failed to submit data: " ++ e.message)], ?_, rfl, ?_⟩, ?_, ?_⟩
      · intro e' he'; simp at he'; rw [he']; rfl
      · show st2.log ++ _ = _
        rw [g2]
      · intro hc; simp at hc
      · intro _; exact g1
    | none =>
      refine ⟨rfl, rfl, rfl, g3, ⟨[], ?_, by simp, ?_⟩, ?_, ?_⟩
      · intro e' he'; simp at he'
      · show st2.log = _
        rw [g2, List.append_nil]
      · intro _
        show Dict.set st2.hosts host_key params = _
        rw [g1]
      · intro hc; exact absurd rfl hc

/-- What a returning `processDataSubmission` is made of. -/
theorem processDataSubmission_inv (env : Env) (srv : Server) (st : State) (task : Submission)
    (out : Outcome) (h : processDataSubmission env srv st task = some out) :
    ∃ g nt, findGroup srv.groups task.group = some g ∧
      newTransitions srv g (alertsSnoozed env srv) (hostData st task.hostname)
        { params := (alertStage env srv st task).1, log := [], sent := [] } = some nt ∧
      out.params = nt.params ∧
      out.data = (deltaStage env srv st task).2 ∧
      out.sent = (clearedTransitions env srv g (alertsSnoozed env srv)
        (hostData st task.hostname) nt).sent ∧
      (∃ plain1 plain2, (∀ e ∈ plain1, LogEvent.isPlain e = true) ∧
        (∀ e ∈ plain2, LogEvent.isPlain e = true) ∧
        out.log = plain1 ++ (clearedTransitions env srv g (alertsSnoozed env srv)
          (hostData st task.hostname) nt).log ++ plain2) ∧
      out.st.log = st.log ++ out.log ∧
      out.st.sent = st.sent ++ out.sent ∧
      (out.err = none → out.st.hosts = Dict.set st.hosts (hostKey task.hostname) out.params) ∧
      (out.err ≠ none → out.st.hosts = st.hosts) := by
  unfold processDataSubmission at h
  cases hg : findGroup srv.groups task.group with
  | none => rw [hg] at h; simp at h
  | some g =>
    rw [hg] at h
    simp only at h
    cases hnt : newTransitions srv g (alertsSnoozed env srv) (hostData st task.hostname)
        { params := (alertStage env srv st task).1, log := [], sent := [] } with
    | none => rw [hnt] at h; simp at h
    | some nt =>
      rw [hnt] at h
      simp only [Option.some.injEq] at h
      have hplain1 : ∀ e ∈ (monitorPass env srv.monitors task).log ++
          loadHostLog st (monitorPass env srv.monitors task).params ++
          (alertStage env srv st task).2, LogEvent.isPlain e = true := by
        intro e he
        simp only [List.mem_append] at he
        rcases he with (he | he) | he
        · exact monitorPass_plain env _ _ e he
        · exact loadHostLog_plain _ _ e he
        · exact alertPass_plain env _ _ _ e he
      have hcp := (clearedTransitions_frame env srv g (alertsSnoozed env srv)
        (hostData st task.hostname) (Dict.keys (hostData st task.hostname).alerts) nt).1
      subst h
      obtain ⟨f1, f2, f3, f4, ⟨plain, fp, f5, f6⟩, f7, f8⟩ := finishSubmission_frame env srv
        { st with
          trace := st.trace ++ [Op.lock (hostKey task.hostname), Op.get (hostKey task.hostname)]
          log := st.log ++ ((monitorPass env srv.monitors task).log ++
            loadHostLog st (monitorPass env srv.monitors task).params ++
            (alertStage env srv st task).2 ++
            (clearedTransitions env srv g (alertsSnoozed env srv)
              (hostData st task.hostname) nt).log)
          sent := st.sent ++ (clearedTransitions env srv g (alertsSnoozed env srv)
              (hostData st task.hostname) nt).sent
          groupCache := updateGroupData st.groupCache g.id (deltaStage env srv st task).2
          alertCache := Dict.set st.alertCache
            (clearedTransitions env srv g (alertsSnoozed env srv)
              (hostData st task.hostname) nt).params.hostname
            (clearedTransitions env srv g (alertsSnoozed env srv)
              (hostData st task.hostname) nt).params.alerts }
        (hostKey task.hostname)
        (clearedTransitions env srv g (alertsSnoozed env srv) (hostData st task.hostname) nt).params
        (deltaStage env srv st task).2
        ((monitorPass env srv.monitors task).log ++
            loadHostLog st (monitorPass env srv.monitors task).params ++
            (alertStage env srv st task).2 ++
            (clearedTransitions env srv g (alertsSnoozed env srv)
              (hostData st task.hostname) nt).log)
        (clearedTransitions env srv g (alertsSnoozed env srv) (hostData st task.hostname) nt).sent
      refine ⟨g, nt, rfl, hnt, f1.trans hcp, f2, f3, ⟨_, plain, hplain1, fp, f5⟩, ?_, ?_, ?_, ?_⟩
      · rw [f6, f5]; simp only [List.append_assoc]
      · rw [f4, f3]
      · intro he; rw [f7 he, f1]
      · intro he; rw [f8 he]

/-! ## Active alerts and their definitions -/

theorem Dict.mem_keys_set {α : Type} (d : Dict α) (k k' : String) (v : α) :
    k ∈ Dict.keys (Dict.set d k' v) ↔ k = k' ∨ k ∈ Dict.keys d := by
  rw [Dict.mem_keys_iff, Dict.mem_keys_iff]
  by_cases h : k = k'
  · subst h
    simp [Dict.get_set_self]
  · simp [Dict.get_set_ne _ _ _ _ h, h]

/-- A round of the alert loop adds the id of its definition to `params.alerts`
exactly when the definition passes the group filter and its expression
evaluates to `true`; no id is ever removed. -/
theorem alertStep_active (env : Env) (hd : HostData) (s : Params × List LogEvent) (a : AlertDef)
    (id : String) :
    id ∈ Dict.keys (alertStep env hd s a).1.alerts ↔
      id ∈ Dict.keys s.1.alerts ∨
        (a.id = id ∧ groupFiltered env a.group_match s.1.group = false ∧
          strictTrue (env.safeEval (env.sub a.expression s.1.data) s.1) = true) := by
  unfold alertStep
  by_cases hf : groupFiltered env a.group_match s.1.group = true
  · rw [if_pos hf]
    simp [hf]
  · rw [if_neg hf]
    have hf' : groupFiltered env a.group_match s.1.group = false := by
      cases hb : groupFiltered env a.group_match s.1.group with
      | true => exact absurd hb hf
      | false => rfl
    by_cases ht : strictTrue (env.safeEval (env.sub a.expression s.1.data) s.1) = true
    · rw [if_pos ht]
      show id ∈ Dict.keys (Dict.set s.1.alerts a.id _) ↔ _
      rw [Dict.mem_keys_set]
      constructor
      · rintro (h | h)
        · exact Or.inr ⟨h.symm, hf', ht⟩
        · exact Or.inl h
      · rintro (h | ⟨h, _, _⟩)
        · exact Or.inr h
        · exact Or.inl h.symm
    · rw [if_neg ht]
      constructor
      · intro h; exact Or.inl h
      · rintro (h | ⟨_, _, h⟩)
        · exact h
        · exact absurd h ht

/-- The alerts active after the alert loop are those active before it and the
ids of the definitions whose expression, evaluated at their turn, is `true`. -/
theorem alertPass_active_iff (env : Env) (hd : HostData) (id : String) :
    ∀ (defs : List AlertDef) (s : Params × List LogEvent),
      id ∈ Dict.keys (defs.foldl (alertStep env hd) s).1.alerts ↔
        id ∈ Dict.keys s.1.alerts ∨
          ∃ before a after, defs = before ++ a :: after ∧ a.id = id ∧
            groupFiltered env a.group_match (before.foldl (alertStep env hd) s).1.group = false ∧
            strictTrue (env.safeEval
              (env.sub a.expression (before.foldl (alertStep env hd) s).1.data)
              (before.foldl (alertStep env hd) s).1) = true := by
  intro defs
  induction defs with
  | nil =>
    intro s
    simp
  | cons a rest ih =>
    intro s
    rw [List.foldl_cons, ih (alertStep env hd s a), alertStep_active]
    constructor
    · rintro ((h | ⟨h1, h2, h3⟩) | ⟨before, b, after, hsplit, h1, h2, h3⟩)
      · exact Or.inl h
      · exact Or.inr ⟨[], a, rest, rfl, h1, h2, h3⟩
      · refine Or.inr ⟨a :: before, b, after, by rw [hsplit]; rfl, h1, ?_, ?_⟩
        · simpa using h2
        · simpa using h3
    · rintro (h | ⟨before, b, after, hsplit, h1, h2, h3⟩)
      · exact Or.inl (Or.inl h)
      · cases before with
        | nil =>
          simp only [List.nil_append, List.cons.injEq] at hsplit
          obtain ⟨hab, _⟩ := hsplit
          subst hab
          exact Or.inl (Or.inr ⟨h1, h2, h3⟩)
        | cons c before' =>
          simp only [List.cons_append, List.cons.injEq] at hsplit
          obtain ⟨hac, hrest⟩ := hsplit
          subst hac
          exact Or.inr ⟨before', b, after, hrest, h1, by simpa using h2, by simpa using h3⟩

/-- Every alert active after the alert stage has a definition. -/
theorem alertStage_active_defined (env : Env) (srv : Server) (st : State) (task : Submission)
    (id : String) (h : id ∈ Dict.keys (alertStage env srv st task).1.alerts) :
    (findAlert srv.alerts id).isSome = true := by
  unfold alertStage alertPass at h
  rw [alertPass_active_iff] at h
  rcases h with h | ⟨before, a, after, hsplit, hid, _, _⟩
  · rw [(deltaStage_frame env srv st task).2.2.1] at h
    simp [Dict.keys] at h
  · unfold findAlert
    rw [List.find?_isSome]
    exact ⟨a, by rw [hsplit]; simp, by simpa using hid⟩

theorem newAlertStep_isSome (srv : Server) (g : GroupDef) (sn : Bool) (hd : HostData)
    (t : Transitions) (key : String) (h : (findAlert srv.alerts key).isSome = true) :
    ∃ t', newAlertStep srv g sn hd t key = some t' ∧ t'.params.alerts = t.params.alerts := by
  unfold newAlertStep
  cases Dict.get hd.alerts key with
  | some e => exact ⟨t, rfl, rfl⟩
  | none =>
    cases Dict.get t.params.alerts key with
    | none => exact ⟨t, rfl, rfl⟩
    | some alert =>
      cases hfa : findAlert srv.alerts key with
      | none => rw [hfa] at h; simp at h
      | some alert_def => exact ⟨_, rfl, rfl⟩

theorem foldlM_newAlertStep_isSome (srv : Server) (g : GroupDef) (sn : Bool) (hd : HostData) :
    ∀ (ks : List String) (t : Transitions),
      (∀ k ∈ ks, (findAlert srv.alerts k).isSome = true) →
      ∃ t', ks.foldlM (newAlertStep srv g sn hd) t = some t' := by
  intro ks
  induction ks with
  | nil => intro t _; exact ⟨t, rfl⟩
  | cons k rest ih =>
    intro t h
    obtain ⟨t1, h1, _⟩ := newAlertStep_isSome srv g sn hd t k (h k (List.mem_cons_self _ _))
    obtain ⟨t', h2⟩ := ih t1 (fun k' hk' => h k' (List.mem_cons_of_mem _ hk'))
    refine ⟨t', ?_⟩
    rw [List.foldlM_cons, h1]
    exact h2

/-- A submission whose group is defined is processed to the end: the method
returns. -/
theorem processDataSubmission_returns (env : Env) (srv : Server) (st : State)
    (task : Submission) (g : GroupDef) (hg : findGroup srv.groups task.group = some g) :
    ∃ out, processDataSubmission env srv st task = some out := by
  obtain ⟨nt, hnt⟩ := foldlM_newAlertStep_isSome srv g (alertsSnoozed env srv)
    (hostData st task.hostname) (Dict.keys (alertStage env srv st task).1.alerts)
    { params := (alertStage env srv st task).1, log := [], sent := [] }
    (fun k hk => alertStage_active_defined env srv st task k hk)
  unfold processDataSubmission
  rw [hg]
  simp only []
  unfold newTransitions
  simp only []
  rw [hnt]
  exact ⟨_, rfl⟩

theorem Dict.not_mem_keys_iff {α : Type} (d : Dict α) (k : String) :
    k ∉ Dict.keys d ↔ Dict.get d k = none := by
  rw [Dict.mem_keys_iff]
  cases Dict.get d k <;> simp

theorem fires_iff (hd : HostData) (p : Params) (id : String) :
    fires hd p id = true ↔ id ∈ Dict.keys p.alerts ∧ id ∉ Dict.keys hd.alerts := by
  unfold fires
  rw [Dict.not_mem_keys_iff, Dict.mem_keys_iff]
  cases Dict.get hd.alerts id <;> cases Dict.get p.alerts id <;> simp

/-- The transitions of a returning submission, in terms of the loaded host record
`hd` and the alerts `params.alerts` of the submission. -/
theorem processDataSubmission_transitions (env : Env) (srv : Server) (st : State)
    (task : Submission) (out : Outcome) (h : processDataSubmission env srv st task = some out) :
    out.params.hostname = task.hostname ∧ out.params.date = task.date ∧
    out.params.data.monitors = (monitorPass env srv.monitors task).data ∧
    (∀ id e, Dict.get out.params.alerts id = some e →
      e.date = triggerDate (hostData st task.hostname) task.date id) ∧
    (∀ id, fires (hostData st task.hostname) out.params id = true →
      Dict.get (out.params.new_alerts.getD []) id = some true) ∧
    (∀ id, ¬ fires (hostData st task.hostname) out.params id = true →
      Dict.get (out.params.new_alerts.getD []) id = none) ∧
    (∀ id, (out.log.filter (LogEvent.isNew id)).length =
      if fires (hostData st task.hostname) out.params id = true then 1 else 0) ∧
    (∀ id e, Dict.get out.params.alerts id = some e →
      out.log.filter (LogEvent.isCleared id) = [] ∧
      ∀ n ∈ out.sent, n.alert_id = id → fires (hostData st task.hostname) out.params id = true) := by
  obtain ⟨g, nt, _, hnt, hp, _, hsent, ⟨plain1, plain2, hpl1, hpl2, hlog⟩, _, _, _, _⟩ :=
    processDataSubmission_inv env srv st task out h
  obtain ⟨a1, a2, a3, a4, a5⟩ := alertStage_frame env srv st task
  obtain ⟨n1, n2, n3, n4, n5, n6, n7, n8, n9⟩ := foldlM_newAlertStep srv g (alertsSnoozed env srv)
    (hostData st task.hostname) _ _ nt (Dict.nodup_keys _) hnt
  simp only at n1 n2 n3 n4 n5 n6 n7 n8 n9
  obtain ⟨c1, c2, c3⟩ := clearedTransitions_frame env srv g (alertsSnoozed env srv)
    (hostData st task.hostname) (Dict.keys (hostData st task.hostname).alerts) nt
  have hfires : ∀ id, fires (hostData st task.hostname) out.params id =
      fires (hostData st task.hostname) (alertStage env srv st task).1 id := by
    intro id
    unfold fires
    rw [hp, n3]
  have hkeys : ∀ id, fires (hostData st task.hostname) (alertStage env srv st task).1 id = true →
      id ∈ Dict.keys (alertStage env srv st task).1.alerts := fun id hf =>
    ((fires_iff _ _ id).1 hf).1
  refine ⟨?_, ?_, ?_, ?_, ?_, ?_, ?_, ?_⟩
  · rw [hp, n1, a1]
  · rw [hp, n2, a2]
  · rw [hp, n4, a4]
  · intro id e he
    rw [hp, n3] at he
    exact a5 id e he
  · intro id hf
    rw [hfires] at hf
    rw [hp]
    exact n5 id (hkeys id hf) hf
  · intro id hf
    rw [hfires] at hf
    rw [hp, n6 id (fun hc => hf hc.2), a3]
    rfl
  · intro id
    rw [hlog, List.filter_append, List.filter_append, filter_isNew_of_plain _ _ hpl1,
      filter_isNew_of_plain _ _ hpl2, List.append_nil, List.nil_append]
    show ((clearedTransitions env srv g (alertsSnoozed env srv)
      (hostData st task.hostname) nt).log.filter (LogEvent.isNew id)).length = _
    unfold clearedTransitions
    rw [c2 id, n7 id, hfires]
    by_cases hf : fires (hostData st task.hostname) (alertStage env srv st task).1 id = true
    · have : id ∈ Dict.keys (alertStage env srv st task).1.alerts ∧
          fires (hostData st task.hostname) (alertStage env srv st task).1 id = true :=
        ⟨hkeys id hf, hf⟩
      simp [this, hf]
    · have : ¬ (id ∈ Dict.keys (alertStage env srv st task).1.alerts ∧
          fires (hostData st task.hostname) (alertStage env srv st task).1 id = true) :=
        fun hc => hf hc.2
      simp [this, hf]
  · intro id e he
    rw [hp] at he
    obtain ⟨q1, q2⟩ := c3 id e he
    constructor
    · rw [hlog, List.filter_append, List.filter_append, filter_isCleared_of_plain _ _ hpl1,
        filter_isCleared_of_plain _ _ hpl2, List.append_nil, List.nil_append]
      show (clearedTransitions env srv g (alertsSnoozed env srv)
        (hostData st task.hostname) nt).log.filter (LogEvent.isCleared id) = _
      unfold clearedTransitions
      rw [q1, n8 id]
      rfl
    · intro n hn hid
      rw [hsent] at hn
      unfold clearedTransitions at hn
      rcases q2 n hn with hn1 | hn1
      · rcases n9 n hn1 with hn2 | hn2
        · simp at hn2
        · rw [hfires, ← hid]
          exact hn2.2
      · exact absurd hid hn1

/-- C10. For every submission whose group is defined and every host record, the
submission is processed to the end and its newly-triggered alert set
`params.new_alerts` is exactly the set of alert ids active in this submission
and absent from the active set of the host record loaded for it, each marked
`true`; an id active both before and now is not in it and produces no
transition event: no `alert_new` or `alert_cleared` log line and no
notification. -/
theorem new_alerts_exact (env : Env) (srv : Server) (st : State) (task : Submission)
    (g : GroupDef) (hg : findGroup srv.groups task.group = some g) :
    ∃ out, processDataSubmission env srv st task = some out ∧
      (∀ id, id ∈ Dict.keys (out.params.new_alerts.getD []) ↔
        (id ∈ Dict.keys out.params.alerts ∧
          id ∉ Dict.keys (hostData st task.hostname).alerts)) ∧
      (∀ id v, Dict.get (out.params.new_alerts.getD []) id = some v → v = true) ∧
      (∀ id, id ∈ Dict.keys out.params.alerts →
        id ∈ Dict.keys (hostData st task.hostname).alerts →
          id ∉ Dict.keys (out.params.new_alerts.getD []) ∧
          out.log.filter (LogEvent.isNew id) = [] ∧
          out.log.filter (LogEvent.isCleared id) = [] ∧
          ∀ n ∈ out.sent, n.alert_id ≠ id) := by
  obtain ⟨out, h⟩ := processDataSubmission_returns env srv st task g hg
  refine ⟨out, h, ?_⟩
  obtain ⟨_, _, _, _, t5, t6, t7, t8⟩ := processDataSubmission_transitions env srv st task out h
  have hset : ∀ id, id ∈ Dict.keys (out.params.new_alerts.getD []) ↔
      (id ∈ Dict.keys out.params.alerts ∧
        id ∉ Dict.keys (hostData st task.hostname).alerts) := by
    intro id
    rw [← fires_iff]
    constructor
    · intro hmem
      by_contra hf
      exact (Dict.not_mem_keys_iff _ _).2 (t6 id hf) hmem
    · intro hf
      exact (Dict.mem_keys_iff _ _).2 ⟨true, t5 id hf⟩
  refine ⟨hset, ?_, ?_⟩
  · intro id v hv
    by_cases hf : fires (hostData st task.hostname) out.params id = true
    · rw [t5 id hf] at hv
      exact (Option.some.inj hv).symm
    · rw [t6 id hf] at hv
      exact Option.noConfusion hv
  · intro id hnow hbefore
    have hf : ¬ fires (hostData st task.hostname) out.params id = true :=
      fun hc => ((fires_iff _ _ id).1 hc).2 hbefore
    obtain ⟨e, he⟩ := (Dict.mem_keys_iff _ _).1 hnow
    refine ⟨fun hc => ((hset id).1 hc).2 hbefore, ?_, (t8 id e he).1, ?_⟩
    · have := t7 id
      rw [if_neg hf] at this
      exact List.length_eq_zero.1 this
    · intro n hn hid
      exact hf ((t8 id e he).2 n hn hid)

/-- After a successful submission the stored host record is `params`. -/
theorem hostData_after (env : Env) (srv : Server) (st : State) (task : Submission)
    (out : Outcome) (h : processDataSubmission env srv st task = some out)
    (herr : out.err = none) :
    Dict.get out.st.hosts (hostKey task.hostname) = some out.params ∧
    hostData out.st task.hostname = HostData.ofParams out.params := by
  obtain ⟨g, nt, _, _, _, _, _, _, _, _, hh, _⟩ := processDataSubmission_inv env srv st task out h
  have hget : Dict.get out.st.hosts (hostKey task.hostname) = some out.params := by
    rw [hh herr]
    exact Dict.get_set_self _ _ _
  refine ⟨hget, ?_⟩
  unfold hostData
  rw [hget]

theorem triggerDate_of_none (hd : HostData) (date : ℤ) (id : String)
    (h : Dict.get hd.alerts id = none) : triggerDate hd date id = date := by
  unfold triggerDate
  rw [h]

theorem triggerDate_of_some (hd : HostData) (date : ℤ) (id : String) (prev : AlertEntry)
    (h : Dict.get hd.alerts id = some prev) : triggerDate hd date id = prev.date := by
  unfold triggerDate
  rw [h]

/-- A successful submission in which an alert that the host record does not hold
is active: one `alert_new` line, the id is in `new_alerts`, the trigger date is
the date of the submission, and the stored record now holds the alert. -/
theorem submission_alert_new (env : Env) (srv : Server) (st : State) (task : Submission)
    (out : Outcome) (id : String) (e : AlertEntry)
    (h : processDataSubmission env srv st task = some out) (herr : out.err = none)
    (hbefore : Dict.get (hostData st task.hostname).alerts id = none)
    (hact : Dict.get out.params.alerts id = some e) :
    (out.log.filter (LogEvent.isNew id)).length = 1 ∧
    Dict.get (out.params.new_alerts.getD []) id = some true ∧
    e.date = task.date ∧
    Dict.get (hostData out.st task.hostname).alerts id = some e := by
  obtain ⟨_, _, _, t4, t5, _, t7, _⟩ := processDataSubmission_transitions env srv st task out h
  have hf : fires (hostData st task.hostname) out.params id = true := by
    unfold fires
    rw [hbefore, hact]
    rfl
  refine ⟨?_, t5 id hf, ?_, ?_⟩
  · rw [t7 id, if_pos hf]
  · rw [t4 id e hact, triggerDate_of_none _ _ _ hbefore]
  · rw [(hostData_after env srv st task out h herr).2]
    exact hact

/-- A successful submission in which an alert that the host record already holds
is active: no `alert_new` line, the id is not in `new_alerts`, the trigger date
is the one of the host record, and the stored record still holds the alert. -/
theorem submission_alert_kept (env : Env) (srv : Server) (st : State) (task : Submission)
    (out : Outcome) (id : String) (e prev : AlertEntry)
    (h : processDataSubmission env srv st task = some out) (herr : out.err = none)
    (hbefore : Dict.get (hostData st task.hostname).alerts id = some prev)
    (hact : Dict.get out.params.alerts id = some e) :
    out.log.filter (LogEvent.isNew id) = [] ∧
    Dict.get (out.params.new_alerts.getD []) id = none ∧
    e.date = prev.date ∧
    Dict.get (hostData out.st task.hostname).alerts id = some e := by
  obtain ⟨_, _, _, t4, _, t6, t7, _⟩ := processDataSubmission_transitions env srv st task out h
  have hf : ¬ fires (hostData st task.hostname) out.params id = true := by
    unfold fires
    rw [hbefore]
    simp
  refine ⟨?_, t6 id hf, ?_, ?_⟩
  · have := t7 id
    rw [if_neg hf] at this
    exact List.length_eq_zero.1 this
  · rw [t4 id e hact, triggerDate_of_some _ _ _ _ hbefore]
  · rw [(hostData_after env srv st task out h herr).2]
    exact hact

theorem processAll_cons_some (srv : Server) (st : State) (c : Env × Submission)
    (rest : List (Env × Submission)) (outs : List Outcome)
    (h : processAll srv st (c :: rest) = some outs) :
    ∃ o os, outs = o :: os ∧ processDataSubmission c.1 srv st c.2 = some o ∧
      processAll srv o.st rest = some os := by
  unfold processAll at h
  cases ho : processDataSubmission c.1 srv st c.2 with
  | none => rw [ho] at h; simp at h
  | some o =>
    rw [ho] at h
    simp only at h
    cases hos : processAll srv o.st rest with
    | none => rw [hos] at h; simp at h
    | some os =>
      rw [hos] at h
      simp only [Option.map_some', Option.some.injEq] at h
      exact ⟨o, os, h.symm, rfl, hos⟩

theorem processAll_length (srv : Server) :
    ∀ (calls : List (Env × Submission)) (st : State) (outs : List Outcome),
      processAll srv st calls = some outs → outs.length = calls.length := by
  intro calls
  induction calls with
  | nil =>
    intro st outs h
    simp only [processAll, Option.some.injEq] at h
    subst h
    rfl
  | cons c rest ih =>
    intro st outs h
    obtain ⟨o, os, houts, _, h2⟩ := processAll_cons_some srv st c rest outs h
    subst houts
    simp [ih o.st os h2]

/-- While an alert stays active over successful submissions of one host, no
further `alert_new` is produced and its trigger date stays the stored one. -/
theorem processAll_alert_kept (srv : Server) (hostname id : String) (date : ℤ) :
    ∀ (calls : List (Env × Submission)) (st : State) (outs : List Outcome),
      processAll srv st calls = some outs →
      (∀ c ∈ calls, c.2.hostname = hostname) →
      (∀ o ∈ outs, o.err = none) →
      (∃ prev, Dict.get (hostData st hostname).alerts id = some prev ∧ prev.date = date) →
      (∀ o ∈ outs, id ∈ Dict.keys o.params.alerts) →
      ∀ o ∈ outs, o.log.filter (LogEvent.isNew id) = [] ∧
        id ∉ Dict.keys (o.params.new_alerts.getD []) ∧
        ∃ e, Dict.get o.params.alerts id = some e ∧ e.date = date := by
  intro calls
  induction calls with
  | nil =>
    intro st outs h _ _ _ _ o ho
    simp only [processAll, Option.some.injEq] at h
    subst h
    exact absurd ho (List.not_mem_nil _)
  | cons c rest ih =>
    intro st outs h hhost herr hprev hact o ho
    obtain ⟨o1, os, houts, h1, h2⟩ := processAll_cons_some srv st c rest outs h
    subst houts
    have hc : c.2.hostname = hostname := hhost c (List.mem_cons_self _ _)
    obtain ⟨prev, hp, hpd⟩ := hprev
    obtain ⟨e, he⟩ := (Dict.mem_keys_iff _ _).1 (hact o1 (List.mem_cons_self _ _))
    obtain ⟨k1, k2, k3, k4⟩ := submission_alert_kept c.1 srv st c.2 o1 id e prev h1
      (herr o1 (List.mem_cons_self _ _)) (by rw [hc]; exact hp) he
    rcases List.mem_cons.1 ho with ho1 | ho1
    · subst ho1
      exact ⟨k1, (Dict.not_mem_keys_iff _ _).2 k2, e, he, k3.trans hpd⟩
    · exact ih o1.st os h2 (fun c' hc' => hhost c' (List.mem_cons_of_mem _ hc'))
        (fun o' ho' => herr o' (List.mem_cons_of_mem _ ho'))
        ⟨e, by rw [← hc]; exact k4, k3.trans hpd⟩
        (fun o' ho' => hact o' (List.mem_cons_of_mem _ ho')) o ho1

/-- An alert is active in a returning submission exactly when one of its
definitions passed the group filter and its expression, evaluated at its turn of
the alert loop, was `true`. -/
theorem submission_active_iff (env : Env) (srv : Server) (st : State) (task : Submission)
    (out : Outcome) (id : String) (h : processDataSubmission env srv st task = some out) :
    id ∈ Dict.keys out.params.alerts ↔
      ∃ before a after, srv.alerts = before ++ a :: after ∧ a.id = id ∧
        groupFiltered env a.group_match
          (before.foldl (alertStep env (hostData st task.hostname))
            ((deltaStage env srv st task).1, [])).1.group = false ∧
        strictTrue (env.safeEval
          (env.sub a.expression
            (before.foldl (alertStep env (hostData st task.hostname))
              ((deltaStage env srv st task).1, [])).1.data)
          (before.foldl (alertStep env (hostData st task.hostname))
            ((deltaStage env srv st task).1, [])).1) = true := by
  obtain ⟨g, nt, _, hnt, hp, _⟩ := processDataSubmission_inv env srv st task out h
  have hal := (foldlM_newAlertStep srv g (alertsSnoozed env srv) (hostData st task.hostname)
    _ _ nt (Dict.nodup_keys _) hnt).2.2.1
  simp only at hal
  rw [hp, hal]
  unfold alertStage alertPass
  rw [alertPass_active_iff]
  constructor
  · rintro (hk | hk)
    · rw [(deltaStage_frame env srv st task).2.2.1] at hk
      simp [Dict.keys] at hk
    · exact hk
  · intro hk
    exact Or.inr hk

/-- C9. For a host and an alert, over a sequence of successful submissions of the
host, each processed on the state (and so the host record) left by the previous
one, with outcomes `outs`: when the alert is not active in the host record
before the first submission and is active in every submission of the sequence
(its expression went from false to true and stays true; by
`submission_active_iff` an alert is active when its expression evaluated to
`true`), the first submission
produces exactly one new transition (one `alert_new` line, the id is in its
`new_alerts`), the following ones produce none, and the trigger date recorded
for the alert in every submission is the timestamp of the first one. -/
theorem alert_single_transition (srv : Server) (st : State) (c : Env × Submission)
    (rest : List (Env × Submission)) (outs : List Outcome) (id : String)
    (hrun : processAll srv st (c :: rest) = some outs)
    (hhost : ∀ c' ∈ rest, c'.2.hostname = c.2.hostname)
    (hok : ∀ o' ∈ outs, o'.err = none)
    (hbefore : id ∉ Dict.keys (hostData st c.2.hostname).alerts)
    (hactive : ∀ o' ∈ outs, id ∈ Dict.keys o'.params.alerts) :
    ∃ o os, outs = o :: os ∧ os.length = rest.length ∧
      (o.log.filter (LogEvent.isNew id)).length = 1 ∧
      id ∈ Dict.keys (o.params.new_alerts.getD []) ∧
      (∀ o' ∈ os, o'.log.filter (LogEvent.isNew id) = [] ∧
        id ∉ Dict.keys (o'.params.new_alerts.getD [])) ∧
      (∀ o' ∈ outs, ∃ e, Dict.get o'.params.alerts id = some e ∧ e.date = c.2.date) := by
  obtain ⟨o, os, houts, h1, h2⟩ := processAll_cons_some srv st c rest _ hrun
  subst houts
  obtain ⟨e, he⟩ := (Dict.mem_keys_iff _ _).1 (hactive o (List.mem_cons_self _ _))
  obtain ⟨k1, k2, k3, k4⟩ := submission_alert_new c.1 srv st c.2 o id e h1
    (hok o (List.mem_cons_self _ _)) ((Dict.not_mem_keys_iff _ _).1 hbefore) he
  have hrest := processAll_alert_kept srv c.2.hostname id c.2.date rest o.st os h2 hhost
    (fun o' ho' => hok o' (List.mem_cons_of_mem _ ho')) ⟨e, k4, k3⟩
    (fun o' ho' => hactive o' (List.mem_cons_of_mem _ ho'))
  refine ⟨o, os, rfl, processAll_length srv rest o.st os h2, k1,
    (Dict.mem_keys_iff _ _).2 ⟨true, k2⟩,
    fun o' ho' => ⟨(hrest o' ho').1, (hrest o' ho').2.1⟩, ?_⟩
  intro o' ho'
  rcases List.mem_cons.1 ho' with h' | h'
  · subst h'
    exact ⟨e, he, k3⟩
  · exact (hrest o' h').2.2

/-! ## The baseline of the deltas -/

theorem monitorStep_delta_defs (env : Env) (s : MonState) (mon : MonitorDef) :
    (monitorStep env s mon).delta_defs =
      s.delta_defs ++ [mon].filter
        (fun m => !groupFiltered env m.group_match s.params.group && m.delta) := by
  unfold monitorStep
  by_cases hf : groupFiltered env mon.group_match s.params.group = true
  · simp [hf]
  · by_cases hd : mon.delta = true
    · simp [hf, hd]
    · simp [hf, hd]

theorem foldl_monitorStep_delta_defs (env : Env) :
    ∀ (defs : List MonitorDef) (s : MonState),
      (defs.foldl (monitorStep env) s).delta_defs =
        s.delta_defs ++ defs.filter
          (fun m => !groupFiltered env m.group_match s.params.group && m.delta) := by
  intro defs
  induction defs with
  | nil => intro s; simp
  | cons m rest ih =>
    intro s
    rw [List.foldl_cons, ih, monitorStep_delta_defs, (monitorStep_frame env s m).2.2.2.2,
      List.append_assoc, ← List.filter_append]
    rfl

/-- The delta monitors of a submission are a sublist of the monitor definitions. -/
theorem monitorPass_delta_defs_sublist (env : Env) (defs : List MonitorDef) (task : Submission) :
    (monitorPass env defs task).delta_defs.Sublist defs := by
  unfold monitorPass
  rw [foldl_monitorStep_delta_defs]
  exact List.filter_sublist _

theorem deltaPass_get_of_not_mem (env : Env) (hd : HostData) (k : String) :
    ∀ (defs : List MonitorDef) (p : Params) (data : Dict Value),
      k ∉ defs.map MonitorDef.id →
      Dict.get (deltaPass env hd defs p data).2 k = Dict.get data k := by
  intro defs
  induction defs with
  | nil => intro p data _; rfl
  | cons m rest ih =>
    intro p data hk
    simp only [List.map_cons, List.mem_cons, not_or] at hk
    rw [deltaPass_cons, ih _ _ hk.2, deltaStep_get_ne env hd (p, data) m k hk.1]

/-- With distinct ids, the working-map entry of a delta monitor after the pass
is the one its own round computed from the entry before the pass. -/
theorem deltaPass_get_unique (env : Env) (hd : HostData) (mon : MonitorDef) :
    ∀ (defs : List MonitorDef) (p : Params) (data : Dict Value),
      (defs.map MonitorDef.id).Nodup → mon ∈ defs →
      Dict.get (deltaPass env hd defs p data).2 mon.id =
        Dict.get (deltaStep env hd (p, data) mon).2 mon.id := by
  intro defs
  induction defs with
  | nil => intro p data _ hm; exact absurd hm (List.not_mem_nil _)
  | cons m rest ih =>
    intro p data hnd hm
    rw [List.map_cons, List.nodup_cons] at hnd
    rw [deltaPass_cons]
    rcases List.mem_cons.1 hm with h | h
    · subst h
      exact deltaPass_get_of_not_mem env hd mon.id rest _ _ hnd.1
    · have hne : mon.id ≠ m.id := by
        intro hc
        exact hnd.1 (hc ▸ List.mem_map_of_mem _ h)
      rw [ih _ _ hnd.2 h]
      cases hprev : Dict.get hd.monitors mon.id with
      | none =>
        rw [deltaStep_of_none env hd _ mon hprev, deltaStep_of_none env hd _ mon hprev]
        simp only [Dict.get_set_self]
      | some prev =>
        rw [deltaStep_get_of_some env hd _ mon prev hprev,
          deltaStep_get_of_some env hd _ mon prev hprev,
          (deltaStep_frame env hd (p, data) m).2.1,
          deltaStep_get_ne env hd (p, data) m mon.id hne]

/-- C8. Baseline invariant. The delta pass leaves the absolute-values map
`params.data.monitors` as the monitor loop resolved it; the host record written
by a successful submission is `params` and so carries these absolute values; and
for two consecutive submissions of a host, the first successful, with absolute
values `a1` then `a2` of a delta monitor (monitor ids being distinct), the delta
of the second is computed from `a2` and the stored `a1`, that is from
`a2 - a1`, and not from the delta computed by the first. -/
theorem baseline_absolute (env1 env2 : Env) (srv : Server) (st : State)
    (task1 task2 : Submission) (out1 out2 : Outcome) (mon : MonitorDef) (a1 a2 : Value)
    (hids : (srv.monitors.map MonitorDef.id).Nodup)
    (h1 : processDataSubmission env1 srv st task1 = some out1) (he1 : out1.err = none)
    (h2 : processDataSubmission env2 srv out1.st task2 = some out2)
    (hhost : task2.hostname = task1.hostname)
    (hmon : mon ∈ (monitorPass env2 srv.monitors task2).delta_defs)
    (ha1 : Dict.get (monitorPass env1 srv.monitors task1).data mon.id = some a1)
    (ha2 : Dict.get (monitorPass env2 srv.monitors task2).data mon.id = some a2) :
    (∀ (env : Env) (hd : HostData) (defs : List MonitorDef) (p : Params) (data : Dict Value),
      (deltaPass env hd defs p data).1.data.monitors = p.data.monitors) ∧
    out1.params.data.monitors = (monitorPass env1 srv.monitors task1).data ∧
    out2.params.data.monitors = (monitorPass env2 srv.monitors task2).data ∧
    Dict.get out1.st.hosts (hostKey task1.hostname) = some out1.params ∧
    (out2.err = none → Dict.get out2.st.hosts (hostKey task2.hostname) = some out2.params) ∧
    Dict.get (hostData out1.st task2.hostname).monitors mon.id = some a1 ∧
    Dict.get out2.params.data.monitors mon.id = some a2 ∧
    Dict.get out2.data mon.id =
      some (Value.num (computeDelta env2 mon task2.date (some task1.date) (some a2) a1)) := by
  obtain ⟨_, d1, m1, _⟩ := processDataSubmission_transitions env1 srv st task1 out1 h1
  obtain ⟨_, _, m2, _⟩ := processDataSubmission_transitions env2 srv out1.st task2 out2 h2
  obtain ⟨hst1, hhd1⟩ := hostData_after env1 srv st task1 out1 h1 he1
  obtain ⟨_, _, _, _, _, hdata2, _⟩ := processDataSubmission_inv env2 srv out1.st task2 out2 h2
  have hhd : hostData out1.st task2.hostname = HostData.ofParams out1.params := by
    rw [hhost]; exact hhd1
  have hprev : Dict.get (hostData out1.st task2.hostname).monitors mon.id = some a1 := by
    rw [hhd]
    show Dict.get out1.params.data.monitors mon.id = some a1
    rw [m1]
    exact ha1
  refine ⟨fun env hd defs p data => (deltaPass_frame env hd defs p data).2.2.2.2.2, m1, m2, hst1,
    fun he2 => (hostData_after env2 srv out1.st task2 out2 h2 he2).1, hprev, ?_, ?_⟩
  · rw [m2]; exact ha2
  · rw [hdata2]
    unfold deltaStage
    rw [deltaPass_get_unique env2 _ mon _ _ _
      ((hids.sublist ((monitorPass_delta_defs_sublist env2 srv.monitors task2).map _))) hmon,
      deltaStep_get_of_some env2 _ _ mon a1 hprev, ha2]
    simp only [(monitorPass_frame env2 srv.monitors task2).2.1]
    rw [hhd]
    show some (Value.num (computeDelta env2 mon task2.date (some out1.params.date) (some a2) a1)) = _
    rw [d1]

/-! ## Counterexamples and instances -/

/-- Instance of C1: two submissions of one hour bucket carrying `3` and `4`,
merged in the other order into an empty list. -/
theorem processSystem_bucket_sum_witness :
    ∃ b, listGetLast (runSystem exEnv (exSrv exMon) (exSys false) (exState [])
        [(exParams 7400 "" "a" (Value.num (JSNum.fin 4)), [("a", Value.num (JSNum.fin 4))]),
         (exParams 7300 "" "a" (Value.num (JSNum.fin 3)), [("a", Value.num (JSNum.fin 3))])])
        exKey = some b ∧
      b.epoch_div = 2 ∧
      Dict.get b.totals "a" = some (Value.num ([JSNum.fin 3, JSNum.fin 4].sum)) ∧
      b.count = 2 :=
  processSystem_bucket_sum exEnv (exSrv exMon) (exSys false) (exState []) exKey "a" 2
    [(exParams 7300 "" "a" (Value.num (JSNum.fin 3)), [("a", Value.num (JSNum.fin 3))],
        JSNum.fin 3),
     (exParams 7400 "" "a" (Value.num (JSNum.fin 4)), [("a", Value.num (JSNum.fin 4))],
        JSNum.fin 4)]
    [(exParams 7400 "" "a" (Value.num (JSNum.fin 4)), [("a", Value.num (JSNum.fin 4))],
        JSNum.fin 4),
     (exParams 7300 "" "a" (Value.num (JSNum.fin 3)), [("a", Value.num (JSNum.fin 3))],
        JSNum.fin 3)]
    rfl (by intro b hb; simp [listGetLast, exState, Dict.get] at hb) (by simp) (by decide!)
    (List.Perm.swap _ _ _)

/-- Instance of C2: a submission of hour `2` into a list whose last bucket is
hour `5`. -/
theorem processSystem_out_of_order_witness :
    (processSystem exEnv (exSrv exMon) (exState [(exKey, [exBucket 5 1])]) (exSys false)
        (exParams 7300 "" "a" (Value.num (JSNum.fin 3))) [("a", Value.num (JSNum.fin 3))]).2 =
        some (SysError.outOfOrder (epochDiv (exSys false)
          (exParams 7300 "" "a" (Value.num (JSNum.fin 3)))) (exBucket 5 1).epoch_div
          (timelineKey exEnv (exSys false) (exParams 7300 "" "a" (Value.num (JSNum.fin 3))))) ∧
      (processSystem exEnv (exSrv exMon) (exState [(exKey, [exBucket 5 1])]) (exSys false)
        (exParams 7300 "" "a" (Value.num (JSNum.fin 3))) [("a", Value.num (JSNum.fin 3))]).1.trace =
        (exState [(exKey, [exBucket 5 1])]).trace ++
          [Op.listGet (timelineKey exEnv (exSys false)
            (exParams 7300 "" "a" (Value.num (JSNum.fin 3))))] ∧
      (processSystem exEnv (exSrv exMon) (exState [(exKey, [exBucket 5 1])]) (exSys false)
        (exParams 7300 "" "a" (Value.num (JSNum.fin 3))) [("a", Value.num (JSNum.fin 3))]).1.lists =
        (exState [(exKey, [exBucket 5 1])]).lists :=
  processSystem_out_of_order exEnv (exSrv exMon) (exState [(exKey, [exBucket 5 1])])
    (exSys false) (exParams 7300 "" "a" (Value.num (JSNum.fin 3)))
    [("a", Value.num (JSNum.fin 3))] (exBucket 5 1) (by decide!) (by decide!)

/-- Instance of C4: a second submission of hour `2` on a `single_only`
resolution. -/
theorem processSystem_single_only_witness :
    (processSystem exEnv (exSrv exMon) (exState [(exKey, [exBucket 2 1])]) (exSys true)
        (exParams 7300 "" "a" (Value.num (JSNum.fin 3))) [("a", Value.num (JSNum.fin 3))]).2 =
        some (SysError.doubleSubmission "web1") ∧
      (processSystem exEnv (exSrv exMon) (exState [(exKey, [exBucket 2 1])]) (exSys true)
        (exParams 7300 "" "a" (Value.num (JSNum.fin 3))) [("a", Value.num (JSNum.fin 3))]).1.trace =
        (exState [(exKey, [exBucket 2 1])]).trace ++
          [Op.listGet (timelineKey exEnv (exSys true)
            (exParams 7300 "" "a" (Value.num (JSNum.fin 3))))] ∧
      (processSystem exEnv (exSrv exMon) (exState [(exKey, [exBucket 2 1])]) (exSys true)
        (exParams 7300 "" "a" (Value.num (JSNum.fin 3))) [("a", Value.num (JSNum.fin 3))]).1.lists =
        (exState [(exKey, [exBucket 2 1])]).lists ∧
      listGetLast (processSystem exEnv (exSrv exMon) (exState [(exKey, [exBucket 2 1])])
        (exSys true) (exParams 7300 "" "a" (Value.num (JSNum.fin 3)))
        [("a", Value.num (JSNum.fin 3))]).1
        (timelineKey exEnv (exSys true) (exParams 7300 "" "a" (Value.num (JSNum.fin 3)))) =
        some (exBucket 2 1) :=
  processSystem_single_only exEnv (exSrv exMon) (exState [(exKey, [exBucket 2 1])])
    (exSys true) (exParams 7300 "" "a" (Value.num (JSNum.fin 3)))
    [("a", Value.num (JSNum.fin 3))] (exBucket 2 1) rfl (by decide!) (by decide!)

/-- C5, counterexample. A delta monitor of `data_type` string whose current and
previous values are the text `abc` (two submissions of the payload `abc`): the
delta pass places `NaN` in the working map, and `NaN >= 0` is false. So the delta
is not `>= 0` for every delta monitor, host record and submission. -/
theorem delta_nonneg_counterexample :
    ((processDataSubmission exEnv (exSrv exLabelMon) (exAfter exLabelMon (exTask 100 "abc"))
        (exTask 142 "abc")).map fun o => Dict.get o.data "label") =
      some (some (Value.num JSNum.nan)) ∧
    JSNum.ge JSNum.nan (JSNum.fin 0) = false ∧
    ¬ ∀ (env : Env) (hd : HostData) (defs : List MonitorDef) (p : Params) (data : Dict Value),
      ∀ m ∈ defs, ∃ q : ℚ, 0 ≤ q ∧
        Dict.get (deltaPass env hd defs p data).2 m.id = some (Value.num (JSNum.fin q)) := by
  refine ⟨by decide!, rfl, ?_⟩
  intro h
  obtain ⟨q, _, hq⟩ := h exEnv (exHost 100 "label" (Value.str "abc")) [exLabelMon]
    (exParams 142 "abc" "label" (Value.str "abc")) [("label", Value.str "abc")] exLabelMon
    (List.mem_singleton_self _)
  have hnan : Dict.get (deltaPass exEnv (exHost 100 "label" (Value.str "abc")) [exLabelMon]
      (exParams 142 "abc" "label" (Value.str "abc")) [("label", Value.str "abc")]).2
      exLabelMon.id = some (Value.num JSNum.nan) := by decide!
  rw [hnan] at hq
  simp at hq

/-- Instance of C5 as amended: the monitor `net` with the values `1000` then
`1500`. -/
theorem deltaPass_nonneg_witness :
    ∃ q : ℚ, 0 ≤ q ∧
      Dict.get (deltaPass exEnv (exHost 100 "net" (Value.num (JSNum.fin 1000))) [exMon]
        (exParams 142 "1500" "net" (Value.num (JSNum.fin 1500)))
        [("net", Value.num (JSNum.fin 1500))]).2 exMon.id = some (Value.num (JSNum.fin q)) :=
  (deltaPass_nonneg exEnv (exHost 100 "net" (Value.num (JSNum.fin 1000))) [exMon]
    (exParams 142 "1500" "net" (Value.num (JSNum.fin 1500)))
    [("net", Value.num (JSNum.fin 1500))]).2.1 exMon (List.mem_singleton_self _)
    ⟨Value.num (JSNum.fin 1500), 1500, rfl, rfl⟩
    (fun prev hprev _ => ⟨1000, by
      have : prev = Value.num (JSNum.fin 1000) := by
        have h : Dict.get (exHost 100 "net" (Value.num (JSNum.fin 1000))).monitors exMon.id =
            some (Value.num (JSNum.fin 1000)) := by decide!
        rw [h] at hprev
        exact (Option.some.inj hprev).symm
      rw [this]
      rfl⟩)

/-- C6, counterexample. The example of the specification (`1000` then `1500`,
bytes, 42 seconds apart) with a host record whose previous timestamp is `0`
(submissions dated `0` and `42`): the guard `host_data.date` is falsy, the
difference is not divided, and the working-map delta is `500`, not
`floor(500 / 42) = 11`. -/
theorem deltaStep_divide_floor_counterexample :
    ((processDataSubmission exEnv (exSrv exMon) (exAfter exMon (exTask 0 "1000"))
        (exTask 42 "1500")).map fun o => Dict.get o.data "net") =
      some (some (Value.num (JSNum.fin 500))) ∧
    Dict.get (deltaStep exEnv (exHost 0 "net" (Value.num (JSNum.fin 1000)))
      (exParams 42 "1500" "net" (Value.num (JSNum.fin 1500)),
        [("net", Value.num (JSNum.fin 1500))]) exMon).2 "net" =
      some (Value.num (JSNum.fin 500)) ∧
    ¬ ∀ (env : Env) (hd : HostData) (s : Params × Dict Value) (mon : MonitorDef) (p c : ℚ)
        (d : ℤ),
      mon.divide_by_delta = true → integerLike mon.data_type = true →
      Dict.get hd.monitors mon.id = some (Value.num (JSNum.fin p)) →
      Dict.get s.2 mon.id = some (Value.num (JSNum.fin c)) →
      p ≤ c → hd.date = some d → 1 ≤ s.1.date - d →
      Dict.get (deltaStep env hd s mon).2 mon.id =
        some (Value.num (JSNum.fin ((⌊(c - p) / ((s.1.date - d : ℤ) : ℚ)⌋ : ℤ) : ℚ))) := by
  refine ⟨by decide!, by decide!, ?_⟩
  intro h
  have h1 := h exEnv (exHost 0 "net" (Value.num (JSNum.fin 1000)))
    (exParams 42 "1500" "net" (Value.num (JSNum.fin 1500)),
      [("net", Value.num (JSNum.fin 1500))]) exMon 1000 1500 0 rfl (by decide) (by decide!)
    (by decide!) (by norm_num) rfl (by decide)
  have h2 : Dict.get (deltaStep exEnv (exHost 0 "net" (Value.num (JSNum.fin 1000)))
      (exParams 42 "1500" "net" (Value.num (JSNum.fin 1500)),
        [("net", Value.num (JSNum.fin 1500))]) exMon).2 exMon.id =
      some (Value.num (JSNum.fin 500)) := by decide!
  rw [h2] at h1
  revert h1
  decide!

/-- Instance of C6 as amended, the example of the specification: `1000` then
`1500`, bytes, 42 seconds apart yield `floor(500 / 42) = 11`. -/
theorem deltaStep_divide_floor_witness :
    Dict.get (deltaStep exEnv (exHost 100 "net" (Value.num (JSNum.fin 1000)))
      (exParams 142 "1500" "net" (Value.num (JSNum.fin 1500)),
        [("net", Value.num (JSNum.fin 1500))]) exMon).2 exMon.id =
      some (Value.num (JSNum.fin 11)) := by
  have h := deltaStep_divide_floor exEnv (exHost 100 "net" (Value.num (JSNum.fin 1000)))
    (exParams 142 "1500" "net" (Value.num (JSNum.fin 1500)),
      [("net", Value.num (JSNum.fin 1500))]) exMon 1000 1500 100 rfl (by decide) (by decide!)
    (by decide!) (by norm_num) rfl (by decide) (by decide)
  rw [h]
  decide!

/-- C7, counterexample. The values `1000` then `1500`. With a submission dated 2
seconds before the host record (`elapsed = -2`) the code divides by `-2` and
clamps the negative quotient: the working-map delta is `0`, where dividing by
`max(1, elapsed) = 1` would give `500`. With a host record whose timestamp is
`0` and a submission dated `42` the code does not divide: the delta is `500`,
where dividing by `max(1, elapsed) = 42` would give `11`. -/
theorem deltaStep_divisor_counterexample :
    ((processDataSubmission exEnv (exSrv exMon) (exAfter exMon (exTask 100 "1000"))
        (exTask 98 "1500")).map fun o => Dict.get o.data "net") =
      some (some (Value.num (JSNum.fin 0))) ∧
    Dict.get (deltaStep exEnv (exHost 100 "net" (Value.num (JSNum.fin 1000)))
      (exParams 98 "1500" "net" (Value.num (JSNum.fin 1500)),
        [("net", Value.num (JSNum.fin 1500))]) exMon).2 "net" =
      some (Value.num (JSNum.fin 0)) ∧
    Dict.get (deltaStep exEnv (exHost 0 "net" (Value.num (JSNum.fin 1000)))
      (exParams 42 "1500" "net" (Value.num (JSNum.fin 1500)),
        [("net", Value.num (JSNum.fin 1500))]) exMon).2 "net" =
      some (Value.num (JSNum.fin 500)) ∧
    ¬ ∀ (env : Env) (hd : HostData) (s : Params × Dict Value) (mon : MonitorDef) (p c : ℚ)
        (d : ℤ),
      mon.divide_by_delta = true →
      Dict.get hd.monitors mon.id = some (Value.num (JSNum.fin p)) →
      Dict.get s.2 mon.id = some (Value.num (JSNum.fin c)) →
      hd.date = some d →
      Dict.get (deltaStep env hd s mon).2 mon.id =
        some (Value.num (floorDelta mon (clampDelta (JSNum.div (JSNum.fin (c - p))
          (JSNum.fin ((max 1 (s.1.date - d) : ℤ) : ℚ)))))) := by
  refine ⟨by decide!, by decide!, by decide!, ?_⟩
  intro h
  have h1 := h exEnv (exHost 100 "net" (Value.num (JSNum.fin 1000)))
    (exParams 98 "1500" "net" (Value.num (JSNum.fin 1500)),
      [("net", Value.num (JSNum.fin 1500))]) exMon 1000 1500 100 rfl (by decide!)
    (by decide!) rfl
  have h2 : Dict.get (deltaStep exEnv (exHost 100 "net" (Value.num (JSNum.fin 1000)))
      (exParams 98 "1500" "net" (Value.num (JSNum.fin 1500)),
        [("net", Value.num (JSNum.fin 1500))]) exMon).2 exMon.id =
      some (Value.num (JSNum.fin 0)) := by decide!
  rw [h2] at h1
  revert h1
  decide!

/-- Instance of C7 as amended: `elapsed = -2` divides by `-2`. -/
theorem deltaStep_divisor_witness :
    Dict.get (deltaStep exEnv (exHost 100 "net" (Value.num (JSNum.fin 1000)))
      (exParams 98 "1500" "net" (Value.num (JSNum.fin 1500)),
        [("net", Value.num (JSNum.fin 1500))]) exMon).2 exMon.id =
      some (Value.num (floorDelta exMon (JSNum.fin
        (max (((1500 : ℚ) - 1000) / (((-2 : ℤ) : ℚ))) 0)))) :=
  deltaStep_divisor exEnv (exHost 100 "net" (Value.num (JSNum.fin 1000)))
    (exParams 98 "1500" "net" (Value.num (JSNum.fin 1500)),
      [("net", Value.num (JSNum.fin 1500))]) exMon 1000 1500 rfl (by decide!)
    (by decide!)

/-- The first example submission returns. -/
theorem exFirst_isSome :
    (processDataSubmission exEnv (exSrv exMon) (exState []) (exTask 100 "1000")).isSome = true := by
  decide!

/-- The second example submission returns. -/
theorem exSecond_isSome :
    (processDataSubmission exEnv (exSrv exMon)
      ((processDataSubmission exEnv (exSrv exMon) (exState []) (exTask 100 "1000")).get
        exFirst_isSome).st (exTask 142 "1500")).isSome = true := by
  decide!

/-- The two example submissions in sequence return. -/
theorem exBoth_isSome :
    (processAll (exSrv exMon) (exState [])
      [(exEnv, exTask 100 "1000"), (exEnv, exTask 142 "1500")]).isSome = true := by
  decide!

/-- Instance of C8: the values `1000` then `1500` of the monitor `net`, 42
seconds apart. -/
theorem baseline_absolute_witness :
    Dict.get ((processDataSubmission exEnv (exSrv exMon)
      ((processDataSubmission exEnv (exSrv exMon) (exState []) (exTask 100 "1000")).get
        exFirst_isSome).st (exTask 142 "1500")).get exSecond_isSome).data exMon.id =
      some (Value.num (computeDelta exEnv exMon 142 (some 100)
        (some (Value.num (JSNum.fin 1500))) (Value.num (JSNum.fin 1000)))) :=
  (baseline_absolute exEnv exEnv (exSrv exMon) (exState []) (exTask 100 "1000")
    (exTask 142 "1500") _ _ exMon (Value.num (JSNum.fin 1000)) (Value.num (JSNum.fin 1500))
    (by decide!) (Option.some_get exFirst_isSome).symm (by decide!)
    (Option.some_get exSecond_isSome).symm rfl (by decide!) (by decide!) (by decide!)).2.2.2.2.2.2.2

/-- Instance of C9: the alert `hot` over two successful submissions of a new
host. -/
theorem alert_single_transition_witness :
    ∃ o os, (processAll (exSrv exMon) (exState [])
        [(exEnv, exTask 100 "1000"), (exEnv, exTask 142 "1500")]).get exBoth_isSome = o :: os ∧
      os.length = 1 ∧
      (o.log.filter (LogEvent.isNew "hot")).length = 1 ∧
      "hot" ∈ Dict.keys (o.params.new_alerts.getD []) ∧
      (∀ o' ∈ os, o'.log.filter (LogEvent.isNew "hot") = [] ∧
        "hot" ∉ Dict.keys (o'.params.new_alerts.getD [])) ∧
      (∀ o' ∈ (processAll (exSrv exMon) (exState [])
          [(exEnv, exTask 100 "1000"), (exEnv, exTask 142 "1500")]).get exBoth_isSome,
        ∃ e, Dict.get o'.params.alerts "hot" = some e ∧ e.date = 100) :=
  alert_single_transition (exSrv exMon) (exState []) (exEnv, exTask 100 "1000")
    [(exEnv, exTask 142 "1500")] _ "hot" (Option.some_get exBoth_isSome).symm
    (by decide) (by decide!) (by decide!) (by decide!)

/-- Instance of C10: the first submission of a new host, with the alert `hot`
active. -/
theorem new_alerts_exact_witness :
    ∃ out, processDataSubmission exEnv (exSrv exMon) (exState []) (exTask 100 "1000") =
        some out ∧
      (∀ id, id ∈ Dict.keys (out.params.new_alerts.getD []) ↔
        (id ∈ Dict.keys out.params.alerts ∧
          id ∉ Dict.keys (hostData (exState []) (exTask 100 "1000").hostname).alerts)) ∧
      (∀ id v, Dict.get (out.params.new_alerts.getD []) id = some v → v = true) ∧
      (∀ id, id ∈ Dict.keys out.params.alerts →
        id ∈ Dict.keys (hostData (exState []) (exTask 100 "1000").hostname).alerts →
          id ∉ Dict.keys (out.params.new_alerts.getD []) ∧
          out.log.filter (LogEvent.isNew id) = [] ∧
          out.log.filter (LogEvent.isCleared id) = [] ∧
          ∀ n ∈ out.sent, n.alert_id ≠ id) :=
  new_alerts_exact exEnv (exSrv exMon) (exState []) (exTask 100 "1000") exGroup (by decide!)

/-! ## Appending a bucket, and the key of a timeline list -/

/-- The bucket index times the width is the start of the bucket that holds the
timestamp. -/
theorem epochDiv_bounds (sys : Sys) (p : Params) (hw : 0 < sys.epoch_div) :
    epochDiv sys p * sys.epoch_div ≤ p.date ∧
      p.date < epochDiv sys p * sys.epoch_div + sys.epoch_div := by
  have hq : (0 : ℚ) < (sys.epoch_div : ℚ) := by exact_mod_cast hw
  have h1 : ((epochDiv sys p : ℤ) : ℚ) ≤ (p.date : ℚ) / (sys.epoch_div : ℚ) := Int.floor_le _
  have h2 : (p.date : ℚ) / (sys.epoch_div : ℚ) < ((epochDiv sys p : ℤ) : ℚ) + 1 :=
    Int.lt_floor_add_one _
  constructor
  · have h3 : ((epochDiv sys p : ℤ) : ℚ) * (sys.epoch_div : ℚ) ≤ (p.date : ℚ) :=
      (le_div_iff₀ hq).1 h1
    exact_mod_cast h3
  · have h3 : (p.date : ℚ) < (((epochDiv sys p : ℤ) : ℚ) + 1) * (sys.epoch_div : ℚ) :=
      (div_lt_iff₀ hq).1 h2
    have h4 : (p.date : ℚ) <
        ((epochDiv sys p : ℤ) : ℚ) * (sys.epoch_div : ℚ) + (sys.epoch_div : ℚ) := by
      linarith
    exact_mod_cast h4

/-- The lists `processSystem` leaves under the keys other than the timeline key
of the call are the ones it found. -/
theorem processSystem_lists_other (env : Env) (srv : Server) (st : State) (sys : Sys)
    (p : Params) (data : Dict Value) (key : String) (hk : key ≠ timelineKey env sys p) :
    Dict.get (processSystem env srv st sys p data).1.lists key = Dict.get st.lists key := by
  cases hl : loadLast env sys p (listGetLast st (timelineKey env sys p)) with
  | error e => rw [processSystem_of_error env srv st sys p data e hl]
  | ok u =>
    rw [processSystem_of_ok env srv st sys p data u hl]
    cases u with
    | none =>
      rw [pushOrMerge_lists_none]
      exact Dict.get_set_ne _ _ _ _ hk
    | some b =>
      rw [pushOrMerge_lists_some]
      exact Dict.get_set_ne _ _ _ _ hk

/-- The hostname cache after a call of `processSystem`. -/
theorem processSystem_hostnameCache (env : Env) (srv : Server) (st : State) (sys : Sys)
    (p : Params) (data : Dict Value) :
    (processSystem env srv st sys p data).1.hostnameCache =
      markHostname st.hostnameCache sys p := by
  cases hl : loadLast env sys p (listGetLast st (timelineKey env sys p)) with
  | error e => rw [processSystem_of_error env srv st sys p data e hl]
  | ok u =>
    rw [processSystem_of_ok env srv st sys p data u hl]
    cases u <;> rfl

/-- C20. Appending a bucket. For a resolution of positive width and a list that
is empty or whose last bucket has an `epoch_div` lower than the index
`floor(timestamp / width)` of the submission, `processSystem` passes no error,
the list is the previous list followed by one bucket, and that bucket has the
index as `epoch_div`, index times width as `date` (so that
`date <= timestamp < date + width`), the working map as totals, count `1`, and
as alerts the newly triggered set of the submission (no alerts when there is
none). -/
theorem processSystem_append (env : Env) (srv : Server) (st : State) (sys : Sys) (p : Params)
    (data : Dict Value) (hw : 0 < sys.epoch_div)
    (hlast : (Dict.get st.lists (timelineKey env sys p)).getD [] = [] ∨
      ∃ b, ((Dict.get st.lists (timelineKey env sys p)).getD []).getLast? = some b ∧
        b.epoch_div < ⌊(p.date : ℚ) / (sys.epoch_div : ℚ)⌋) :
    (processSystem env srv st sys p data).2 = none ∧
      Dict.get (processSystem env srv st sys p data).1.lists (timelineKey env sys p) =
        some ((Dict.get st.lists (timelineKey env sys p)).getD [] ++
          [{ date := ⌊(p.date : ℚ) / (sys.epoch_div : ℚ)⌋ * sys.epoch_div
             epoch_div := ⌊(p.date : ℚ) / (sys.epoch_div : ℚ)⌋
             totals := data
             count := 1
             alerts := p.new_alerts }]) ∧
      ⌊(p.date : ℚ) / (sys.epoch_div : ℚ)⌋ * sys.epoch_div ≤ p.date ∧
      p.date < ⌊(p.date : ℚ) / (sys.epoch_div : ℚ)⌋ * sys.epoch_div + sys.epoch_div := by
  have h : ∀ b, listGetLast st (timelineKey env sys p) = some b →
      b.epoch_div < epochDiv sys p := by
    intro b hb
    rw [listGetLast_eq] at hb
    rcases hlast with h0 | ⟨b', hb', hlt⟩
    · rw [h0] at hb
      simp at hb
    · rw [hb'] at hb
      cases hb
      exact hlt
  obtain ⟨h1, h2⟩ := processSystem_push env srv st sys p data h
  refine ⟨h1, ?_, epochDiv_bounds sys p hw⟩
  rw [h2, Dict.get_set_self]
  rfl

/-- Instance of C20: the hourly list of `web1` ends with bucket 27, and a
submission at second 100800 (bucket 28) appends. -/
theorem processSystem_append_witness :
    (0 : ℤ) < (exSys false).epoch_div ∧
    ((processSystem exEnv (exSrv exMon) (exState [(exKey, [exBucket 27 5])]) (exSys false)
        (exParams 100800 "1000" "net" (Value.num (JSNum.fin 1000)))
        [("net", Value.num (JSNum.fin 7))]).2 = none ∧
      Dict.get (processSystem exEnv (exSrv exMon) (exState [(exKey, [exBucket 27 5])])
          (exSys false) (exParams 100800 "1000" "net" (Value.num (JSNum.fin 1000)))
          [("net", Value.num (JSNum.fin 7))]).1.lists
          (timelineKey exEnv (exSys false)
            (exParams 100800 "1000" "net" (Value.num (JSNum.fin 1000)))) =
        some ((Dict.get (exState [(exKey, [exBucket 27 5])]).lists
            (timelineKey exEnv (exSys false)
              (exParams 100800 "1000" "net" (Value.num (JSNum.fin 1000))))).getD [] ++
          [{ date := ⌊((exParams 100800 "1000" "net" (Value.num (JSNum.fin 1000))).date : ℚ) /
                ((exSys false).epoch_div : ℚ)⌋ * (exSys false).epoch_div
             epoch_div := ⌊((exParams 100800 "1000" "net" (Value.num (JSNum.fin 1000))).date : ℚ) /
                ((exSys false).epoch_div : ℚ)⌋
             totals := [("net", Value.num (JSNum.fin 7))]
             count := 1
             alerts := (exParams 100800 "1000" "net" (Value.num (JSNum.fin 1000))).new_alerts }]) ∧
      ⌊((exParams 100800 "1000" "net" (Value.num (JSNum.fin 1000))).date : ℚ) /
          ((exSys false).epoch_div : ℚ)⌋ * (exSys false).epoch_div ≤
        (exParams 100800 "1000" "net" (Value.num (JSNum.fin 1000))).date ∧
      (exParams 100800 "1000" "net" (Value.num (JSNum.fin 1000))).date <
        ⌊((exParams 100800 "1000" "net" (Value.num (JSNum.fin 1000))).date : ℚ) /
          ((exSys false).epoch_div : ℚ)⌋ * (exSys false).epoch_div + (exSys false).epoch_div) :=
  ⟨by decide,
    processSystem_append exEnv (exSrv exMon) (exState [(exKey, [exBucket 27 5])]) (exSys false)
      (exParams 100800 "1000" "net" (Value.num (JSNum.fin 1000)))
      [("net", Value.num (JSNum.fin 7))] (by decide)
      (Or.inr ⟨exBucket 27 5, by decide, by decide!⟩)⟩

/-! ## The key of the list of a submission -/

/-- The storage calls of `processSystem` are list calls on the timeline key. -/
theorem processSystem_trace (env : Env) (srv : Server) (st : State) (sys : Sys) (p : Params)
    (data : Dict Value) :
    ∃ ops, (processSystem env srv st sys p data).1.trace = st.trace ++ ops ∧
      ∀ op ∈ ops, op.isList = true ∧ op.key = timelineKey env sys p := by
  cases hl : loadLast env sys p (listGetLast st (timelineKey env sys p)) with
  | error e =>
    rw [processSystem_of_error env srv st sys p data e hl]
    refine ⟨[Op.listGet (timelineKey env sys p)], rfl, ?_⟩
    intro op hop
    rw [List.mem_singleton] at hop
    subst hop
    exact ⟨rfl, rfl⟩
  | ok u =>
    rw [processSystem_of_ok env srv st sys p data u hl]
    cases u with
    | some b =>
      refine ⟨[Op.listGet (timelineKey env sys p), Op.listSplice (timelineKey env sys p)], ?_, ?_⟩
      · simp [pushOrMerge]
      · intro op hop
        simp only [List.mem_cons, List.mem_singleton, List.mem_nil_iff, or_false] at hop
        rcases hop with h | h <;> subst h <;> exact ⟨rfl, rfl⟩
    | none =>
      refine ⟨[Op.listGet (timelineKey env sys p), Op.listPush (timelineKey env sys p)] ++
        (if ((Dict.get st.lists (timelineKey env sys p)).getD [] ++
              [newBucket sys p data]).length = 1 ∧ srv.expiration ≠ "" then
          [Op.expire (timelineKey env sys p)
            (env.now + env.getSecondsFromText srv.expiration)]
        else []), ?_, ?_⟩
      · simp [pushOrMerge]
      · intro op hop
        rw [List.mem_append] at hop
        rcases hop with h | h
        · simp only [List.mem_cons, List.mem_singleton, List.mem_nil_iff, or_false] at h
          rcases h with h | h <;> subst h <;> exact ⟨rfl, rfl⟩
        · split at h
          · rw [List.mem_singleton] at h
            subst h
            exact ⟨rfl, rfl⟩
          · simp at h

/-- C19, counterexample. A submission of host `web1` with the explicit group
`special` and a submission of the same host, resolution and timestamp without an
explicit group have the same list key `timeline/hourly/web1/yyyy/mm/dd`, and
`processSystem` leaves the same lists for both. -/
theorem timelineKey_group_counterexample :
    timelineKey exEnv (exSys false)
        { exParams 100800 "1000" "net" (Value.num (JSNum.fin 1000)) with
          group := "special", custom_group := true } =
      "timeline/hourly/web1/yyyy/mm/dd" ∧
    timelineKey exEnv (exSys false)
        { exParams 100800 "1000" "net" (Value.num (JSNum.fin 1000)) with
          group := "main", custom_group := false } =
      "timeline/hourly/web1/yyyy/mm/dd" ∧
    (processSystem exEnv (exSrv exMon) (exState []) (exSys false)
        { exParams 100800 "1000" "net" (Value.num (JSNum.fin 1000)) with
          group := "special", custom_group := true }
        [("net", Value.num (JSNum.fin 7))]).1.lists =
      (processSystem exEnv (exSrv exMon) (exState []) (exSys false)
        { exParams 100800 "1000" "net" (Value.num (JSNum.fin 1000)) with
          group := "main", custom_group := false }
        [("net", Value.num (JSNum.fin 7))]).1.lists := by
  decide!

/-- C19, amended. The bucket list `processSystem` reads and writes is keyed by
resolution, hostname and date label only: the key is the same whatever the group
of the submission and whether or not the group was explicit, only the list under
that key changes, and every storage call is a list call on that key. The group
enters the key of the hostname cache alone: `group/hostname` for a submission
with an explicit group, the hostname otherwise. -/
theorem timelineKey_ignores_group (env : Env) (srv : Server) (st : State) (sys : Sys)
    (p : Params) (data : Dict Value) (g : String) (custom : Bool) :
    timelineKey env sys { p with group := g, custom_group := custom } =
      "timeline/" ++ sys.id ++ "/" ++ p.hostname ++ "/" ++ env.formatDate p.date sys.date_format ∧
    (∀ key, key ≠ timelineKey env sys p →
      Dict.get (processSystem env srv st sys p data).1.lists key = Dict.get st.lists key) ∧
    (∃ ops, (processSystem env srv st sys p data).1.trace = st.trace ++ ops ∧
      ∀ op ∈ ops, op.isList = true ∧ op.key = timelineKey env sys p) ∧
    (processSystem env srv st sys { p with group := g, custom_group := custom } data).1.hostnameCache =
      Dict.set st.hostnameCache sys.id
        (Dict.set ((Dict.get st.hostnameCache sys.id).getD [])
          (if custom then g ++ "/" ++ p.hostname else p.hostname) 1) := by
  refine ⟨rfl, fun key hk => processSystem_lists_other env srv st sys p data key hk,
    processSystem_trace env srv st sys p data, ?_⟩
  rw [processSystem_hostnameCache]
  cases custom <;> rfl

/-! ## Storage calls that fail: the lock of the host record -/

/-- Every alert the alert loop activates, from no active alert, has a
definition. -/
theorem alertPass_active_defined (env : Env) (hd : HostData) (defs : List AlertDef) (p : Params)
    (hp : p.alerts = []) (id : String) (h : id ∈ Dict.keys (alertPass env hd defs p).1.alerts) :
    (findAlert defs id).isSome = true := by
  unfold alertPass at h
  rw [alertPass_active_iff] at h
  rcases h with h | ⟨before, a, after, hsplit, hid, _, _⟩
  · simp only at h
    rw [hp] at h
    simp [Dict.keys] at h
  · unfold findAlert
    rw [List.find?_isSome]
    exact ⟨a, by rw [hsplit]; simp, by simpa using hid⟩

theorem Op.isLocking_of_isList (op : Op) (h : op.isList = true) : op.isLocking = false := by
  cases op <;> first | rfl | simp [Op.isList] at h

/-- The storage calls of `processSystemF` are list calls on the timeline key. -/
theorem processSystemF_trace (f : Faults) (env : Env) (srv : Server) (st : State) (sys : Sys)
    (p : Params) (data : Dict Value) :
    ∃ ops, (processSystemF f env srv st sys p data).1.trace = st.trace ++ ops ∧
      ∀ op ∈ ops, op.isList = true ∧ op.key = timelineKey env sys p := by
  unfold processSystemF
  simp only []
  cases loadLast env sys p
      (if f.listGet (timelineKey env sys p) = true then none
        else listGetLast st (timelineKey env sys p)) with
  | error e =>
    refine ⟨[Op.listGet (timelineKey env sys p)], rfl, ?_⟩
    intro op hop
    rw [List.mem_singleton] at hop
    subst hop
    exact ⟨rfl, rfl⟩
  | ok u =>
    simp only []
    by_cases hw : f.listWrite (timelineKey env sys p) = true
    · rw [if_pos hw]
      cases u with
      | some b =>
        refine ⟨[Op.listGet (timelineKey env sys p), Op.listSplice (timelineKey env sys p)],
          by simp, ?_⟩
        intro op hop
        simp only [List.mem_cons, List.mem_singleton, List.mem_nil_iff, or_false] at hop
        rcases hop with h | h <;> subst h <;> exact ⟨rfl, rfl⟩
      | none =>
        refine ⟨[Op.listGet (timelineKey env sys p), Op.listPush (timelineKey env sys p)],
          by simp, ?_⟩
        intro op hop
        simp only [List.mem_cons, List.mem_singleton, List.mem_nil_iff, or_false] at hop
        rcases hop with h | h <;> subst h <;> exact ⟨rfl, rfl⟩
    · rw [if_neg hw]
      cases u with
      | some b =>
        refine ⟨[Op.listGet (timelineKey env sys p), Op.listSplice (timelineKey env sys p)],
          by simp [pushOrMerge], ?_⟩
        intro op hop
        simp only [List.mem_cons, List.mem_singleton, List.mem_nil_iff, or_false] at hop
        rcases hop with h | h <;> subst h <;> exact ⟨rfl, rfl⟩
      | none =>
        refine ⟨[Op.listGet (timelineKey env sys p), Op.listPush (timelineKey env sys p)] ++
          (if ((Dict.get st.lists (timelineKey env sys p)).getD [] ++
                [newBucket sys p data]).length = 1 ∧ srv.expiration ≠ "" then
            [Op.expire (timelineKey env sys p)
              (env.now + env.getSecondsFromText srv.expiration)]
          else []), by simp [pushOrMerge], ?_⟩
        intro op hop
        rw [List.mem_append] at hop
        rcases hop with h | h
        · simp only [List.mem_cons, List.mem_singleton, List.mem_nil_iff, or_false] at h
          rcases h with h | h <;> subst h <;> exact ⟨rfl, rfl⟩
        · split at h
          · rw [List.mem_singleton] at h
            subst h
            exact ⟨rfl, rfl⟩
          · simp at h

/-- The storage calls of the systems loop are list calls. -/
theorem processSystemsF_trace (f : Faults) (env : Env) (srv : Server) (p : Params)
    (data : Dict Value) :
    ∀ (systems : List Sys) (st : State),
      ∃ ops, (processSystemsF f env srv p data st systems).1.trace = st.trace ++ ops ∧
        ∀ op ∈ ops, op.isList = true := by
  intro systems
  induction systems with
  | nil => intro st; exact ⟨[], by simp [processSystemsF], by simp⟩
  | cons sys rest ih =>
    intro st
    obtain ⟨ops1, h1, h2⟩ := processSystemF_trace f env srv st sys p data
    unfold processSystemsF
    cases hps : processSystemF f env srv st sys p data with
    | mk st1 err =>
      rw [hps] at h1
      cases err with
      | some e => exact ⟨ops1, h1, fun op hop => (h2 op hop).1⟩
      | none =>
        obtain ⟨ops2, h3, h4⟩ := ih st1
        refine ⟨ops1 ++ ops2, ?_, ?_⟩
        · show (processSystemsF f env srv p data st1 rest).1.trace = _
          rw [h3, h1, List.append_assoc]
        · intro op hop
          rw [List.mem_append] at hop
          rcases hop with h | h
          · exact (h2 op h).1
          · exact h4 op h

/-- After the systems loop the series calls `put` at most, and then `unlock`
once. -/
theorem finishSubmissionF_trace (f : Faults) (env : Env) (srv : Server) (st1 : State)
    (host_key : String) (params : Params) (data : Dict Value) (log : List LogEvent)
    (sent : List Notification) :
    ∃ ops, (finishSubmissionF f env srv st1 host_key params data log sent).st.trace =
        st1.trace ++ ops ++ [Op.unlock host_key] ∧
      ∀ op ∈ ops, op.isLocking = false := by
  obtain ⟨ops1, h1, h2⟩ := processSystemsF_trace f env srv params data srv.systems st1
  unfold finishSubmissionF
  cases hps : processSystemsF f env srv params data st1 srv.systems with
  | mk st2 err =>
    rw [hps] at h1
    simp only at h1
    cases err with
    | some e =>
      refine ⟨ops1, ?_, fun op hop => Op.isLocking_of_isList op (h2 op hop)⟩
      show st2.trace ++ [Op.unlock host_key] = _
      rw [h1]
    | none =>
      have hput : ∀ op ∈ ops1 ++ [Op.put host_key], op.isLocking = false := by
        intro op hop
        rw [List.mem_append, List.mem_singleton] at hop
        rcases hop with h | h
        · exact Op.isLocking_of_isList op (h2 op h)
        · subst h; rfl
      by_cases hp : f.put = true
      · refine ⟨ops1 ++ [Op.put host_key], ?_, hput⟩
        simp only [hp, if_true, failRun]
        rw [h1]
        simp
      · refine ⟨ops1 ++ [Op.put host_key], ?_, hput⟩
        simp only [hp]
        rw [h1]
        simp

/-- C15. The lock of the host record. Whatever storage calls fail (the lock,
the load of the record, a list call of a timeline, the write of the record) and
whether a timeline rejects the submission or not, `processDataSubmission`, for a
submission whose group is defined, returns, and the storage calls of the run are
`lock` on `hosts/<hostname>/data`, then calls that are neither `lock` nor
`unlock`, then `unlock` on the same key as the last call: the record is unlocked
exactly once, after every other storage call, and no other key is locked or
unlocked. -/
theorem lock_released_once (f : Faults) (env : Env) (srv : Server) (st : State)
    (task : Submission) (g : GroupDef) (hg : findGroup srv.groups task.group = some g) :
    ∃ r ops, processDataSubmissionF f env srv st task = some r ∧
      r.st.trace = st.trace ++ [Op.lock ("hosts/" ++ task.hostname ++ "/data")] ++ ops ++
        [Op.unlock ("hosts/" ++ task.hostname ++ "/data")] ∧
      ∀ op ∈ ops, op.isLocking = false := by
  unfold processDataSubmissionF
  simp only []
  by_cases hl : f.lock = true
  · rw [if_pos hl]
    refine ⟨_, [], rfl, ?_, by simp⟩
    simp [failRun, hostKey]
  · rw [if_neg hl, hg]
    simp only []
    have hp0 : (deltaPass env (if f.get = true then HostData.brandNew
        else hostData st task.hostname) (monitorPass env srv.monitors task).delta_defs
        (monitorPass env srv.monitors task).params
        (monitorPass env srv.monitors task).data).1.alerts = [] :=
      (deltaPass_frame env _ _ _ _).2.2.1.trans (monitorPass_frame env srv.monitors task).2.2.1
    obtain ⟨nt, hnt⟩ := foldlM_newAlertStep_isSome srv g (alertsSnoozed env srv)
      (if f.get = true then HostData.brandNew else hostData st task.hostname)
      (Dict.keys (alertPass env (if f.get = true then HostData.brandNew
        else hostData st task.hostname) srv.alerts
        (deltaPass env (if f.get = true then HostData.brandNew
          else hostData st task.hostname) (monitorPass env srv.monitors task).delta_defs
          (monitorPass env srv.monitors task).params
          (monitorPass env srv.monitors task).data).1).1.alerts)
      { params := (alertPass env (if f.get = true then HostData.brandNew
          else hostData st task.hostname) srv.alerts
          (deltaPass env (if f.get = true then HostData.brandNew
            else hostData st task.hostname) (monitorPass env srv.monitors task).delta_defs
            (monitorPass env srv.monitors task).params
            (monitorPass env srv.monitors task).data).1).1, log := [], sent := [] }
      (fun k hk => alertPass_active_defined env _ srv.alerts _ hp0 k hk)
    unfold newTransitions
    simp only []
    rw [hnt]
    simp only []
    obtain ⟨ops, h1, h2⟩ := finishSubmissionF_trace f env srv
      { st with
        trace := st.trace ++ [Op.lock (hostKey task.hostname), Op.get (hostKey task.hostname)]
        log := st.log ++ ((monitorPass env srv.monitors task).log ++
          (if f.get = true then [LogEvent.server_add (monitorPass env srv.monitors task).params.hostname]
            else loadHostLog st (monitorPass env srv.monitors task).params) ++
          (alertPass env (if f.get = true then HostData.brandNew
            else hostData st task.hostname) srv.alerts
            (deltaPass env (if f.get = true then HostData.brandNew
              else hostData st task.hostname) (monitorPass env srv.monitors task).delta_defs
              (monitorPass env srv.monitors task).params
              (monitorPass env srv.monitors task).data).1).2 ++
          (clearedTransitions env srv g (alertsSnoozed env srv)
            (if f.get = true then HostData.brandNew else hostData st task.hostname) nt).log)
        sent := st.sent ++ (clearedTransitions env srv g (alertsSnoozed env srv)
            (if f.get = true then HostData.brandNew else hostData st task.hostname) nt).sent
        groupCache := updateGroupData st.groupCache g.id
          (deltaPass env (if f.get = true then HostData.brandNew
              else hostData st task.hostname) (monitorPass env srv.monitors task).delta_defs
              (monitorPass env srv.monitors task).params
              (monitorPass env srv.monitors task).data).2
        alertCache := Dict.set st.alertCache
          (clearedTransitions env srv g (alertsSnoozed env srv)
            (if f.get = true then HostData.brandNew else hostData st task.hostname) nt).params.hostname
          (clearedTransitions env srv g (alertsSnoozed env srv)
            (if f.get = true then HostData.brandNew else hostData st task.hostname) nt).params.alerts }
      (hostKey task.hostname)
      (clearedTransitions env srv g (alertsSnoozed env srv)
        (if f.get = true then HostData.brandNew else hostData st task.hostname) nt).params
      (deltaPass env (if f.get = true then HostData.brandNew
          else hostData st task.hostname) (monitorPass env srv.monitors task).delta_defs
          (monitorPass env srv.monitors task).params
          (monitorPass env srv.monitors task).data).2
      ((monitorPass env srv.monitors task).log ++
          (if f.get = true then [LogEvent.server_add (monitorPass env srv.monitors task).params.hostname]
            else loadHostLog st (monitorPass env srv.monitors task).params) ++
          (alertPass env (if f.get = true then HostData.brandNew
            else hostData st task.hostname) srv.alerts
            (deltaPass env (if f.get = true then HostData.brandNew
              else hostData st task.hostname) (monitorPass env srv.monitors task).delta_defs
              (monitorPass env srv.monitors task).params
              (monitorPass env srv.monitors task).data).1).2 ++
          (clearedTransitions env srv g (alertsSnoozed env srv)
            (if f.get = true then HostData.brandNew else hostData st task.hostname) nt).log)
      (clearedTransitions env srv g (alertsSnoozed env srv)
        (if f.get = true then HostData.brandNew else hostData st task.hostname) nt).sent
    refine ⟨_, Op.get (hostKey task.hostname) :: ops, rfl, ?_, ?_⟩
    · rw [h1]
      simp [hostKey]
    · intro op hop
      rw [List.mem_cons] at hop
      rcases hop with h | h
      · subst h; rfl
      · exact h2 op h

/-- Instance of C15: the write of the host record of `web1` fails. -/
theorem lock_released_once_witness :
    findGroup (exSrv exMon).groups (exTask 100800 "1000").group = some exGroup ∧
    ∃ r ops, processDataSubmissionF exFaults exEnv (exSrv exMon) (exState [])
        (exTask 100800 "1000") = some r ∧
      r.st.trace = (exState []).trace ++
        [Op.lock ("hosts/" ++ (exTask 100800 "1000").hostname ++ "/data")] ++ ops ++
        [Op.unlock ("hosts/" ++ (exTask 100800 "1000").hostname ++ "/data")] ∧
      ∀ op ∈ ops, op.isLocking = false :=
  ⟨by decide!, lock_released_once exFaults exEnv (exSrv exMon) (exState [])
    (exTask 100800 "1000") exGroup (by decide!)⟩

/-! ## Without storage errors, the run is the one of `processDataSubmission` -/

theorem processSystemF_noFaults (env : Env) (srv : Server) (st : State) (sys : Sys) (p : Params)
    (data : Dict Value) :
    processSystemF noFaults env srv st sys p data =
      ((processSystem env srv st sys p data).1,
        (processSystem env srv st sys p data).2.map RunError.timeline) := by
  unfold processSystemF processSystem
  simp only [noFaults, Bool.false_eq_true, if_false]
  cases loadLast env sys p (listGetLast st (timelineKey env sys p)) <;> rfl

theorem processSystemsF_noFaults (env : Env) (srv : Server) (p : Params) (data : Dict Value) :
    ∀ (systems : List Sys) (st : State),
      processSystemsF noFaults env srv p data st systems =
        ((processSystems env srv p data st systems).1,
          (processSystems env srv p data st systems).2.map RunError.timeline) := by
  intro systems
  induction systems with
  | nil => intro st; rfl
  | cons sys rest ih =>
    intro st
    unfold processSystemsF processSystems
    rw [processSystemF_noFaults]
    cases hps : processSystem env srv st sys p data with
    | mk st1 err =>
      cases err with
      | some e => rfl
      | none => exact ih st1

theorem finishSubmissionF_noFaults (env : Env) (srv : Server) (st1 : State) (host_key : String)
    (params : Params) (data : Dict Value) (log : List LogEvent) (sent : List Notification) :
    finishSubmissionF noFaults env srv st1 host_key params data log sent =
      (finishSubmission env srv st1 host_key params data log sent).toRun := by
  unfold finishSubmissionF finishSubmission
  rw [processSystemsF_noFaults]
  cases hps : processSystems env srv params data st1 srv.systems with
  | mk st2 err =>
    cases err with
    | some e => rfl
    | none => rfl

/-- Without storage errors `processDataSubmissionF` is `processDataSubmission`. -/
theorem processDataSubmissionF_noFaults (env : Env) (srv : Server) (st : State)
    (task : Submission) :
    processDataSubmissionF noFaults env srv st task =
      (processDataSubmission env srv st task).map Outcome.toRun := by
  unfold processDataSubmissionF processDataSubmission
  simp only [noFaults, Bool.false_eq_true, if_false]
  cases findGroup srv.groups task.group with
  | none => rfl
  | some g =>
    simp only []
    unfold alertStage deltaStage
    cases newTransitions srv g (alertsSnoozed env srv) (hostData st task.hostname)
        { params := (alertPass env (hostData st task.hostname) srv.alerts
            (deltaPass env (hostData st task.hostname)
              (monitorPass env srv.monitors task).delta_defs
              (monitorPass env srv.monitors task).params
              (monitorPass env srv.monitors task).data).1).1, log := [], sent := [] } with
    | none => rfl
    | some nt =>
      simp only [Option.map_some']
      rw [← finishSubmissionF_noFaults]
      rfl

/-! ## The group cache -/

/-- The cache entry of the group after one call of `updateGroupData`. -/
theorem updateGroupData_get (cache : Dict GroupCache) (group_id : String) (data : Dict Value) :
    Dict.get (updateGroupData cache group_id data) group_id =
      some { totals := mergeTotals
               ((Dict.get cache group_id).getD { totals := [], count := 0 }).totals data
             count := ((Dict.get cache group_id).getD { totals := [], count := 0 }).count + 1 } := by
  unfold updateGroupData
  exact Dict.get_set_self _ _ _

theorem updateGroupCalls_cons (cache : Dict GroupCache) (group_id : String) (data : Dict Value)
    (calls : List (Dict Value)) :
    updateGroupCalls cache group_id (data :: calls) =
      updateGroupCalls (updateGroupData cache group_id data) group_id calls := rfl

/-- A sequence of calls that carry numbers under `k`, on a cache whose total
for `k` is a number: the numbers are added to the total, in the order of the
calls, and the count grows by the number of calls. -/
theorem updateGroupCalls_add (group_id k : String) :
    ∀ (calls : List (Dict Value)) (xs : List JSNum) (cache : Dict GroupCache) (c : GroupCache)
      (t : JSNum),
      calls.map (fun data => Dict.get data k) = xs.map (fun x => some (Value.num x)) →
      Dict.get cache group_id = some c → Dict.get c.totals k = some (Value.num t) →
      ∃ c', Dict.get (updateGroupCalls cache group_id calls) group_id = some c' ∧
        Dict.get c'.totals k = some (Value.num (t + xs.sum)) ∧
        c'.count = c.count + calls.length := by
  intro calls
  induction calls with
  | nil =>
    intro xs cache c t hx hc ht
    cases xs with
    | nil => exact ⟨c, hc, by simpa using ht, rfl⟩
    | cons x xs => simp at hx
  | cons data rest ih =>
    intro xs cache c t hx hc ht
    cases xs with
    | nil => simp at hx
    | cons x xs =>
      simp only [List.map_cons, List.cons.injEq] at hx
      obtain ⟨hx1, hx2⟩ := hx
      rw [updateGroupCalls_cons]
      have h1 := updateGroupData_get cache group_id data
      rw [hc] at h1
      simp only [Option.getD_some] at h1
      have h2 : Dict.get (mergeTotals c.totals data) k = some (Value.num (t + x)) := by
        rw [mergeTotals_get_of_some c.totals data k (Value.num x) hx1, ht]
        rfl
      obtain ⟨c', g1, g2, g3⟩ := ih xs _ _ (t + x) hx2 h1 h2
      refine ⟨c', g1, ?_, ?_⟩
      · rw [g2, List.sum_cons, add_assoc]
      · rw [g3]
        simp only [List.length_cons]
        omega

/-- C13. The group cache. From a cache without an entry for the group, `K >= 1`
calls of `updateGroupData` whose maps carry the numbers `x1 .. xK` under a key
leave, for that key, the total `x1 + ... + xK`, and the count `K`. And a call
that carries a value that is not a number under a key whose cached total is a
number sets the total to the incoming value, and adds one to the count. -/
theorem updateGroupData_sum (cache : Dict GroupCache) (group_id k : String)
    (calls : List (Dict Value)) (xs : List JSNum)
    (h0 : Dict.get cache group_id = none) (hK : 1 ≤ calls.length)
    (hx : calls.map (fun data => Dict.get data k) = xs.map (fun x => some (Value.num x))) :
    (∃ c, Dict.get (updateGroupCalls cache group_id calls) group_id = some c ∧
      Dict.get c.totals k = some (Value.num xs.sum) ∧ c.count = calls.length) ∧
    ∀ (cache' : Dict GroupCache) (c : GroupCache) (t : JSNum) (s : String) (data : Dict Value),
      Dict.get cache' group_id = some c → Dict.get c.totals k = some (Value.num t) →
      Dict.get data k = some (Value.str s) →
      ∃ c', Dict.get (updateGroupData cache' group_id data) group_id = some c' ∧
        Dict.get c'.totals k = some (Value.str s) ∧ c'.count = c.count + 1 := by
  constructor
  · cases calls with
    | nil => simp at hK
    | cons data rest =>
      cases xs with
      | nil => simp at hx
      | cons x xs =>
        simp only [List.map_cons, List.cons.injEq] at hx
        obtain ⟨hx1, hx2⟩ := hx
        rw [updateGroupCalls_cons]
        have h1 := updateGroupData_get cache group_id data
        rw [h0] at h1
        simp only [Option.getD_none] at h1
        have h2 : Dict.get (mergeTotals [] data) k = some (Value.num x) := by
          rw [mergeTotals_get_of_some [] data k (Value.num x) hx1]
          rfl
        obtain ⟨c', g1, g2, g3⟩ := updateGroupCalls_add group_id k rest xs _ _ x hx2 h1 h2
        refine ⟨c', g1, ?_, ?_⟩
        · rw [g2, List.sum_cons]
        · rw [g3]
          simp only [List.length_cons]
          omega
  · intro cache' c t s data hc ht hd
    have h1 := updateGroupData_get cache' group_id data
    rw [hc] at h1
    simp only [Option.getD_some] at h1
    refine ⟨_, h1, ?_, rfl⟩
    simp only []
    rw [mergeTotals_get_of_some c.totals data k (Value.str s) hd, ht]
    rfl

/-- Instance of C13: two calls for the group `main` that carry 1 and 2 under
`a`. -/
theorem updateGroupData_sum_witness :
    (∃ c, Dict.get (updateGroupCalls [] "main"
        [[("a", Value.num (JSNum.fin 1))], [("a", Value.num (JSNum.fin 2))]]) "main" = some c ∧
      Dict.get c.totals "a" = some (Value.num [JSNum.fin 1, JSNum.fin 2].sum) ∧
      c.count = [[("a", Value.num (JSNum.fin 1))], [("a", Value.num (JSNum.fin 2))]].length) ∧
    ∀ (cache' : Dict GroupCache) (c : GroupCache) (t : JSNum) (s : String) (data : Dict Value),
      Dict.get cache' "main" = some c → Dict.get c.totals "a" = some (Value.num t) →
      Dict.get data "a" = some (Value.str s) →
      ∃ c', Dict.get (updateGroupData cache' "main" data) "main" = some c' ∧
        Dict.get c'.totals "a" = some (Value.str s) ∧ c'.count = c.count + 1 :=
  updateGroupData_sum [] "main" "a"
    [[("a", Value.num (JSNum.fin 1))], [("a", Value.num (JSNum.fin 2))]]
    [JSNum.fin 1, JSNum.fin 2] rfl (by decide) (by decide)

/-! ## A timeline that rejects the submission -/

/-- A call of `processSystem` that passes an error: the error is the one of the
first step, and the lists are untouched. -/
theorem processSystem_error_inv (env : Env) (srv : Server) (st : State) (sys : Sys) (p : Params)
    (data : Dict Value) (e : SysError) (h : (processSystem env srv st sys p data).2 = some e) :
    loadLast env sys p (listGetLast st (timelineKey env sys p)) = Except.error e ∧
      (processSystem env srv st sys p data).1.lists = st.lists := by
  cases hl : loadLast env sys p (listGetLast st (timelineKey env sys p)) with
  | error e' =>
    rw [processSystem_of_error env srv st sys p data e' hl] at h ⊢
    simp only [Option.some.injEq] at h
    subst h
    exact ⟨rfl, rfl⟩
  | ok u =>
    rw [processSystem_of_ok env srv st sys p data u hl] at h
    simp at h

/-- The systems loop that ends on an error: the resolution that failed, the
storage calls made, and the lists left. -/
theorem processSystems_fail (env : Env) (srv : Server) (p : Params) (data : Dict Value) :
    ∀ (systems : List Sys) (st : State) (e : SysError),
      (processSystems env srv p data st systems).2 = some e →
      ∃ pre sys post, systems = pre ++ sys :: post ∧
        loadLast env sys p
          (listGetLast (processSystems env srv p data st systems).1 (timelineKey env sys p)) =
            Except.error e ∧
        (∃ ops, (processSystems env srv p data st systems).1.trace = st.trace ++ ops ∧
          ∀ op ∈ ops, op.isList = true ∧ ∃ s ∈ pre ++ [sys], op.key = timelineKey env s p) ∧
        (∀ k, (∀ s ∈ pre, k ≠ timelineKey env s p) →
          Dict.get (processSystems env srv p data st systems).1.lists k = Dict.get st.lists k) := by
  intro systems
  induction systems with
  | nil =>
    intro st e h
    simp [processSystems] at h
  | cons sys rest ih =>
    intro st e h
    obtain ⟨ops1, t1, t2⟩ := processSystem_trace env srv st sys p data
    have hinv := processSystem_error_inv env srv st sys p data
    have hoth := processSystem_lists_other env srv st sys p data
    unfold processSystems at h ⊢
    cases hps : processSystem env srv st sys p data with
    | mk st1 err =>
      rw [hps] at h t1 hinv hoth
      cases err with
      | some e' =>
        simp only [Option.some.injEq] at h
        subst h
        obtain ⟨i1, i2⟩ := hinv e' rfl
        simp only at i2 t1
        refine ⟨[], sys, rest, rfl, ?_, ⟨ops1, t1, ?_⟩, ?_⟩
        · show loadLast env sys p (listGetLast st1 (timelineKey env sys p)) = _
          rw [listGetLast_eq, i2, ← listGetLast_eq]
          exact i1
        · intro op hop
          exact ⟨(t2 op hop).1, sys, by simp, (t2 op hop).2⟩
        · intro k _
          show Dict.get st1.lists k = _
          rw [i2]
      | none =>
        simp only at h t1 hoth
        obtain ⟨pre, sys', post, hsplit, j1, ⟨ops2, j2, j3⟩, j4⟩ := ih st1 e h
        refine ⟨sys :: pre, sys', post, by rw [hsplit]; rfl, j1, ⟨ops1 ++ ops2, ?_, ?_⟩, ?_⟩
        · show (processSystems env srv p data st1 rest).1.trace = _
          rw [j2, t1, List.append_assoc]
        · intro op hop
          rw [List.mem_append] at hop
          rcases hop with hop | hop
          · exact ⟨(t2 op hop).1, sys, by simp, (t2 op hop).2⟩
          · obtain ⟨k1, s, k2, k3⟩ := j3 op hop
            refine ⟨k1, s, ?_, k3⟩
            simp only [List.cons_append, List.mem_cons]
            exact Or.inr k2
        · intro k hk
          show Dict.get (processSystems env srv p data st1 rest).1.lists k = _
          rw [j4 k (fun s hs => hk s (List.mem_cons_of_mem _ hs))]
          exact hoth k (hk sys (List.mem_cons_self _ _))

/-- The result of a returning `processDataSubmission` is the result of the last
steps (`finishSubmission`) on the state left by the alert checks, whose group
cache has the working map of the submission added. -/
theorem processDataSubmission_finish (env : Env) (srv : Server) (st : State) (task : Submission)
    (out : Outcome) (h : processDataSubmission env srv st task = some out) :
    ∃ g st1 params log sent, findGroup srv.groups task.group = some g ∧
      st1.hosts = st.hosts ∧ st1.lists = st.lists ∧
      st1.trace = st.trace ++ [Op.lock (hostKey task.hostname), Op.get (hostKey task.hostname)] ∧
      st1.groupCache = updateGroupData st.groupCache g.id (deltaStage env srv st task).2 ∧
      out = finishSubmission env srv st1 (hostKey task.hostname) params
        (deltaStage env srv st task).2 log sent := by
  unfold processDataSubmission at h
  cases hg : findGroup srv.groups task.group with
  | none => rw [hg] at h; simp at h
  | some g =>
    rw [hg] at h
    simp only at h
    cases hnt : newTransitions srv g (alertsSnoozed env srv) (hostData st task.hostname)
        { params := (alertStage env srv st task).1, log := [], sent := [] } with
    | none => rw [hnt] at h; simp at h
    | some nt =>
      rw [hnt] at h
      simp only [Option.some.injEq] at h
      refine ⟨g, _, _, _, _, rfl, ?_, ?_, ?_, ?_, h.symm⟩ <;> rfl

/-- The last steps of a submission that a timeline rejects. -/
theorem finishSubmission_fail (env : Env) (srv : Server) (st1 : State) (host_key : String)
    (params : Params) (data : Dict Value) (log : List LogEvent) (sent : List Notification)
    (e : SysError)
    (he : (finishSubmission env srv st1 host_key params data log sent).err = some e) :
    ∃ pre sys post, srv.systems = pre ++ sys :: post ∧
      loadLast env sys params
        (listGetLast (finishSubmission env srv st1 host_key params data log sent).st
          (timelineKey env sys params)) = Except.error e ∧
      (∃ ops, (finishSubmission env srv st1 host_key params data log sent).st.trace =
          st1.trace ++ ops ++ [Op.unlock host_key] ∧
        ∀ op ∈ ops, op.isList = true ∧ ∃ s ∈ pre ++ [sys], op.key = timelineKey env s params) ∧
      (∀ k, (∀ s ∈ pre, k ≠ timelineKey env s params) →
        Dict.get (finishSubmission env srv st1 host_key params data log sent).st.lists k =
          Dict.get st1.lists k) ∧
      (finishSubmission env srv st1 host_key params data log sent).st.hosts = st1.hosts := by
  have hf := processSystems_fail env srv params data srv.systems st1
  have hfr := (processSystems_frame env srv params data srv.systems st1).1
  unfold finishSubmission at he ⊢
  cases hps : processSystems env srv params data st1 srv.systems with
  | mk st2 err =>
    rw [hps] at he hf hfr
    cases err with
    | none => simp at he
    | some e' =>
      simp only [Option.some.injEq] at he
      subst he
      obtain ⟨pre, sys, post, hsplit, j1, ⟨ops, j2, j3⟩, j4⟩ := hf e' rfl
      simp only at j1 j2 j4 hfr
      refine ⟨pre, sys, post, hsplit, j1, ⟨ops, ?_, j3⟩, j4, hfr⟩
      show st2.trace ++ [Op.unlock host_key] = _
      rw [j2]

/-- What a submission that a timeline rejects leaves. -/
theorem timeline_failure_inv (env : Env) (srv : Server) (st : State) (task : Submission)
    (out : Outcome) (e : SysError) (h : processDataSubmission env srv st task = some out)
    (he : out.err = some e) :
    ∃ pre sys post, srv.systems = pre ++ sys :: post ∧
      loadLast env sys out.params (listGetLast out.st (timelineKey env sys out.params)) =
        Except.error e ∧
      (∃ ops, out.st.trace =
          st.trace ++ [Op.lock (hostKey task.hostname), Op.get (hostKey task.hostname)] ++ ops ++
            [Op.unlock (hostKey task.hostname)] ∧
        ∀ op ∈ ops, op.isList = true ∧
          ∃ s ∈ pre ++ [sys], op.key = timelineKey env s out.params) ∧
      (∀ k, (∀ s ∈ pre, k ≠ timelineKey env s out.params) →
        Dict.get out.st.lists k = Dict.get st.lists k) ∧
      out.st.hosts = st.hosts := by
  obtain ⟨g, st1, params, log, sent, _, h1, h2, h3, _, h5⟩ :=
    processDataSubmission_finish env srv st task out h
  have hp : out.params = params := by
    rw [h5]
    exact (finishSubmission_frame env srv st1 _ params _ log sent).1
  rw [hp]
  rw [h5] at he ⊢
  obtain ⟨pre, sys, post, hsplit, j1, ⟨ops, j2, j3⟩, j4, j5⟩ :=
    finishSubmission_fail env srv st1 _ params _ log sent e he
  refine ⟨pre, sys, post, hsplit, j1, ⟨ops, ?_, j3⟩, ?_, ?_⟩
  · rw [j2, h3]
  · intro k hk
    rw [j4 k hk, h2]
  · rw [j5, h1]

/-- C14. A timeline that fails. `processDataSubmission` returns for a submission
whose group is defined, and when `processSystem` passed an error `e` for a
resolution, the configured resolutions are some resolutions `pre`, the
resolution `sys` whose list rejects the submission with `e`, and the
resolutions `post` after it. The storage calls of the run are `lock` and `get`
on the host key, list calls on the keys of `pre` and `sys` only, and `unlock`:
nothing is done for `post` and the host record is not written (no `put`). Every
list whose key is not the key of a resolution of `pre` is unchanged, and the
stored host records are those from before the submission. -/
theorem timeline_failure_aborts (env : Env) (srv : Server) (st : State) (task : Submission)
    (g : GroupDef) (hg : findGroup srv.groups task.group = some g) :
    ∃ out, processDataSubmission env srv st task = some out ∧
      ∀ e, out.err = some e →
        ∃ pre sys post, srv.systems = pre ++ sys :: post ∧
          loadLast env sys out.params (listGetLast out.st (timelineKey env sys out.params)) =
            Except.error e ∧
          (∃ ops, out.st.trace =
              st.trace ++ [Op.lock (hostKey task.hostname), Op.get (hostKey task.hostname)] ++
                ops ++ [Op.unlock (hostKey task.hostname)] ∧
            ∀ op ∈ ops, op.isList = true ∧
              ∃ s ∈ pre ++ [sys], op.key = timelineKey env s out.params) ∧
          (∀ k, (∀ s ∈ pre, k ≠ timelineKey env s out.params) →
            Dict.get out.st.lists k = Dict.get st.lists k) ∧
          out.st.hosts = st.hosts := by
  obtain ⟨out, h⟩ := processDataSubmission_returns env srv st task g hg
  exact ⟨out, h, fun e he => timeline_failure_inv env srv st task out e h he⟩

/-- The example used for C14: the hourly list of `web1` ends with bucket 28,
the hourly resolution is `single_only`, and a submission at second 100800
(bucket 28) is rejected as a double submission; the daily resolution is not
processed and the host record is not written. -/
theorem exDouble_outcome :
    (processDataSubmission exEnv exSrvTwo (exState [(exKey, [exBucket 28 5])])
        (exTask 100800 "1000")).map (fun o => (o.err, o.st.trace)) =
      some (some (SysError.doubleSubmission "web1"),
        [Op.lock "hosts/web1/data", Op.get "hosts/web1/data", Op.listGet exKey,
          Op.unlock "hosts/web1/data"]) ∧
    (processDataSubmission exEnv exSrvTwo (exState [(exKey, [exBucket 28 5])])
        (exTask 100800 "1000")).map (fun o => (o.st.lists, o.st.hosts)) =
      some ([(exKey, [exBucket 28 5])], []) := by
  decide!

/-- Instance of C14: the rejected submission of `web1`. -/
theorem timeline_failure_aborts_witness :
    findGroup exSrvTwo.groups (exTask 100800 "1000").group = some exGroup ∧
    ∃ out, processDataSubmission exEnv exSrvTwo (exState [(exKey, [exBucket 28 5])])
        (exTask 100800 "1000") = some out ∧
      ∀ e, out.err = some e →
        ∃ pre sys post, exSrvTwo.systems = pre ++ sys :: post ∧
          loadLast exEnv sys out.params
              (listGetLast out.st (timelineKey exEnv sys out.params)) = Except.error e ∧
          (∃ ops, out.st.trace =
              (exState [(exKey, [exBucket 28 5])]).trace ++
                [Op.lock (hostKey (exTask 100800 "1000").hostname),
                  Op.get (hostKey (exTask 100800 "1000").hostname)] ++
                ops ++ [Op.unlock (hostKey (exTask 100800 "1000").hostname)] ∧
            ∀ op ∈ ops, op.isList = true ∧
              ∃ s ∈ pre ++ [sys], op.key = timelineKey exEnv s out.params) ∧
          (∀ k, (∀ s ∈ pre, k ≠ timelineKey exEnv s out.params) →
            Dict.get out.st.lists k =
              Dict.get (exState [(exKey, [exBucket 28 5])]).lists k) ∧
          out.st.hosts = (exState [(exKey, [exBucket 28 5])]).hosts :=
  ⟨by decide!, timeline_failure_aborts exEnv exSrvTwo (exState [(exKey, [exBucket 28 5])])
    (exTask 100800 "1000") exGroup (by decide!)⟩

/-! ## The group cache is updated before the timelines -/

/-- C16, amended. In `processDataSubmission` the group cache is updated before
the timeline resolutions run: whether the timelines accept the submission or one
of them aborts it with an ordering or double submission error, the group cache
after the run is the cache from before with the working map of the submission
merged into the totals of its group and the count of the group increased by
one. -/
theorem groupCache_updated_first (env : Env) (srv : Server) (st : State) (task : Submission)
    (g : GroupDef) (hg : findGroup srv.groups task.group = some g) :
    ∃ out, processDataSubmission env srv st task = some out ∧
      out.st.groupCache = updateGroupData st.groupCache g.id out.data ∧
      Dict.get out.st.groupCache g.id =
        some { totals := mergeTotals
                 ((Dict.get st.groupCache g.id).getD { totals := [], count := 0 }).totals out.data
               count := ((Dict.get st.groupCache g.id).getD { totals := [], count := 0 }).count + 1 } := by
  obtain ⟨out, h⟩ := processDataSubmission_returns env srv st task g hg
  obtain ⟨g', st1, params, log, sent, hg', _, _, _, h4, h5⟩ :=
    processDataSubmission_finish env srv st task out h
  rw [hg] at hg'
  cases hg'
  have hd : out.data = (deltaStage env srv st task).2 := by
    rw [h5]
    exact (finishSubmission_frame env srv st1 _ params _ log sent).2.1
  have hc : out.st.groupCache = updateGroupData st.groupCache g.id out.data := by
    rw [hd, ← h4, h5]
    unfold finishSubmission
    have hfr := (processSystems_frame env srv params (deltaStage env srv st task).2
      srv.systems st1).2.2.2.1
    cases hps : processSystems env srv params (deltaStage env srv st task).2 st1 srv.systems with
    | mk st2 err =>
      rw [hps] at hfr
      cases err <;> exact hfr
  refine ⟨out, h, hc, ?_⟩
  rw [hc]
  exact updateGroupData_get _ _ _

/-- C16, counterexample. The hourly list of `web1` ends with bucket 28 of a
`single_only` resolution, the group cache is empty, and a submission at second
100800 is aborted by the double submission error; the group cache then holds
the working map of the submission for the group `main`, with count 1. -/
theorem groupCache_abort_counterexample :
    (exState [(exKey, [exBucket 28 5])]).groupCache = [] ∧
    (processDataSubmission exEnv exSrvTwo (exState [(exKey, [exBucket 28 5])])
        (exTask 100800 "1000")).map (fun o => (o.err, o.st.groupCache)) =
      some (some (SysError.doubleSubmission "web1"),
        [("main", { totals := [("net", Value.num (JSNum.fin 0))], count := 1 })]) := by
  decide!

/-- Instance of C16 as amended: the rejected submission of `web1`. -/
theorem groupCache_updated_first_witness :
    findGroup exSrvTwo.groups (exTask 100800 "1000").group = some exGroup ∧
    ∃ out, processDataSubmission exEnv exSrvTwo (exState [(exKey, [exBucket 28 5])])
        (exTask 100800 "1000") = some out ∧
      out.st.groupCache =
        updateGroupData (exState [(exKey, [exBucket 28 5])]).groupCache exGroup.id out.data ∧
      Dict.get out.st.groupCache exGroup.id =
        some { totals := mergeTotals
                 ((Dict.get (exState [(exKey, [exBucket 28 5])]).groupCache exGroup.id).getD
                   { totals := [], count := 0 }).totals out.data
               count := ((Dict.get (exState [(exKey, [exBucket 28 5])]).groupCache
                 exGroup.id).getD { totals := [], count := 0 }).count + 1 } :=
  ⟨by decide!, groupCache_updated_first exEnv exSrvTwo (exState [(exKey, [exBucket 28 5])])
    (exTask 100800 "1000") exGroup (by decide!)⟩

/-! ## Cleared alerts -/

theorem clearedStep_cleared (env : Env) (srv : Server) (g : GroupDef) (sn : Bool) (hd : HostData)
    (t : Transitions) (key : String) (alert : AlertEntry) (alert_def : AlertDef)
    (h1 : Dict.get t.params.alerts key = none) (h2 : Dict.get hd.alerts key = some alert)
    (h3 : findAlert srv.alerts key = some alert_def) :
    clearedStep env srv g sn hd t key =
      { t with
        log := t.log ++ [LogEvent.alert_cleared t.params.hostname key alert]
        sent :=
          if g.alerts_enabled && alert_def.enabled && !sn then
            t.sent ++
              [{ template := "alert_cleared", alert_id := alert_def.id,
                 hostname := t.params.hostname, alert := alert,
                 elapsed := some (⌊env.now⌋ - alert.date) }]
          else t.sent } := by
  unfold clearedStep
  rw [h1, h2, h3]

theorem clearedStep_undefined (env : Env) (srv : Server) (g : GroupDef) (sn : Bool)
    (hd : HostData) (t : Transitions) (key : String) (h : findAlert srv.alerts key = none) :
    clearedStep env srv g sn hd t key = t := by
  unfold clearedStep
  rw [h]
  split
  · next h' => exact Option.noConfusion h'
  · rfl

/-- The step of another key logs and sends nothing for the alert `id`. -/
theorem clearedStep_ne (env : Env) (srv : Server) (g : GroupDef) (sn : Bool) (hd : HostData)
    (t : Transitions) (key id : String) (hne : key ≠ id) :
    (clearedStep env srv g sn hd t key).log.filter (LogEvent.isCleared id) =
        t.log.filter (LogEvent.isCleared id) ∧
      (clearedStep env srv g sn hd t key).sent.filter (fun n => decide (n.alert_id = id)) =
        t.sent.filter (fun n => decide (n.alert_id = id)) := by
  unfold clearedStep
  split
  · next alert alert_def h1 h2 h3 =>
    have hid : alert_def.id ≠ id := by
      rw [findAlert_id _ _ _ h3]
      exact hne
    constructor
    · simp [List.filter_append, LogEvent.isCleared, hne]
    · simp only
      split
      · simp [List.filter_append, hid]
      · rfl
  · exact ⟨rfl, rfl⟩

/-- The loop over keys that do not include `id` logs and sends nothing for the
alert `id`. -/
theorem foldl_clearedStep_not_mem (env : Env) (srv : Server) (g : GroupDef) (sn : Bool)
    (hd : HostData) (id : String) :
    ∀ (ks : List String) (t : Transitions), id ∉ ks →
      (ks.foldl (clearedStep env srv g sn hd) t).log.filter (LogEvent.isCleared id) =
          t.log.filter (LogEvent.isCleared id) ∧
        (ks.foldl (clearedStep env srv g sn hd) t).sent.filter
            (fun n => decide (n.alert_id = id)) =
          t.sent.filter (fun n => decide (n.alert_id = id)) := by
  intro ks
  induction ks with
  | nil => intro t _; exact ⟨rfl, rfl⟩
  | cons k rest ih =>
    intro t hmem
    rw [List.foldl_cons]
    have hk : k ≠ id := fun hc => hmem (by rw [hc]; exact List.mem_cons_self _ _)
    obtain ⟨h1, h2⟩ := ih (clearedStep env srv g sn hd t k)
      (fun hc => hmem (List.mem_cons_of_mem _ hc))
    obtain ⟨g1, g2⟩ := clearedStep_ne env srv g sn hd t k id hk
    exact ⟨h1.trans g1, h2.trans g2⟩

/-- The loop logs and sends nothing for an alert without a definition. -/
theorem foldl_clearedStep_undefined (env : Env) (srv : Server) (g : GroupDef) (sn : Bool)
    (hd : HostData) (id : String) (hdef : findAlert srv.alerts id = none) :
    ∀ (ks : List String) (t : Transitions),
      (ks.foldl (clearedStep env srv g sn hd) t).log.filter (LogEvent.isCleared id) =
          t.log.filter (LogEvent.isCleared id) ∧
        (ks.foldl (clearedStep env srv g sn hd) t).sent.filter
            (fun n => decide (n.alert_id = id)) =
          t.sent.filter (fun n => decide (n.alert_id = id)) := by
  intro ks
  induction ks with
  | nil => intro t; exact ⟨rfl, rfl⟩
  | cons k rest ih =>
    intro t
    rw [List.foldl_cons]
    by_cases hk : k = id
    · subst hk
      rw [clearedStep_undefined env srv g sn hd t k hdef]
      exact ih t
    · obtain ⟨h1, h2⟩ := ih (clearedStep env srv g sn hd t k)
      obtain ⟨g1, g2⟩ := clearedStep_ne env srv g sn hd t k id hk
      exact ⟨h1.trans g1, h2.trans g2⟩

/-- The loop over distinct keys that include `id`, an alert of the host record
that is not active and has a definition: one `alert_cleared` line is logged for
it, and the notification, when sent, carries the elapsed time since the trigger
date of the record. -/
theorem foldl_clearedStep_cleared (env : Env) (srv : Server) (g : GroupDef) (sn : Bool)
    (hd : HostData) (id : String) (prev : AlertEntry) (alert_def : AlertDef)
    (h2 : Dict.get hd.alerts id = some prev) (h3 : findAlert srv.alerts id = some alert_def) :
    ∀ (ks : List String) (t : Transitions), ks.Nodup → id ∈ ks →
      Dict.get t.params.alerts id = none →
      (ks.foldl (clearedStep env srv g sn hd) t).log.filter (LogEvent.isCleared id) =
          t.log.filter (LogEvent.isCleared id) ++
            [LogEvent.alert_cleared t.params.hostname id prev] ∧
        (ks.foldl (clearedStep env srv g sn hd) t).sent.filter
            (fun n => decide (n.alert_id = id)) =
          t.sent.filter (fun n => decide (n.alert_id = id)) ++
            (if g.alerts_enabled && alert_def.enabled && !sn then
              [{ template := "alert_cleared", alert_id := id, hostname := t.params.hostname,
                 alert := prev, elapsed := some (⌊env.now⌋ - prev.date) }]
            else []) := by
  intro ks
  induction ks with
  | nil => intro t _ hmem; simp at hmem
  | cons k rest ih =>
    intro t hnd hmem h1
    rw [List.foldl_cons]
    rw [List.nodup_cons] at hnd
    by_cases hk : k = id
    · subst hk
      obtain ⟨q1, q2⟩ := foldl_clearedStep_not_mem env srv g sn hd k rest
        (clearedStep env srv g sn hd t k) hnd.1
      rw [q1, q2, clearedStep_cleared env srv g sn hd t k prev alert_def h1 h2 h3]
      have hid : alert_def.id = k := findAlert_id _ _ _ h3
      constructor
      · simp [List.filter_append, LogEvent.isCleared]
      · simp only
        split
        · simp [List.filter_append, hid]
        · simp
    · have hmem' : id ∈ rest := by
        rcases List.mem_cons.1 hmem with h | h
        · exact absurd h.symm hk
        · exact h
      have hp := clearedStep_params env srv g sn hd t k
      obtain ⟨q1, q2⟩ := ih (clearedStep env srv g sn hd t k) hnd.2 hmem' (by rw [hp]; exact h1)
      obtain ⟨g1, g2⟩ := clearedStep_ne env srv g sn hd t k id hk
      rw [hp] at q1 q2
      rw [q1, q2, g1, g2]
      exact ⟨rfl, rfl⟩

/-- The notifications sent by the new-alert loop are for alerts that fire. -/
theorem filter_sent_of_not_active (hd : HostData) (p : Params) (ks : List String)
    (sent : List Notification) (id : String) (hid : Dict.get p.alerts id = none)
    (h : ∀ n ∈ sent, n ∈ ([] : List Notification) ∨
      (n.alert_id ∈ ks ∧ fires hd p n.alert_id = true)) :
    sent.filter (fun n => decide (n.alert_id = id)) = [] := by
  rw [List.filter_eq_nil_iff]
  intro n hn hc
  have hc' : n.alert_id = id := by simpa using hc
  rcases h n hn with h1 | h1
  · simp at h1
  · have := h1.2
    rw [hc'] at this
    unfold fires at this
    rw [hid] at this
    simp at this

/-- The cleared transitions of a returning submission. -/
theorem processDataSubmission_cleared (env : Env) (srv : Server) (st : State)
    (task : Submission) (out : Outcome) (h : processDataSubmission env srv st task = some out)
    (id : String) (prev : AlertEntry)
    (hprev : Dict.get (hostData st task.hostname).alerts id = some prev)
    (hnow : Dict.get out.params.alerts id = none) :
    ∃ g, findGroup srv.groups task.group = some g ∧
      (∀ alert_def, findAlert srv.alerts id = some alert_def →
        out.log.filter (LogEvent.isCleared id) =
            [LogEvent.alert_cleared task.hostname id prev] ∧
          out.sent.filter (fun n => decide (n.alert_id = id)) =
            if g.alerts_enabled && alert_def.enabled && !alertsSnoozed env srv then
              [{ template := "alert_cleared", alert_id := id, hostname := task.hostname,
                 alert := prev, elapsed := some (⌊env.now⌋ - prev.date) }]
            else []) ∧
      (findAlert srv.alerts id = none →
        out.log.filter (LogEvent.isCleared id) = [] ∧
          out.sent.filter (fun n => decide (n.alert_id = id)) = []) := by
  obtain ⟨g, nt, hg, hnt, hp, _, hsent, ⟨plain1, plain2, hpl1, hpl2, hlog⟩, _, _, _, _⟩ :=
    processDataSubmission_inv env srv st task out h
  obtain ⟨a1, _, _, _, _⟩ := alertStage_frame env srv st task
  obtain ⟨n1, _, n3, _, _, _, _, n8, n9⟩ := foldlM_newAlertStep srv g (alertsSnoozed env srv)
    (hostData st task.hostname) _ _ nt (Dict.nodup_keys _) hnt
  simp only at n1 n3 n8 n9
  have hhost : nt.params.hostname = task.hostname := n1.trans a1
  have hact : Dict.get nt.params.alerts id = none := by rw [← hp]; exact hnow
  have hact' : Dict.get (alertStage env srv st task).1.alerts id = none := by
    rw [← n3]; exact hact
  have hlog0 : nt.log.filter (LogEvent.isCleared id) = [] := by rw [n8 id]; rfl
  have hsent0 : nt.sent.filter (fun n => decide (n.alert_id = id)) = [] :=
    filter_sent_of_not_active (hostData st task.hostname) (alertStage env srv st task).1
      _ nt.sent id hact' n9
  have hfl : out.log.filter (LogEvent.isCleared id) =
      (clearedTransitions env srv g (alertsSnoozed env srv) (hostData st task.hostname)
        nt).log.filter (LogEvent.isCleared id) := by
    rw [hlog, List.filter_append, List.filter_append, filter_isCleared_of_plain _ _ hpl1,
      filter_isCleared_of_plain _ _ hpl2, List.append_nil, List.nil_append]
  have hmem : id ∈ Dict.keys (hostData st task.hostname).alerts :=
    (Dict.mem_keys_iff _ _).2 ⟨prev, hprev⟩
  refine ⟨g, hg, ?_, ?_⟩
  · intro alert_def hdef
    obtain ⟨q1, q2⟩ := foldl_clearedStep_cleared env srv g (alertsSnoozed env srv)
      (hostData st task.hostname) id prev alert_def hprev hdef
      (Dict.keys (hostData st task.hostname).alerts) nt (Dict.nodup_keys _) hmem hact
    rw [hfl, hsent]
    unfold clearedTransitions
    rw [q1, q2, hlog0, hsent0, hhost]
    exact ⟨rfl, rfl⟩
  · intro hdef
    obtain ⟨q1, q2⟩ := foldl_clearedStep_undefined env srv g (alertsSnoozed env srv)
      (hostData st task.hostname) id hdef (Dict.keys (hostData st task.hostname).alerts) nt
    rw [hfl, hsent]
    unfold clearedTransitions
    rw [q1, q2, hlog0, hsent0]
    exact ⟨rfl, rfl⟩

/-- C11, counterexample. The alert `hot` is active in the record stored for
`web1` (the first submission triggered it), the definitions of the alerts are
then removed, and the next submission, in which `hot` is not active, logs no
`alert_cleared` line for it and sends nothing. -/
theorem cleared_transition_counterexample :
    Dict.get (hostData (exAfter exMon (exTask 90000 "1000")) "web1").alerts "hot" =
      some { date := 90000, exp := "true", message := "hot" } ∧
    (processDataSubmission exEnv exSrvNoAlerts (exAfter exMon (exTask 90000 "1000"))
        (exTask 93600 "1500")).map
      (fun o => (Dict.get o.params.alerts "hot", o.log.filter (LogEvent.isCleared "hot"),
        o.sent)) = some (none, [], []) := by
  decide!

/-- C11, amended. For every submission whose group is defined and every host
record, the submission is processed to the end, and every alert id that is
active in the host record loaded for it, is not active in this submission and
still has an alert definition produces exactly one `alert_cleared` log line,
which carries the entry of the record; its notification is sent when the group
and the definition have notifications enabled and no snooze is active, and then
there is exactly one, with `elapsed` the current time in seconds minus the
trigger date stored in the record. An id without a definition produces no log
line and no notification. -/
theorem cleared_transition (env : Env) (srv : Server) (st : State) (task : Submission)
    (g : GroupDef) (hg : findGroup srv.groups task.group = some g) :
    ∃ out, processDataSubmission env srv st task = some out ∧
      ∀ id prev, Dict.get (hostData st task.hostname).alerts id = some prev →
        Dict.get out.params.alerts id = none →
        (∀ alert_def, findAlert srv.alerts id = some alert_def →
          out.log.filter (LogEvent.isCleared id) =
              [LogEvent.alert_cleared task.hostname id prev] ∧
            out.sent.filter (fun n => decide (n.alert_id = id)) =
              if g.alerts_enabled && alert_def.enabled && !alertsSnoozed env srv then
                [{ template := "alert_cleared", alert_id := id, hostname := task.hostname,
                   alert := prev, elapsed := some (⌊env.now⌋ - prev.date) }]
              else []) ∧
        (findAlert srv.alerts id = none →
          out.log.filter (LogEvent.isCleared id) = [] ∧
            out.sent.filter (fun n => decide (n.alert_id = id)) = []) := by
  obtain ⟨out, h⟩ := processDataSubmission_returns env srv st task g hg
  refine ⟨out, h, ?_⟩
  intro id prev hprev hnow
  obtain ⟨g', hg', h1, h2⟩ := processDataSubmission_cleared env srv st task out h id prev
    hprev hnow
  rw [hg] at hg'
  cases hg'
  exact ⟨h1, h2⟩

/-- The example used for C11 as amended: the alert `hot` is active in the record stored for
`web1` since second 90000, its expression is then edited to one that is false,
and the next submission, processed at second 100000, logs one `alert_cleared`
line and sends one notification, with the elapsed time 10000. -/
theorem exCleared_outcome :
    (processDataSubmission exEnv exSrvCool (exAfter exMon (exTask 90000 "1000"))
        (exTask 93600 "1500")).map
      (fun o => (o.log.filter (LogEvent.isCleared "hot"), o.sent)) =
    some ([LogEvent.alert_cleared "web1" "hot" { date := 90000, exp := "true", message := "hot" }],
      [{ template := "alert_cleared", alert_id := "hot", hostname := "web1",
         alert := { date := 90000, exp := "true", message := "hot" },
         elapsed := some 10000 }]) := by
  decide!

/-- Instance of C11 as amended: the alert `hot` of `web1` whose expression was
edited. -/
theorem cleared_transition_witness :
    findGroup exSrvCool.groups (exTask 93600 "1500").group = some exGroup ∧
    ∃ out, processDataSubmission exEnv exSrvCool (exAfter exMon (exTask 90000 "1000"))
        (exTask 93600 "1500") = some out ∧
      ∀ id prev,
        Dict.get (hostData (exAfter exMon (exTask 90000 "1000"))
          (exTask 93600 "1500").hostname).alerts id = some prev →
        Dict.get out.params.alerts id = none →
        (∀ alert_def, findAlert exSrvCool.alerts id = some alert_def →
          out.log.filter (LogEvent.isCleared id) =
              [LogEvent.alert_cleared (exTask 93600 "1500").hostname id prev] ∧
            out.sent.filter (fun n => decide (n.alert_id = id)) =
              if exGroup.alerts_enabled && alert_def.enabled && !alertsSnoozed exEnv exSrvCool then
                [{ template := "alert_cleared", alert_id := id,
                   hostname := (exTask 93600 "1500").hostname,
                   alert := prev, elapsed := some (⌊exEnv.now⌋ - prev.date) }]
              else []) ∧
        (findAlert exSrvCool.alerts id = none →
          out.log.filter (LogEvent.isCleared id) = [] ∧
            out.sent.filter (fun n => decide (n.alert_id = id)) = []) :=
  ⟨by decide!, cleared_transition exEnv exSrvCool (exAfter exMon (exTask 90000 "1000"))
    (exTask 93600 "1500") exGroup (by decide!)⟩

/-! ## The snooze -/

/-- The state `processSystem` leaves does not depend on the notifications sent
so far, which it keeps, and depends on the server through the `expiration`
setting only. -/
theorem processSystem_sent (env : Env) (srv srv' : Server) (st : State) (sys : Sys) (p : Params)
    (data : Dict Value) (x : List Notification) (hexp : srv'.expiration = srv.expiration) :
    processSystem env srv' { st with sent := x } sys p data =
      ({ (processSystem env srv st sys p data).1 with sent := x },
        (processSystem env srv st sys p data).2) := by
  unfold processSystem
  have hl : listGetLast { st with sent := x } (timelineKey env sys p) =
      listGetLast st (timelineKey env sys p) := rfl
  simp only [hl]
  cases loadLast env sys p (listGetLast st (timelineKey env sys p)) with
  | error e => rfl
  | ok u =>
    cases u with
    | some b => rfl
    | none =>
      simp only [pushOrMerge, hexp]

theorem processSystems_sent (env : Env) (srv srv' : Server) (p : Params) (data : Dict Value)
    (x : List Notification) (hexp : srv'.expiration = srv.expiration) :
    ∀ (systems : List Sys) (st : State),
      processSystems env srv' p data { st with sent := x } systems =
        ({ (processSystems env srv p data st systems).1 with sent := x },
          (processSystems env srv p data st systems).2) := by
  intro systems
  induction systems with
  | nil => intro st; rfl
  | cons sys rest ih =>
    intro st
    unfold processSystems
    rw [processSystem_sent env srv srv' st sys p data x hexp]
    cases hps : processSystem env srv st sys p data with
    | mk st1 err =>
      cases err with
      | some e => rfl
      | none => exact ih st1

/-- The last steps of a submission, on a state and with a list of notifications
that differ: the result differs in the notifications only. -/
theorem finishSubmission_quiet (env : Env) (srv srv' : Server) (st1 : State) (host_key : String)
    (params : Params) (data : Dict Value) (log : List LogEvent) (sent x : List Notification)
    (hexp : srv'.expiration = srv.expiration) (hsys : srv'.systems = srv.systems) :
    finishSubmission env srv' { st1 with sent := x } host_key params data log [] =
      Outcome.quiet x (finishSubmission env srv st1 host_key params data log sent) := by
  unfold finishSubmission
  rw [hsys, processSystems_sent env srv srv' params data x hexp]
  cases hps : processSystems env srv params data st1 srv.systems with
  | mk st2 err =>
    cases err with
    | some e => rfl
    | none => rfl

/-- The body of the new-alert loop under a snooze: the same transitions,
without the notification. -/
theorem newAlertStep_quiet (srv srv' : Server) (g : GroupDef) (sn : Bool) (hd : HostData)
    (t : Transitions) (key : String) (halerts : srv'.alerts = srv.alerts) :
    newAlertStep srv' g true hd { t with sent := [] } key =
      (newAlertStep srv g sn hd t key).map (fun r => { r with sent := [] }) := by
  unfold newAlertStep
  rw [halerts]
  simp only []
  cases Dict.get hd.alerts key with
  | some e => rfl
  | none =>
    cases Dict.get t.params.alerts key with
    | none => rfl
    | some alert =>
      simp only []
      cases findAlert srv.alerts key with
      | none => rfl
      | some alert_def => simp

theorem foldlM_newAlertStep_quiet (srv srv' : Server) (g : GroupDef) (sn : Bool) (hd : HostData)
    (halerts : srv'.alerts = srv.alerts) :
    ∀ (ks : List String) (t : Transitions),
      ks.foldlM (newAlertStep srv' g true hd) { t with sent := [] } =
        (ks.foldlM (newAlertStep srv g sn hd) t).map (fun r => { r with sent := [] }) := by
  intro ks
  induction ks with
  | nil => intro t; rfl
  | cons k rest ih =>
    intro t
    rw [List.foldlM_cons, List.foldlM_cons, newAlertStep_quiet srv srv' g sn hd t k halerts]
    cases newAlertStep srv g sn hd t k with
    | none => rfl
    | some t1 => exact ih t1

/-- The body of the cleared-alert loop under a snooze: the same transitions,
without the notification. -/
theorem clearedStep_snoozed (env : Env) (srv srv' : Server) (g : GroupDef) (sn : Bool)
    (hd : HostData) (t : Transitions) (key : String) (halerts : srv'.alerts = srv.alerts) :
    clearedStep env srv' g true hd { t with sent := [] } key =
      { clearedStep env srv g sn hd t key with sent := [] } := by
  unfold clearedStep
  rw [halerts]
  simp only []
  cases Dict.get t.params.alerts key with
  | some e => rfl
  | none =>
    cases Dict.get hd.alerts key with
    | none => rfl
    | some alert =>
      cases findAlert srv.alerts key with
      | none => rfl
      | some alert_def => simp

theorem foldl_clearedStep_snoozed (env : Env) (srv srv' : Server) (g : GroupDef) (sn : Bool)
    (hd : HostData) (halerts : srv'.alerts = srv.alerts) :
    ∀ (ks : List String) (t : Transitions),
      ks.foldl (clearedStep env srv' g true hd) { t with sent := [] } =
        { ks.foldl (clearedStep env srv g sn hd) t with sent := [] } := by
  intro ks
  induction ks with
  | nil => intro t; rfl
  | cons k rest ih =>
    intro t
    rw [List.foldl_cons, List.foldl_cons, clearedStep_snoozed env srv srv' g sn hd t k halerts]
    exact ih _

/-- A submission processed with the snooze active has the result of the same
submission processed with the snooze inactive, without the notifications. -/
theorem processDataSubmission_snoozed (env : Env) (srv : Server) (st : State)
    (task : Submission) (s1 s2 : ℚ)
    (h1 : alertsSnoozed env { srv with alert_snooze := s1 } = true) :
    processDataSubmission env { srv with alert_snooze := s1 } st task =
      (processDataSubmission env { srv with alert_snooze := s2 } st task).map
        (Outcome.quiet st.sent) := by
  unfold processDataSubmission
  simp only []
  cases findGroup srv.groups task.group with
  | none => rfl
  | some g =>
    simp only []
    rw [h1]
    unfold newTransitions alertStage deltaStage
    simp only []
    have hq := foldlM_newAlertStep_quiet { srv with alert_snooze := s2 }
      { srv with alert_snooze := s1 } g (alertsSnoozed env { srv with alert_snooze := s2 })
      (hostData st task.hostname) rfl
      (Dict.keys (alertPass env (hostData st task.hostname) srv.alerts
        (deltaPass env (hostData st task.hostname)
          (monitorPass env srv.monitors task).delta_defs
          (monitorPass env srv.monitors task).params
          (monitorPass env srv.monitors task).data).1).1.alerts)
      { params := (alertPass env (hostData st task.hostname) srv.alerts
          (deltaPass env (hostData st task.hostname)
            (monitorPass env srv.monitors task).delta_defs
            (monitorPass env srv.monitors task).params
            (monitorPass env srv.monitors task).data).1).1, log := [], sent := [] }
    simp only [] at hq
    rw [hq]
    cases List.foldlM (newAlertStep { srv with alert_snooze := s2 } g
        (alertsSnoozed env { srv with alert_snooze := s2 }) (hostData st task.hostname))
        { params := (alertPass env (hostData st task.hostname) srv.alerts
            (deltaPass env (hostData st task.hostname)
              (monitorPass env srv.monitors task).delta_defs
              (monitorPass env srv.monitors task).params
              (monitorPass env srv.monitors task).data).1).1, log := [], sent := [] }
        (Dict.keys (alertPass env (hostData st task.hostname) srv.alerts
          (deltaPass env (hostData st task.hostname)
            (monitorPass env srv.monitors task).delta_defs
            (monitorPass env srv.monitors task).params
            (monitorPass env srv.monitors task).data).1).1.alerts) with
    | none => rfl
    | some nt =>
      simp only [Option.map_some']
      unfold clearedTransitions
      rw [foldl_clearedStep_snoozed env { srv with alert_snooze := s2 }
        { srv with alert_snooze := s1 } g (alertsSnoozed env { srv with alert_snooze := s2 })
        (hostData st task.hostname) rfl]
      simp only [List.append_nil]
      rw [← finishSubmission_quiet env { srv with alert_snooze := s2 }
        { srv with alert_snooze := s1 } _ _ _ _ _ _ st.sent rfl rfl]

/-- C12. The snooze only gates the dispatch. For every submission whose group
is defined, every host record and every configuration, processed once with the
snooze active (`alert_snooze = s1`) and once with any other value `s2` of
`alert_snooze`, an inactive snooze in particular, all else equal: both runs
return, the run under the snooze sends no notification, and the two runs have
the same active alerts and newly triggered set (the same `params`), the same log
lines, the same error if any, the same timeline lists and the same stored host
records. -/
theorem snooze_gates_dispatch (env : Env) (srv : Server) (st : State) (task : Submission)
    (s1 s2 : ℚ) (g : GroupDef) (hg : findGroup srv.groups task.group = some g)
    (h1 : alertsSnoozed env { srv with alert_snooze := s1 } = true) :
    ∃ snoozed plain,
      processDataSubmission env { srv with alert_snooze := s1 } st task = some snoozed ∧
      processDataSubmission env { srv with alert_snooze := s2 } st task = some plain ∧
      snoozed.sent = [] ∧ snoozed.st.sent = st.sent ∧
      snoozed.params.alerts = plain.params.alerts ∧
      snoozed.params.new_alerts = plain.params.new_alerts ∧
      snoozed.params = plain.params ∧
      snoozed.log = plain.log ∧ snoozed.st.log = plain.st.log ∧
      snoozed.err = plain.err ∧
      snoozed.st.lists = plain.st.lists ∧ snoozed.st.hosts = plain.st.hosts := by
  obtain ⟨plain, hplain⟩ := processDataSubmission_returns env { srv with alert_snooze := s2 }
    st task g hg
  refine ⟨Outcome.quiet st.sent plain, plain, ?_, hplain, rfl, rfl, rfl, rfl, rfl, rfl, rfl, rfl,
    rfl, rfl⟩
  rw [processDataSubmission_snoozed env srv st task s1 s2 h1, hplain]
  rfl

/-- The example used for C12: the first submission of `web1` triggers the alert `hot`;
with the snooze inactive one notification is sent, with the snooze active until
second 200000 none is. -/
theorem exSnoozed_outcome :
    (processDataSubmission exEnv { exSrv exMon with alert_snooze := 0 } (exState [])
        (exTask 90000 "1000")).map (fun o => o.sent) =
      some [{ template := "alert_new", alert_id := "hot", hostname := "web1",
              alert := { date := 90000, exp := "true", message := "hot" }, elapsed := none }] ∧
    (processDataSubmission exEnv { exSrv exMon with alert_snooze := 200000 } (exState [])
        (exTask 90000 "1000")).map (fun o => o.sent) = some [] := by
  decide!

/-- Instance of C12: the first submission of `web1`, with the snooze active
until second 200000 and with no snooze. -/
theorem snooze_gates_dispatch_witness :
    findGroup (exSrv exMon).groups (exTask 90000 "1000").group = some exGroup ∧
    alertsSnoozed exEnv { exSrv exMon with alert_snooze := 200000 } = true ∧
    alertsSnoozed exEnv { exSrv exMon with alert_snooze := 0 } = false ∧
    ∃ snoozed plain,
      processDataSubmission exEnv { exSrv exMon with alert_snooze := 200000 } (exState [])
        (exTask 90000 "1000") = some snoozed ∧
      processDataSubmission exEnv { exSrv exMon with alert_snooze := 0 } (exState [])
        (exTask 90000 "1000") = some plain ∧
      snoozed.sent = [] ∧ snoozed.st.sent = (exState []).sent ∧
      snoozed.params.alerts = plain.params.alerts ∧
      snoozed.params.new_alerts = plain.params.new_alerts ∧
      snoozed.params = plain.params ∧
      snoozed.log = plain.log ∧ snoozed.st.log = plain.st.log ∧
      snoozed.err = plain.err ∧
      snoozed.st.lists = plain.st.lists ∧ snoozed.st.hosts = plain.st.hosts :=
  ⟨by decide!, by decide!, by decide!,
    snooze_gates_dispatch exEnv (exSrv exMon) (exState []) (exTask 90000 "1000") 200000 0
      exGroup (by decide!) (by decide!)⟩

/-! ## Group detection and validation in the API layer -/

/-- The loop of `detectGroup` from its start value, after the definitions
`pre`: no group is assigned and no matching definition of `pre` has a
`sort_order` below 999999, or the group assigned is that of a matching
definition of `pre` whose `sort_order` is below 999999 and lowest among the
matching ones. -/
theorem foldl_detectStep (env : Env) (hostname : String) :
    ∀ (rest pre : List GroupDef) (s : String × ℚ),
      ((s = ("", 999999) ∧
          ∀ g ∈ pre, (env.regexMatch hostname g.hostname_match).isSome = true →
            (999999 : ℚ) ≤ g.sort_order) ∨
        ∃ g ∈ pre, (env.regexMatch hostname g.hostname_match).isSome = true ∧
          s = (g.id, g.sort_order) ∧ g.sort_order < 999999 ∧
          ∀ g' ∈ pre, (env.regexMatch hostname g'.hostname_match).isSome = true →
            g.sort_order ≤ g'.sort_order) →
      ((rest.foldl (detectStep env hostname) s = ("", 999999) ∧
          ∀ g ∈ pre ++ rest, (env.regexMatch hostname g.hostname_match).isSome = true →
            (999999 : ℚ) ≤ g.sort_order) ∨
        ∃ g ∈ pre ++ rest, (env.regexMatch hostname g.hostname_match).isSome = true ∧
          rest.foldl (detectStep env hostname) s = (g.id, g.sort_order) ∧
          g.sort_order < 999999 ∧
          ∀ g' ∈ pre ++ rest, (env.regexMatch hostname g'.hostname_match).isSome = true →
            g.sort_order ≤ g'.sort_order) := by
  intro rest
  induction rest with
  | nil =>
    intro pre s h
    simpa using h
  | cons x rest ih =>
    intro pre s h
    have hstep := ih (pre ++ [x]) (detectStep env hostname s x)
    rw [List.append_assoc, List.singleton_append] at hstep
    rw [List.foldl_cons]
    apply hstep
    unfold detectStep
    by_cases hc : (env.regexMatch hostname x.hostname_match).isSome = true ∧ x.sort_order < s.2
    · rw [if_pos hc]
      right
      refine ⟨x, by simp, hc.1, rfl, ?_, ?_⟩
      · rcases h with ⟨hs, _⟩ | ⟨g, _, _, hs, hlt, _⟩
        · have := hc.2
          rw [hs] at this
          exact this
        · have := hc.2
          rw [hs] at this
          exact lt_trans this hlt
      · intro g' hg' hm
        rw [List.mem_append, List.mem_singleton] at hg'
        rcases hg' with hg' | hg'
        · rcases h with ⟨hs, hall⟩ | ⟨g, _, _, hs, _, hmin⟩
          · have := hc.2
            rw [hs] at this
            exact le_of_lt (lt_of_lt_of_le this (hall g' hg' hm))
          · have := hc.2
            rw [hs] at this
            exact le_of_lt (lt_of_lt_of_le this (hmin g' hg' hm))
        · rw [hg']
    · rw [if_neg hc]
      rcases h with ⟨hs, hall⟩ | ⟨g, hg, hm, hs, hlt, hmin⟩
      · left
        refine ⟨hs, ?_⟩
        intro g' hg' hm'
        rw [List.mem_append, List.mem_singleton] at hg'
        rcases hg' with hg' | hg'
        · exact hall g' hg' hm'
        · subst hg'
          by_contra hlt
          apply hc
          refine ⟨hm', ?_⟩
          rw [hs]
          exact not_le.1 hlt
      · right
        refine ⟨g, by simp [hg], hm, hs, hlt, ?_⟩
        intro g' hg' hm'
        rw [List.mem_append, List.mem_singleton] at hg'
        rcases hg' with hg' | hg'
        · exact hmin g' hg' hm'
        · subst hg'
          by_contra hlt'
          apply hc
          refine ⟨hm', ?_⟩
          rw [hs]
          exact not_le.1 hlt'

/-- What the detection loop assigns: when a definition whose pattern matches
the hostname has a `sort_order` below 999999, the id of a matching definition
whose `sort_order` is lowest among all matching ones; else nothing. -/
theorem detectGroup_spec (env : Env) (group_defs : List GroupDef) (hostname : String) :
    (detectGroup env group_defs hostname = "" ∧
        ∀ g ∈ group_defs, (env.regexMatch hostname g.hostname_match).isSome = true →
          (999999 : ℚ) ≤ g.sort_order) ∨
      ∃ g ∈ group_defs, (env.regexMatch hostname g.hostname_match).isSome = true ∧
        detectGroup env group_defs hostname = g.id ∧ g.sort_order < 999999 ∧
        ∀ g' ∈ group_defs, (env.regexMatch hostname g'.hostname_match).isSome = true →
          g.sort_order ≤ g'.sort_order := by
  have h := foldl_detectStep env hostname group_defs [] ("", 999999)
    (Or.inl ⟨rfl, by simp⟩)
  rw [List.nil_append] at h
  unfold detectGroup
  rcases h with ⟨h1, h2⟩ | ⟨g, hg, hm, h1, hlt, hmin⟩
  · left
    rw [h1]
    exact ⟨rfl, h2⟩
  · right
    refine ⟨g, hg, hm, ?_, hlt, hmin⟩
    rw [h1]

/-- C17, the failing input. The only group definition has a pattern that
matches the hostname `web1`, and the `sort_order` 1000000; a request of `web1`
without a group is rejected by `api_submit` and by `api_hello` as not a member
of any groups, and nothing is enqueued. -/
theorem detectGroup_large_sort_order :
    (exEnv.regexMatch "web1" exBigGroup.hostname_match).isSome = true ∧
    detectGroup exEnv [exBigGroup] "web1" = "" ∧
    (api_submit exEnv exApi { exSrv exMon with groups := [exBigGroup] } (exState [])
        "10.0.0.1" exRequest).response =
      Response.error "submit" "Hostname is not a member of any groups: web1" ∧
    (api_submit exEnv exApi { exSrv exMon with groups := [exBigGroup] } (exState [])
        "10.0.0.1" exRequest).enqueued = [] ∧
    (api_hello exEnv exApi { exSrv exMon with groups := [exBigGroup] } (exState [])
        exRequest).response =
      Response.error "submit" "Hostname is not a member of any groups: web1" := by
  decide!

/-- The storage records, the lists, the caches and the storage calls are not
touched by the rejections. -/
theorem rejectNoGroup_frame (st : State) (hostname : String) :
    (rejectNoGroup st hostname).response.isError = true ∧
    (rejectNoGroup st hostname).enqueued = [] ∧
    (rejectNoGroup st hostname).st.hosts = st.hosts ∧
    (rejectNoGroup st hostname).st.lists = st.lists ∧
    (rejectNoGroup st hostname).st.trace = st.trace ∧
    (rejectNoGroup st hostname).st.groupCache = st.groupCache ∧
    (rejectNoGroup st hostname).st.alertCache = st.alertCache ∧
    (rejectNoGroup st hostname).st.hostnameCache = st.hostnameCache :=
  ⟨rfl, rfl, rfl, rfl, rfl, rfl, rfl, rfl⟩

theorem rejectUnknownGroup_frame (st : State) (group hostname : String) :
    (rejectUnknownGroup st group hostname).response.isError = true ∧
    (rejectUnknownGroup st group hostname).enqueued = [] ∧
    (rejectUnknownGroup st group hostname).st.hosts = st.hosts ∧
    (rejectUnknownGroup st group hostname).st.lists = st.lists ∧
    (rejectUnknownGroup st group hostname).st.trace = st.trace ∧
    (rejectUnknownGroup st group hostname).st.groupCache = st.groupCache ∧
    (rejectUnknownGroup st group hostname).st.alertCache = st.alertCache ∧
    (rejectUnknownGroup st group hostname).st.hostnameCache = st.hostnameCache :=
  ⟨rfl, rfl, rfl, rfl, rfl, rfl, rfl, rfl⟩

/-- The storage records, the lists, the caches and the storage calls are those
from before a call of `api_submit`. -/
theorem api_submit_frame (env : Env) (api : Api) (srv : Server) (st : State) (ip : String)
    (req : Request) :
    (api_submit env api srv st ip req).st.hosts = st.hosts ∧
    (api_submit env api srv st ip req).st.lists = st.lists ∧
    (api_submit env api srv st ip req).st.trace = st.trace ∧
    (api_submit env api srv st ip req).st.groupCache = st.groupCache ∧
    (api_submit env api srv st ip req).st.alertCache = st.alertCache ∧
    (api_submit env api srv st ip req).st.hostnameCache = st.hostnameCache := by
  unfold api_submit
  dsimp only
  repeat' split
  all_goals exact ⟨rfl, rfl, rfl, rfl, rfl, rfl⟩

/-- A response of `api_submit` other than `{ code: 0 }` is an error, and nothing
is enqueued with it. -/
theorem api_submit_error (env : Env) (api : Api) (srv : Server) (st : State) (ip : String)
    (req : Request) (h : (api_submit env api srv st ip req).response ≠ Response.ok) :
    (api_submit env api srv st ip req).response.isError = true ∧
      (api_submit env api srv st ip req).enqueued = [] := by
  unfold api_submit at h ⊢
  dsimp only at h ⊢
  repeat' split
  all_goals first
    | exact ⟨rfl, rfl⟩
    | (exfalso; simp_all)

/-- When `api_submit` accepts, and what it enqueues. -/
theorem api_submit_accept (env : Env) (api : Api) (srv : Server) (st : State) (ip : String)
    (req : Request) :
    (((api_submit env api srv st ip req).response = Response.ok ∧
        ∃ task, (api_submit env api srv st ip req).enqueued = [task]) ↔
      ∃ name data, req.hostname = some name ∧ isToken name = true ∧ req.data = some data ∧
        resolveGroup env api srv.groups req.group (removeSlashes (api.normalizeKey name)) ≠ "" ∧
        (findGroup srv.groups
          (resolveGroup env api srv.groups req.group
            (removeSlashes (api.normalizeKey name)))).isSome = true) ∧
    (∀ name data, req.hostname = some name → isToken name = true → req.data = some data →
      resolveGroup env api srv.groups req.group (removeSlashes (api.normalizeKey name)) ≠ "" →
      (findGroup srv.groups
        (resolveGroup env api srv.groups req.group
          (removeSlashes (api.normalizeKey name)))).isSome = true →
      (api_submit env api srv st ip req).enqueued =
        [{ hostname := removeSlashes (api.normalizeKey name)
           group := resolveGroup env api srv.groups req.group
             (removeSlashes (api.normalizeKey name))
           custom_group := decide (req.group ≠ "")
           ip := ip
           date := ⌊env.now⌋
           data := data }]) := by
  unfold api_submit
  cases hh : req.hostname with
  | none =>
    refine ⟨⟨fun h => ?_, fun h => ?_⟩, ?_⟩
    · exact Response.noConfusion h.1
    · obtain ⟨name, data, h1, _⟩ := h
      exact Option.noConfusion h1
    · intro name data h1
      exact Option.noConfusion h1
  | some name =>
    show (((if isToken name = false then _ else _ : ApiResult).response = Response.ok ∧
        ∃ task, (if isToken name = false then _ else _ : ApiResult).enqueued = [task]) ↔ _) ∧
      ∀ name' data, some name = some name' → isToken name' = true → req.data = some data → _ →
        _ → (if isToken name = false then _ else _ : ApiResult).enqueued = _
    by_cases htok : isToken name = false
    · rw [if_pos htok]
      refine ⟨⟨fun h => ?_, fun h => ?_⟩, ?_⟩
      · exact Response.noConfusion h.1
      · obtain ⟨name', data, h1, h2, _⟩ := h
        cases h1
        rw [htok] at h2
        exact Bool.noConfusion h2
      · intro name' data h1 h2
        cases h1
        rw [htok] at h2
        exact Bool.noConfusion h2
    · rw [if_neg htok]
      have htok' : isToken name = true := by
        cases h : isToken name
        · exact absurd h htok
        · rfl
      cases hd : req.data with
      | none =>
        refine ⟨⟨fun h => ?_, fun h => ?_⟩, ?_⟩
        · exact Response.noConfusion h.1
        · obtain ⟨_, data, _, _, h3, _⟩ := h
          exact Option.noConfusion h3
        · intro name' data _ _ h3
          exact Option.noConfusion h3
      | some data =>
        show (((if resolveGroup env api srv.groups req.group
              (removeSlashes (api.normalizeKey name)) = "" then _ else _ : ApiResult).response =
            Response.ok ∧
          ∃ task, (if resolveGroup env api srv.groups req.group
              (removeSlashes (api.normalizeKey name)) = "" then _ else _ : ApiResult).enqueued =
            [task]) ↔ _) ∧
          ∀ name' data', some name = some name' → isToken name' = true →
            some data = some data' → _ → _ →
            (if resolveGroup env api srv.groups req.group
              (removeSlashes (api.normalizeKey name)) = "" then _ else _ : ApiResult).enqueued = _
        by_cases hgrp : resolveGroup env api srv.groups req.group
            (removeSlashes (api.normalizeKey name)) = ""
        · rw [if_pos hgrp]
          refine ⟨⟨fun h => ?_, fun h => ?_⟩, ?_⟩
          · exact Response.noConfusion h.1
          · obtain ⟨name', _, h1, _, _, h4, _⟩ := h
            cases h1
            exact absurd hgrp h4
          · intro name' _ h1 _ _ h4
            cases h1
            exact absurd hgrp h4
        · rw [if_neg hgrp]
          cases hfg : findGroup srv.groups (resolveGroup env api srv.groups req.group
              (removeSlashes (api.normalizeKey name))) with
          | none =>
            refine ⟨⟨fun h => ?_, fun h => ?_⟩, ?_⟩
            · exact Response.noConfusion h.1
            · obtain ⟨name', _, h1, _, _, _, h5⟩ := h
              cases h1
              rw [hfg] at h5
              exact Bool.noConfusion h5
            · intro name' _ h1 _ _ _ h5
              cases h1
              rw [hfg] at h5
              exact Bool.noConfusion h5
          | some gd =>
            refine ⟨⟨fun _ => ?_, fun _ => ⟨rfl, _, rfl⟩⟩, ?_⟩
            · exact ⟨name, data, rfl, htok', rfl, hgrp, by rw [hfg]; rfl⟩
            · intro name' data' h1 _ h3 _ _
              cases h1
              cases h3
              rfl

/-- C18. Validation in `api_submit`. The response is `{ code: 0 }` with exactly
one task enqueued if and only if the hostname of the request is a token without
white space, the request has a data object, and the group of the request (the
normalized group it names or, without one, the group detected from the hostname)
is the id of a defined group; the task then carries the normalized hostname,
that group, the address of the client, the server time and the data. In every
other case the response is an error and nothing is enqueued. In all cases the
storage records, the timeline lists, the caches and the storage calls are those
from before the call. -/
theorem api_submit_accepts_iff (env : Env) (api : Api) (srv : Server) (st : State) (ip : String)
    (req : Request) :
    (((api_submit env api srv st ip req).response = Response.ok ∧
        ∃ task, (api_submit env api srv st ip req).enqueued = [task]) ↔
      ∃ name data, req.hostname = some name ∧ isToken name = true ∧ req.data = some data ∧
        resolveGroup env api srv.groups req.group (removeSlashes (api.normalizeKey name)) ≠ "" ∧
        (findGroup srv.groups
          (resolveGroup env api srv.groups req.group
            (removeSlashes (api.normalizeKey name)))).isSome = true) ∧
    (∀ name data, req.hostname = some name → isToken name = true → req.data = some data →
      resolveGroup env api srv.groups req.group (removeSlashes (api.normalizeKey name)) ≠ "" →
      (findGroup srv.groups
        (resolveGroup env api srv.groups req.group
          (removeSlashes (api.normalizeKey name)))).isSome = true →
      (api_submit env api srv st ip req).enqueued =
        [{ hostname := removeSlashes (api.normalizeKey name)
           group := resolveGroup env api srv.groups req.group
             (removeSlashes (api.normalizeKey name))
           custom_group := decide (req.group ≠ "")
           ip := ip
           date := ⌊env.now⌋
           data := data }]) ∧
    ((api_submit env api srv st ip req).response ≠ Response.ok →
      (api_submit env api srv st ip req).response.isError = true ∧
        (api_submit env api srv st ip req).enqueued = []) ∧
    (api_submit env api srv st ip req).st.hosts = st.hosts ∧
    (api_submit env api srv st ip req).st.lists = st.lists ∧
    (api_submit env api srv st ip req).st.trace = st.trace ∧
    (api_submit env api srv st ip req).st.groupCache = st.groupCache ∧
    (api_submit env api srv st ip req).st.alertCache = st.alertCache ∧
    (api_submit env api srv st ip req).st.hostnameCache = st.hostnameCache :=
  ⟨(api_submit_accept env api srv st ip req).1, (api_submit_accept env api srv st ip req).2,
    api_submit_error env api srv st ip req, api_submit_frame env api srv st ip req⟩

/-- The example used for C18: the request of `web1`, whose group is detected as `main`,
is accepted and one task is enqueued; the same request without data is
rejected. -/
theorem exSubmit_outcome :
    (api_submit exEnv exApi (exSrv exMon) (exState []) "10.0.0.1" exRequest).response =
      Response.ok ∧
    (api_submit exEnv exApi (exSrv exMon) (exState []) "10.0.0.1" exRequest).enqueued =
      [{ hostname := "web1", group := "main", custom_group := false, ip := "10.0.0.1",
         date := 100000, data := "1000" }] ∧
    (api_submit exEnv exApi (exSrv exMon) (exState []) "10.0.0.1"
        { exRequest with data := none }).response =
      Response.error "submit" "Missing required data object" := by
  decide!

/-- A task enqueued by `api_submit` has a defined group, so that
`processDataSubmission` returns for it. -/
theorem api_submit_task_defined (env : Env) (api : Api) (srv : Server) (st : State)
    (ip : String) (req : Request) (task : Submission)
    (h : task ∈ (api_submit env api srv st ip req).enqueued) :
    (findGroup srv.groups task.group).isSome = true := by
  unfold api_submit at h
  cases hh : req.hostname with
  | none => rw [hh] at h; simp at h
  | some name =>
    rw [hh] at h
    simp only [] at h
    by_cases htok : isToken name = false
    · rw [if_pos htok] at h; simp at h
    · rw [if_neg htok] at h
      cases hd : req.data with
      | none => rw [hd] at h; simp at h
      | some data =>
        rw [hd] at h
        simp only [] at h
        by_cases hgrp : resolveGroup env api srv.groups req.group
            (removeSlashes (api.normalizeKey name)) = ""
        · rw [if_pos hgrp] at h
          simp [rejectNoGroup] at h
        · rw [if_neg hgrp] at h
          cases hfg : findGroup srv.groups (resolveGroup env api srv.groups req.group
              (removeSlashes (api.normalizeKey name))) with
          | none =>
            rw [hfg] at h
            simp [rejectUnknownGroup] at h
          | some gd =>
            rw [hfg] at h
            simp only [List.mem_singleton] at h
            subst h
            simp only []
            rw [hfg]
            rfl

/-! ## Merging into the last bucket -/

/-- The entries of `Tools.mergeHashInto(a, b)`: those of `b`, and those of `a`
for the keys `b` does not have. -/
theorem mergeHashInto_get (b : Dict Bool) (k : String) :
    ∀ (ks : List String) (a : Dict Bool),
      Dict.get (ks.foldl
          (fun acc key =>
            match Dict.get b key with
            | none => acc
            | some v => Dict.set acc key v) a) k =
        if k ∈ ks then
          (match Dict.get b k with
            | some v => some v
            | none => Dict.get a k)
        else Dict.get a k := by
  intro ks
  induction ks with
  | nil => intro a; simp
  | cons key rest ih =>
    intro a
    rw [List.foldl_cons, ih]
    by_cases hk : k = key
    · subst hk
      cases hb : Dict.get b k with
      | none => simp [hb]
      | some v =>
        simp only [hb, List.mem_cons, true_or, if_true]
        by_cases hr : k ∈ rest
        · rw [if_pos hr]
        · rw [if_neg hr, Dict.get_set_self]
    · have hmem : k ∈ key :: rest ↔ k ∈ rest := by
        simp [hk]
      cases hb : Dict.get b key with
      | none =>
        simp only [hmem]
      | some v =>
        simp only [hmem, Dict.get_set_ne _ _ _ _ hk]

/-- The ids of `Tools.mergeHashInto(a, b)` are the ids of `a` and those of `b`. -/
theorem mergeHashInto_keys (a b : Dict Bool) (k : String) :
    k ∈ Dict.keys (mergeHashInto a b) ↔ k ∈ Dict.keys a ∨ k ∈ Dict.keys b := by
  rw [Dict.mem_keys_iff, Dict.mem_keys_iff, Dict.mem_keys_iff]
  have hget : Dict.get (mergeHashInto a b) k =
      if k ∈ Dict.keys b then
        (match Dict.get b k with
          | some v => some v
          | none => Dict.get a k)
      else Dict.get a k := mergeHashInto_get b k _ a
  rw [hget]
  by_cases hk : k ∈ Dict.keys b
  · rw [if_pos hk]
    obtain ⟨v, hv⟩ := (Dict.mem_keys_iff b k).1 hk
    rw [hv]
    simp
  · rw [if_neg hk]
    have hb : Dict.get b k = none := (Dict.not_mem_keys_iff b k).1 hk
    rw [hb]
    simp

/-- What a merge does to the totals of the bucket. -/
theorem mergeBucket_totals (p : Params) (data : Dict Value) (b : Bucket) :
    (∀ k, Dict.get data k = none →
      Dict.get (mergeBucket p data b).totals k = Dict.get b.totals k) ∧
    (∀ k x t, Dict.get data k = some (Value.num x) →
      Dict.get b.totals k = some (Value.num t) →
      Dict.get (mergeBucket p data b).totals k = some (Value.num (t + x))) ∧
    (∀ k v, Dict.get data k = some v →
      (∀ x t, v = Value.num x → Dict.get b.totals k ≠ some (Value.num t)) →
      Dict.get (mergeBucket p data b).totals k = some v) := by
  refine ⟨?_, ?_, ?_⟩
  · intro k hk
    exact mergeTotals_get_of_none _ _ _ hk
  · intro k x t hx ht
    exact mergeBucket_totals_num p data b k t x ht hx
  · intro k v hv hno
    show Dict.get (mergeTotals b.totals data) k = _
    rw [mergeTotals_get_of_some _ _ _ _ hv]
    cases v with
    | str s => cases Dict.get b.totals k with
      | none => rfl
      | some old => cases old <;> rfl
    | num x =>
      cases ht : Dict.get b.totals k with
      | none => rfl
      | some old =>
        cases old with
        | str s => rfl
        | num t => exact absurd ht (hno x t rfl)

/-- What a merge does to the alerts of the bucket. -/
theorem mergeBucket_alerts (p : Params) (data : Dict Value) (b : Bucket) :
    (∀ id, id ∈ Dict.keys ((mergeBucket p data b).alerts.getD []) ↔
      id ∈ Dict.keys (b.alerts.getD []) ∨ id ∈ Dict.keys (p.new_alerts.getD [])) ∧
    (p.new_alerts = none → (mergeBucket p data b).alerts = b.alerts) := by
  constructor
  · intro id
    unfold mergeBucket
    cases hn : p.new_alerts with
    | none => simp [Dict.keys]
    | some na =>
      simp only [Option.getD_some]
      exact mergeHashInto_keys _ _ _
  · intro hn
    unfold mergeBucket
    rw [hn]

theorem getElem?_dropLast_append {α : Type} (l : List α) (x : α) (i : ℕ)
    (hi : i + 1 < l.length) : (l.dropLast ++ [x])[i]? = l[i]? := by
  have h1 : i < l.dropLast.length := by
    rw [List.length_dropLast]
    omega
  rw [List.getElem?_append_left h1, List.getElem?_eq_getElem h1, List.getElem_dropLast,
    List.getElem?_eq_getElem (by omega)]

/-- C21. Merging into the last bucket. When the last bucket of the list has the
`epoch_div` of the submission and the resolution is not `single_only`,
`processSystem` passes no error and replaces the last bucket by a bucket `b'`:
the list keeps its length and every bucket before the last; `b'` has the
`epoch_div` and the `date` of the last bucket and its count plus one; a key of
the totals that the working map does not have keeps its value, a key whose
stored and incoming values are both numbers holds their sum, any other key of
the working map holds the incoming value; and the alert ids of `b'` are those of
the last bucket and the newly triggered ids of the submission (the alerts are
untouched when the submission has none). -/
theorem processSystem_merge_frame (env : Env) (srv : Server) (st : State) (sys : Sys)
    (p : Params) (data : Dict Value) (b : Bucket) (hs : sys.single_only = false)
    (hb : ((Dict.get st.lists (timelineKey env sys p)).getD []).getLast? = some b)
    (he : b.epoch_div = ⌊(p.date : ℚ) / (sys.epoch_div : ℚ)⌋) :
    ∃ b', (processSystem env srv st sys p data).2 = none ∧
      Dict.get (processSystem env srv st sys p data).1.lists (timelineKey env sys p) =
        some (((Dict.get st.lists (timelineKey env sys p)).getD []).dropLast ++ [b']) ∧
      (((Dict.get st.lists (timelineKey env sys p)).getD []).dropLast ++ [b']).length =
        ((Dict.get st.lists (timelineKey env sys p)).getD []).length ∧
      (∀ i, i + 1 < ((Dict.get st.lists (timelineKey env sys p)).getD []).length →
        (((Dict.get st.lists (timelineKey env sys p)).getD []).dropLast ++ [b'])[i]? =
          ((Dict.get st.lists (timelineKey env sys p)).getD [])[i]?) ∧
      b'.epoch_div = b.epoch_div ∧ b'.date = b.date ∧ b'.count = b.count + 1 ∧
      (∀ k, Dict.get data k = none → Dict.get b'.totals k = Dict.get b.totals k) ∧
      (∀ k x t, Dict.get data k = some (Value.num x) →
        Dict.get b.totals k = some (Value.num t) →
        Dict.get b'.totals k = some (Value.num (t + x))) ∧
      (∀ k v, Dict.get data k = some v →
        (∀ x t, v = Value.num x → Dict.get b.totals k ≠ some (Value.num t)) →
        Dict.get b'.totals k = some v) ∧
      (∀ id, id ∈ Dict.keys (b'.alerts.getD []) ↔
        id ∈ Dict.keys (b.alerts.getD []) ∨ id ∈ Dict.keys (p.new_alerts.getD [])) ∧
      (p.new_alerts = none → b'.alerts = b.alerts) := by
  obtain ⟨h1, h2⟩ := processSystem_merge env srv st sys p data b hs hb he
  obtain ⟨t1, t2, t3⟩ := mergeBucket_totals p data b
  obtain ⟨a1, a2⟩ := mergeBucket_alerts p data b
  have hne : (Dict.get st.lists (timelineKey env sys p)).getD [] ≠ [] := by
    intro hc
    rw [hc] at hb
    simp at hb
  refine ⟨mergeBucket p data b, h1, ?_, ?_, ?_, rfl, rfl, rfl, t1, t2, t3, a1, a2⟩
  · rw [h2, Dict.get_set_self]
  · rw [List.length_append, List.length_dropLast, List.length_singleton]
    have := List.length_pos.2 hne
    omega
  · intro i hi
    exact getElem?_dropLast_append _ _ i hi

/-- Instance of C21: the hourly list of `web1` holds the buckets 27 and 28, and
a submission at second 100800 (bucket 28) that carries 7 under `a` merges. -/
theorem processSystem_merge_frame_witness :
    ∃ b' : Bucket, (processSystem exEnv (exSrv exMon)
        (exState [(exKey, [exBucket 27 5, exBucket 28 5])]) (exSys false)
        (exParams 100800 "1000" "net" (Value.num (JSNum.fin 1000)))
        [("a", Value.num (JSNum.fin 7))]).2 = none ∧
      b'.count = (exBucket 28 5).count + 1 ∧
      Dict.get b'.totals "a" = some (Value.num (JSNum.fin 5 + JSNum.fin 7)) := by
  obtain ⟨b', h1, _, _, _, _, _, h7, _, h9, _⟩ :=
    processSystem_merge_frame exEnv (exSrv exMon)
      (exState [(exKey, [exBucket 27 5, exBucket 28 5])]) (exSys false)
      (exParams 100800 "1000" "net" (Value.num (JSNum.fin 1000)))
      [("a", Value.num (JSNum.fin 7))] (exBucket 28 5) rfl (by decide) (by decide!)
  exact ⟨b', h1, h7, h9 "a" (JSNum.fin 7) (JSNum.fin 5) (by decide) (by decide)⟩

/-! ## The deltas map -/

theorem monitorStep_deltas (env : Env) (s : MonState) (mon : MonitorDef) :
    (monitorStep env s mon).params.data.deltas = s.params.data.deltas := by
  unfold monitorStep
  split <;> rfl

/-- The monitor loop leaves the deltas map empty. -/
theorem monitorPass_deltas (env : Env) (defs : List MonitorDef) (task : Submission) :
    (monitorPass env defs task).params.data.deltas = [] := by
  unfold monitorPass
  have h : ∀ (l : List MonitorDef) (s : MonState),
      (l.foldl (monitorStep env) s).params.data.deltas = s.params.data.deltas := by
    intro l
    induction l with
    | nil => intro s; rfl
    | cons m rest ih =>
      intro s
      rw [List.foldl_cons, ih, monitorStep_deltas]
  rw [h]
  rfl

/-- The delta monitors of a submission: the definitions with the `delta` flag
that the group filter lets through. -/
theorem mem_delta_defs_iff (env : Env) (defs : List MonitorDef) (task : Submission)
    (mon : MonitorDef) :
    mon ∈ (monitorPass env defs task).delta_defs ↔
      mon ∈ defs ∧ groupFiltered env mon.group_match task.group = false ∧ mon.delta = true := by
  unfold monitorPass
  rw [foldl_monitorStep_delta_defs]
  simp only [List.nil_append, List.mem_filter, Bool.and_eq_true, Bool.not_eq_true']
  rfl

theorem deltaStep_deltas_ne (env : Env) (hd : HostData) (s : Params × Dict Value)
    (mon : MonitorDef) (k : String) (h : k ≠ mon.id) :
    Dict.get (deltaStep env hd s mon).1.data.deltas k = Dict.get s.1.data.deltas k := by
  unfold deltaStep
  cases Dict.get hd.monitors mon.id with
  | none => rfl
  | some prev => exact Dict.get_set_ne _ _ _ _ h

/-- A round of the delta pass for a monitor that the host record has a value
for: the deltas map and the working map receive the same number. -/
theorem deltaStep_synced (env : Env) (hd : HostData) (s : Params × Dict Value)
    (mon : MonitorDef) (prev : Value) (h : Dict.get hd.monitors mon.id = some prev) :
    Dict.get (deltaStep env hd s mon).1.data.deltas mon.id =
        some (Value.num (computeDelta env mon s.1.date hd.date (Dict.get s.2 mon.id) prev)) ∧
      Dict.get (deltaStep env hd s mon).2 mon.id =
        some (Value.num (computeDelta env mon s.1.date hd.date (Dict.get s.2 mon.id) prev)) := by
  refine ⟨?_, deltaStep_get_of_some env hd s mon prev h⟩
  unfold deltaStep
  rw [h]
  exact Dict.get_set_self _ _ _

/-- The delta pass on a key that the host record has no value for: the deltas
map keeps the entry it had. -/
theorem deltaPass_deltas_first (env : Env) (hd : HostData) (k : String)
    (hk : Dict.get hd.monitors k = none) :
    ∀ (defs : List MonitorDef) (p : Params) (data : Dict Value),
      Dict.get (deltaPass env hd defs p data).1.data.deltas k = Dict.get p.data.deltas k := by
  intro defs
  induction defs with
  | nil => intro p data; rfl
  | cons m rest ih =>
    intro p data
    rw [deltaPass_cons, ih]
    by_cases hid : k = m.id
    · subst hid
      rw [deltaStep_of_none env hd (p, data) m hk]
    · exact deltaStep_deltas_ne env hd (p, data) m k hid

/-- The delta pass on a key that is the id of none of its monitors: the deltas
map keeps the entry it had. -/
theorem deltaPass_deltas_not_mem (env : Env) (hd : HostData) (k : String) :
    ∀ (defs : List MonitorDef) (p : Params) (data : Dict Value),
      (∀ m ∈ defs, m.id ≠ k) →
      Dict.get (deltaPass env hd defs p data).1.data.deltas k = Dict.get p.data.deltas k := by
  intro defs
  induction defs with
  | nil => intro p data _; rfl
  | cons m rest ih =>
    intro p data h
    rw [deltaPass_cons, ih _ _ (fun m' hm' => h m' (List.mem_cons_of_mem _ hm'))]
    exact deltaStep_deltas_ne env hd (p, data) m k (Ne.symm (h m (List.mem_cons_self _ _)))

/-- The delta pass on the id of one of its monitors that the host record has a
value for: the deltas map and the working map hold the same number. -/
theorem deltaPass_deltas_synced (env : Env) (hd : HostData) (k : String) (prev : Value)
    (hk : Dict.get hd.monitors k = some prev) :
    ∀ (defs : List MonitorDef) (p : Params) (data : Dict Value),
      ((∃ δ, Dict.get p.data.deltas k = some (Value.num δ) ∧
          Dict.get data k = some (Value.num δ)) ∨ ∃ m ∈ defs, m.id = k) →
      ∃ δ, Dict.get (deltaPass env hd defs p data).1.data.deltas k = some (Value.num δ) ∧
        Dict.get (deltaPass env hd defs p data).2 k = some (Value.num δ) := by
  intro defs
  induction defs with
  | nil =>
    intro p data h
    rcases h with h | ⟨m, hm, _⟩
    · exact h
    · exact absurd hm (List.not_mem_nil _)
  | cons m rest ih =>
    intro p data h
    rw [deltaPass_cons]
    apply ih
    by_cases hid : m.id = k
    · left
      subst hid
      exact ⟨_, deltaStep_synced env hd (p, data) m prev hk⟩
    · rcases h with ⟨δ, h1, h2⟩ | ⟨m', hm', hid'⟩
      · left
        refine ⟨δ, ?_, ?_⟩
        · rw [deltaStep_deltas_ne env hd (p, data) m k (Ne.symm hid)]
          exact h1
        · rw [deltaStep_get_ne env hd (p, data) m k (Ne.symm hid)]
          exact h2
      · rcases List.mem_cons.1 hm' with h1 | h1
        · subst h1
          exact absurd hid' hid
        · exact Or.inr ⟨m', h1, hid'⟩

/-- The object `params.data` of a returning submission is the one the delta
pass left. -/
theorem processDataSubmission_data (env : Env) (srv : Server) (st : State) (task : Submission)
    (out : Outcome) (h : processDataSubmission env srv st task = some out) :
    out.params.data = (deltaStage env srv st task).1.data ∧
      out.data = (deltaStage env srv st task).2 := by
  obtain ⟨g, nt, _, hnt, hp, hdata, _⟩ := processDataSubmission_inv env srv st task out h
  obtain ⟨_, _, _, n4, _⟩ := foldlM_newAlertStep srv g (alertsSnoozed env srv)
    (hostData st task.hostname) _ _ nt (Dict.nodup_keys _) hnt
  simp only at n4
  refine ⟨?_, hdata⟩
  rw [hp, n4]
  exact (foldl_alertStep env _ "" srv.alerts (_, [])).2.2.2.1

/-- C23. The deltas map. A submission whose group is defined is processed to
the end, and `params.data.deltas` and the working map are then those the delta
pass left. For a delta monitor of the submission (a definition with the `delta`
flag that the group filter lets through): when the host record holds a previous
value for it, the deltas map has an entry for it, a number, and the working map
holds the same number; when the host record holds none (a first report), the
deltas map has no entry for it and the working map holds `0`. A key that is not
the id of a delta monitor of the submission has no entry in the deltas map. -/
theorem deltas_entry (env : Env) (srv : Server) (st : State) (task : Submission)
    (g : GroupDef) (hg : findGroup srv.groups task.group = some g) :
    ∃ out, processDataSubmission env srv st task = some out ∧
      out.params.data.deltas = (deltaStage env srv st task).1.data.deltas ∧
      out.data = (deltaStage env srv st task).2 ∧
      (∀ mon ∈ srv.monitors, mon.delta = true →
        groupFiltered env mon.group_match task.group = false →
        (∀ prev, Dict.get (hostData st task.hostname).monitors mon.id = some prev →
          ∃ δ, Dict.get out.params.data.deltas mon.id = some (Value.num δ) ∧
            Dict.get out.data mon.id = some (Value.num δ)) ∧
        (Dict.get (hostData st task.hostname).monitors mon.id = none →
          Dict.get out.params.data.deltas mon.id = none ∧
            Dict.get out.data mon.id = some (Value.num (JSNum.fin 0)))) ∧
      (∀ k, (∀ mon ∈ srv.monitors, mon.delta = true →
          groupFiltered env mon.group_match task.group = false → mon.id ≠ k) →
        Dict.get out.params.data.deltas k = none) := by
  obtain ⟨out, h⟩ := processDataSubmission_returns env srv st task g hg
  obtain ⟨d1, d2⟩ := processDataSubmission_data env srv st task out h
  have hd0 := monitorPass_deltas env srv.monitors task
  refine ⟨out, h, by rw [d1], d2, ?_, ?_⟩
  · intro mon hmon hdelta hfilter
    have hmem : mon ∈ (monitorPass env srv.monitors task).delta_defs :=
      (mem_delta_defs_iff env srv.monitors task mon).2 ⟨hmon, hfilter, hdelta⟩
    constructor
    · intro prev hprev
      rw [d1, d2]
      unfold deltaStage
      exact deltaPass_deltas_synced env _ mon.id prev hprev _ _ _ (Or.inr ⟨mon, hmem, rfl⟩)
    · intro hnone
      rw [d1, d2]
      unfold deltaStage
      constructor
      · rw [deltaPass_deltas_first env _ mon.id hnone, hd0]
        rfl
      · exact deltaPass_first_report env _ mon.id hnone _ _ _ (Or.inr ⟨mon, hmem, rfl⟩)
  · intro k hk
    rw [d1]
    unfold deltaStage
    rw [deltaPass_deltas_not_mem env _ k _ _ _ ?_, hd0]
    · rfl
    · intro m hm
      obtain ⟨h1, h2, h3⟩ := (mem_delta_defs_iff env srv.monitors task m).1 hm
      exact hk m h1 h3 h2

/-- The example used for C23: the first submission of `web1` (a first report of
the delta monitor `net`) leaves the deltas map empty and `0` in the working map;
the second, 42 seconds later with the value 1500 after 1000, leaves 11 in both. -/
theorem exDeltas_outcome :
    (processDataSubmission exEnv (exSrv exMon) (exState []) (exTask 90000 "1000")).map
        (fun o => (o.params.data.deltas, o.data)) =
      some ([], [("net", Value.num (JSNum.fin 0))]) ∧
    (processDataSubmission exEnv (exSrv exMon) (exAfter exMon (exTask 90000 "1000"))
        (exTask 90042 "1500")).map (fun o => (o.params.data.deltas, o.data)) =
      some ([("net", Value.num (JSNum.fin 11))], [("net", Value.num (JSNum.fin 11))]) := by
  decide!

/-- Instance of C23: the second submission of `web1`. -/
theorem deltas_entry_witness :
    findGroup (exSrv exMon).groups (exTask 90042 "1500").group = some exGroup ∧
    ∃ out, processDataSubmission exEnv (exSrv exMon) (exAfter exMon (exTask 90000 "1000"))
        (exTask 90042 "1500") = some out ∧
      ∃ δ, Dict.get out.params.data.deltas exMon.id = some (Value.num δ) ∧
        Dict.get out.data exMon.id = some (Value.num δ) := by
  refine ⟨by decide!, ?_⟩
  obtain ⟨out, h, _, _, h3, _⟩ := deltas_entry exEnv (exSrv exMon)
    (exAfter exMon (exTask 90000 "1000")) (exTask 90042 "1500") exGroup (by decide!)
  exact ⟨out, h, (h3 exMon (by decide!) (by decide) (by decide!)).1
    (Value.num (JSNum.fin 1000)) (by decide!)⟩

/-! ## Definitions that do not refer to a monitor -/

theorem Dict.get_set_congr {α : Type} (d d' : Dict α) (key k : String) (v : α)
    (h : Dict.get d k = Dict.get d' k) :
    Dict.get (Dict.set d key v) k = Dict.get (Dict.set d' key v) k := by
  by_cases hk : k = key
  · subst hk
    rw [Dict.get_set_self, Dict.get_set_self]
  · rw [Dict.get_set_ne _ _ _ _ hk, Dict.get_set_ne _ _ _ _ hk, h]

theorem AgreeOff.rfl' (id : String) (p : Params) : AgreeOff id p p :=
  ⟨rfl, rfl, rfl, rfl, rfl, rfl, rfl, rfl, fun _ _ => rfl, fun _ _ => rfl⟩

/-! ### The monitor loop -/

/-- A round of the monitor loop for a monitor of another id, whose source does
not refer to the monitor `id`, on two states that agree off `id`. -/
theorem monitorStep_agree_other (env : Env) (id : String) (s s' : MonState) (m : MonitorDef)
    (hne : m.id ≠ id) (hind : MonitorIndependent env id m) (h : MonAgree id s s') :
    MonAgree id (monitorStep env s m) (monitorStep env s' m) := by
  have hgrp : s'.params.group = s.params.group := h.params.group.symm
  have hres : resolveSource env s'.params m = resolveSource env s.params m :=
    (hind _ _ h.params).symm
  unfold monitorStep
  rw [hgrp, hres]
  by_cases hf : groupFiltered env m.group_match s.params.group = true
  · rw [if_pos hf, if_pos hf]
    exact h
  · rw [if_neg hf, if_neg hf]
    refine ⟨⟨h.params.hostname, h.params.group, h.params.custom_group, h.params.ip,
      h.params.date, h.params.raw, h.params.alerts, h.params.new_alerts, ?_, h.params.deltas⟩,
      ?_, ?_⟩
    · intro k hk
      exact Dict.get_set_congr _ _ _ _ _ (h.params.monitors k hk)
    · intro k hk
      exact Dict.get_set_congr _ _ _ _ _ (h.data k hk)
    · show (if m.delta = true then s'.delta_defs ++ [m] else s'.delta_defs) =
        (if m.delta = true then s.delta_defs ++ [m] else s.delta_defs).filter
          (fun m => decide (m.id ≠ id))
      rw [h.delta_defs]
      by_cases hd : m.delta = true
      · rw [if_pos hd, if_pos hd, List.filter_append]
        simp [hne]
      · rw [if_neg hd, if_neg hd]

/-- A round of the monitor loop for a monitor of id `id`, on the first of two
states that agree off `id`. -/
theorem monitorStep_agree_self (env : Env) (id : String) (s s' : MonState) (mon : MonitorDef)
    (hid : mon.id = id) (h : MonAgree id s s') :
    MonAgree id (monitorStep env s mon) s' := by
  unfold monitorStep
  by_cases hf : groupFiltered env mon.group_match s.params.group = true
  · rw [if_pos hf]
    exact h
  · rw [if_neg hf]
    refine ⟨⟨h.params.hostname, h.params.group, h.params.custom_group, h.params.ip,
      h.params.date, h.params.raw, h.params.alerts, h.params.new_alerts, ?_, h.params.deltas⟩,
      ?_, ?_⟩
    · intro k hk
      have hk' : k ≠ mon.id := by rw [hid]; exact hk
      show Dict.get (Dict.set s.params.data.monitors mon.id _) k = _
      rw [Dict.get_set_ne _ _ _ _ hk']
      exact h.params.monitors k hk
    · intro k hk
      have hk' : k ≠ mon.id := by rw [hid]; exact hk
      show Dict.get (Dict.set s.data mon.id _) k = _
      rw [Dict.get_set_ne _ _ _ _ hk']
      exact h.data k hk
    · show s'.delta_defs =
        (if mon.delta = true then s.delta_defs ++ [mon] else s.delta_defs).filter
          (fun m => decide (m.id ≠ id))
      rw [h.delta_defs]
      by_cases hd : mon.delta = true
      · rw [if_pos hd, List.filter_append]
        simp [hid]
      · rw [if_neg hd]

theorem foldl_monitorStep_agree (env : Env) (id : String) :
    ∀ (defs : List MonitorDef) (s s' : MonState),
      (∀ m ∈ defs, m.id ≠ id ∧ MonitorIndependent env id m) → MonAgree id s s' →
      MonAgree id (defs.foldl (monitorStep env) s) (defs.foldl (monitorStep env) s') := by
  intro defs
  induction defs with
  | nil => intro s s' _ h; exact h
  | cons m rest ih =>
    intro s s' hdefs h
    rw [List.foldl_cons, List.foldl_cons]
    exact ih _ _ (fun m' hm' => hdefs m' (List.mem_cons_of_mem _ hm'))
      (monitorStep_agree_other env id s s' m (hdefs m (List.mem_cons_self _ _)).1
        (hdefs m (List.mem_cons_self _ _)).2 h)

/-- The monitor loop with and without the definition `mon`: when the other
definitions have other ids and those after `mon` do not refer to it, the two
loops agree off the id of `mon`. -/
theorem monitorPass_agree (env : Env) (pre post : List MonitorDef) (mon : MonitorDef)
    (task : Submission) (hpre : ∀ m ∈ pre, m.id ≠ mon.id)
    (hpost : ∀ m ∈ post, m.id ≠ mon.id ∧ MonitorIndependent env mon.id m) :
    MonAgree mon.id (monitorPass env (pre ++ mon :: post) task)
      (monitorPass env (pre ++ post) task) := by
  unfold monitorPass
  rw [List.foldl_append, List.foldl_append, List.foldl_cons]
  apply foldl_monitorStep_agree env mon.id post _ _ hpost
  apply monitorStep_agree_self env mon.id _ _ mon rfl
  refine ⟨AgreeOff.rfl' _ _, fun _ _ => rfl, ?_⟩
  rw [foldl_monitorStep_delta_defs]
  simp only [List.nil_append, List.filter_filter]
  symm
  rw [List.filter_congr]
  intro m hm
  have := hpre m hm
  simp [this]

/-! ### The delta pass -/

theorem deltaStep_agree_other (env : Env) (hd : HostData) (id : String)
    (s s' : Params × Dict Value) (m : MonitorDef) (hne : m.id ≠ id)
    (hp : AgreeOff id s.1 s'.1) (hdata : ∀ k, k ≠ id → Dict.get s.2 k = Dict.get s'.2 k) :
    AgreeOff id (deltaStep env hd s m).1 (deltaStep env hd s' m).1 ∧
      ∀ k, k ≠ id → Dict.get (deltaStep env hd s m).2 k = Dict.get (deltaStep env hd s' m).2 k := by
  unfold deltaStep
  cases Dict.get hd.monitors m.id with
  | none =>
    refine ⟨hp, ?_⟩
    intro k hk
    exact Dict.get_set_congr _ _ _ _ _ (hdata k hk)
  | some prev =>
    have hδ : computeDelta env m s'.1.date hd.date (Dict.get s'.2 m.id) prev =
        computeDelta env m s.1.date hd.date (Dict.get s.2 m.id) prev := by
      rw [← hp.date, ← hdata m.id hne]
    refine ⟨⟨hp.hostname, hp.group, hp.custom_group, hp.ip, hp.date, hp.raw, hp.alerts,
      hp.new_alerts, hp.monitors, ?_⟩, ?_⟩
    · intro k hk
      show Dict.get (Dict.set s.1.data.deltas m.id _) k =
        Dict.get (Dict.set s'.1.data.deltas m.id
          (Value.num (computeDelta env m s'.1.date hd.date (Dict.get s'.2 m.id) prev))) k
      rw [hδ]
      exact Dict.get_set_congr _ _ _ _ _ (hp.deltas k hk)
    · intro k hk
      show Dict.get (Dict.set s.2 m.id _) k =
        Dict.get (Dict.set s'.2 m.id
          (Value.num (computeDelta env m s'.1.date hd.date (Dict.get s'.2 m.id) prev))) k
      rw [hδ]
      exact Dict.get_set_congr _ _ _ _ _ (hdata k hk)

theorem deltaStep_agree_self (env : Env) (hd : HostData) (id : String)
    (s s' : Params × Dict Value) (m : MonitorDef) (hid : m.id = id)
    (hp : AgreeOff id s.1 s'.1) (hdata : ∀ k, k ≠ id → Dict.get s.2 k = Dict.get s'.2 k) :
    AgreeOff id (deltaStep env hd s m).1 s'.1 ∧
      ∀ k, k ≠ id → Dict.get (deltaStep env hd s m).2 k = Dict.get s'.2 k := by
  have hk' : ∀ k, k ≠ id → k ≠ m.id := fun k hk => by rw [hid]; exact hk
  unfold deltaStep
  cases Dict.get hd.monitors m.id with
  | none =>
    refine ⟨hp, ?_⟩
    intro k hk
    show Dict.get (Dict.set s.2 m.id _) k = _
    rw [Dict.get_set_ne _ _ _ _ (hk' k hk)]
    exact hdata k hk
  | some prev =>
    refine ⟨⟨hp.hostname, hp.group, hp.custom_group, hp.ip, hp.date, hp.raw, hp.alerts,
      hp.new_alerts, hp.monitors, ?_⟩, ?_⟩
    · intro k hk
      show Dict.get (Dict.set s.1.data.deltas m.id _) k = _
      rw [Dict.get_set_ne _ _ _ _ (hk' k hk)]
      exact hp.deltas k hk
    · intro k hk
      show Dict.get (Dict.set s.2 m.id _) k = _
      rw [Dict.get_set_ne _ _ _ _ (hk' k hk)]
      exact hdata k hk

/-- The delta pass over the delta monitors, and over those of an id other than
`id`, on `params` objects and working maps that agree off `id`. -/
theorem deltaPass_agree (env : Env) (hd : HostData) (id : String) :
    ∀ (defs : List MonitorDef) (p p' : Params) (data data' : Dict Value),
      AgreeOff id p p' → (∀ k, k ≠ id → Dict.get data k = Dict.get data' k) →
      AgreeOff id (deltaPass env hd defs p data).1
          (deltaPass env hd (defs.filter (fun m => decide (m.id ≠ id))) p' data').1 ∧
        ∀ k, k ≠ id → Dict.get (deltaPass env hd defs p data).2 k =
          Dict.get (deltaPass env hd (defs.filter (fun m => decide (m.id ≠ id))) p' data').2 k := by
  intro defs
  induction defs with
  | nil => intro p p' data data' hp hdata; exact ⟨hp, hdata⟩
  | cons m rest ih =>
    intro p p' data data' hp hdata
    rw [deltaPass_cons]
    by_cases hid : m.id = id
    · have hf : (m :: rest).filter (fun m => decide (m.id ≠ id)) =
          rest.filter (fun m => decide (m.id ≠ id)) := by
        simp [hid]
      rw [hf]
      obtain ⟨h1, h2⟩ := deltaStep_agree_self env hd id (p, data) (p', data') m hid hp hdata
      exact ih _ _ _ _ h1 h2
    · have hf : (m :: rest).filter (fun m => decide (m.id ≠ id)) =
          m :: rest.filter (fun m => decide (m.id ≠ id)) := by
        simp [hid]
      rw [hf, deltaPass_cons]
      obtain ⟨h1, h2⟩ := deltaStep_agree_other env hd id (p, data) (p', data') m hid hp hdata
      exact ih _ _ _ _ h1 h2

/-! ### The alert loop -/

theorem alertStep_agree (env : Env) (hd : HostData) (id : String)
    (s s' : Params × List LogEvent) (a : AlertDef) (hind : AlertIndependent env id a)
    (hp : AgreeOff id s.1 s'.1) (hlog : s.2 = s'.2) :
    AgreeOff id (alertStep env hd s a).1 (alertStep env hd s' a).1 ∧
      (alertStep env hd s a).2 = (alertStep env hd s' a).2 := by
  obtain ⟨h1, h2, h3⟩ := hind _ _ hp
  have hgf : groupFiltered env a.group_match s'.1.group =
      groupFiltered env a.group_match s.1.group := by rw [hp.group]
  have hev : env.safeEval (env.sub a.expression s'.1.data) s'.1 =
      env.safeEval (env.sub a.expression s.1.data) s.1 := by rw [← h1, ← h2]
  unfold alertStep
  by_cases hf : groupFiltered env a.group_match s.1.group = true
  · rw [if_pos hf, if_pos (hgf.trans hf)]
    exact ⟨hp, hlog⟩
  · have hf' : ¬ groupFiltered env a.group_match s'.1.group = true := by
      rw [hgf]; exact hf
    rw [if_neg hf, if_neg hf']
    by_cases ht : strictTrue (env.safeEval (env.sub a.expression s.1.data) s.1) = true
    · have ht' : strictTrue (env.safeEval (env.sub a.expression s'.1.data) s'.1) = true := by
        rw [hev]; exact ht
      rw [if_pos ht, if_pos ht']
      refine ⟨⟨hp.hostname, hp.group, hp.custom_group, hp.ip, hp.date, hp.raw, ?_,
        hp.new_alerts, hp.monitors, hp.deltas⟩, ?_⟩
      · show Dict.set s.1.alerts a.id
            { date := triggerDate hd s.1.date a.id, exp := env.sub a.expression s.1.data,
              message := alertSub env a.message s.1.data } =
          Dict.set s'.1.alerts a.id
            { date := triggerDate hd s'.1.date a.id, exp := env.sub a.expression s'.1.data,
              message := alertSub env a.message s'.1.data }
        rw [hp.alerts, hp.date, h1, h3]
      · show s.2 ++ alertEvalLog (env.safeEval (env.sub a.expression s.1.data) s.1) =
          s'.2 ++ alertEvalLog (env.safeEval (env.sub a.expression s'.1.data) s'.1)
        rw [hev, hlog]
    · have ht' : ¬ strictTrue (env.safeEval (env.sub a.expression s'.1.data) s'.1) = true := by
        rw [hev]; exact ht
      rw [if_neg ht, if_neg ht']
      refine ⟨hp, ?_⟩
      show s.2 ++ alertEvalLog (env.safeEval (env.sub a.expression s.1.data) s.1) =
        s'.2 ++ alertEvalLog (env.safeEval (env.sub a.expression s'.1.data) s'.1)
      rw [hev, hlog]

theorem foldl_alertStep_agree (env : Env) (hd : HostData) (id : String) :
    ∀ (defs : List AlertDef) (s s' : Params × List LogEvent),
      (∀ a ∈ defs, AlertIndependent env id a) → AgreeOff id s.1 s'.1 → s.2 = s'.2 →
      AgreeOff id (defs.foldl (alertStep env hd) s).1 (defs.foldl (alertStep env hd) s').1 ∧
        (defs.foldl (alertStep env hd) s).2 = (defs.foldl (alertStep env hd) s').2 := by
  intro defs
  induction defs with
  | nil => intro s s' _ hp hlog; exact ⟨hp, hlog⟩
  | cons a rest ih =>
    intro s s' hdefs hp hlog
    rw [List.foldl_cons, List.foldl_cons]
    obtain ⟨h1, h2⟩ := alertStep_agree env hd id s s' a (hdefs a (List.mem_cons_self _ _)) hp hlog
    exact ih _ _ (fun a' ha' => hdefs a' (List.mem_cons_of_mem _ ha')) h1 h2

/-! ## Expression failures -/

/-! ### A monitor that fails -/

/-- A source that fails leaves the value `0` (line 167). -/
theorem resolveSource_of_fails (env : Env) (p : Params) (mon : MonitorDef)
    (h : sourceFails env p mon = true) : (resolveSource env p mon).1 = Raw.zero := by
  unfold sourceFails at h
  unfold resolveSource
  cases hs : env.subFatal mon.source p.data with
  | none => rfl
  | some exp =>
    rw [hs] at h
    simp only [] at h ⊢
    by_cases he : exp = ""
    · rw [if_neg (by simpa using he)]
    · rw [if_pos he]
      have h' : (env.hasMath mon.source &&
          match env.safeEval exp p with
          | Except.error _ => true
          | Except.ok _ => false) = true := by
        simpa [he] using h
      rw [Bool.and_eq_true] at h'
      rw [if_pos h'.1]
      cases hev : env.safeEval exp p with
      | error err => rfl
      | ok v =>
        rw [hev] at h'
        exact absurd h'.2 (by simp)

theorem monitorStep_data_self (env : Env) (s : MonState) (mon : MonitorDef)
    (hf : groupFiltered env mon.group_match s.params.group = false) :
    Dict.get (monitorStep env s mon).data mon.id =
      some (scale env mon (coerce env mon
        (applyDataMatch env mon (resolveSource env s.params mon).1).1)) := by
  unfold monitorStep
  rw [if_neg (by rw [hf]; exact Bool.false_ne_true)]
  exact Dict.get_set_self _ _ _

theorem monitorStep_data_ne (env : Env) (s : MonState) (m : MonitorDef) (k : String)
    (hk : m.id ≠ k) : Dict.get (monitorStep env s m).data k = Dict.get s.data k := by
  unfold monitorStep
  split
  · rfl
  · exact Dict.get_set_ne _ _ _ _ (Ne.symm hk)

theorem foldl_monitorStep_data_ne (env : Env) (k : String) :
    ∀ (defs : List MonitorDef) (s : MonState), (∀ m ∈ defs, m.id ≠ k) →
      Dict.get (defs.foldl (monitorStep env) s).data k = Dict.get s.data k := by
  intro defs
  induction defs with
  | nil => intro s _; rfl
  | cons m rest ih =>
    intro s h
    rw [List.foldl_cons, ih _ (fun m' hm' => h m' (List.mem_cons_of_mem _ hm')),
      monitorStep_data_ne env s m k (h m (List.mem_cons_self _ _))]

/-- The value the monitor loop leaves for a monitor whose source fails: the
default `0` passed through the `data_match`, `data_type` and `multiply` or
`divide` steps. -/
theorem monitorPass_failing_value (env : Env) (pre post : List MonitorDef) (mon : MonitorDef)
    (task : Submission) (hpost : ∀ m ∈ post, m.id ≠ mon.id)
    (hf : groupFiltered env mon.group_match task.group = false)
    (hfail : sourceFails env (monitorPass env pre task).params mon = true) :
    Dict.get (monitorPass env (pre ++ mon :: post) task).data mon.id =
      some (scale env mon (coerce env mon (applyDataMatch env mon Raw.zero).1)) := by
  have hgrp : (monitorPass env pre task).params.group = task.group :=
    (monitorPass_frame env pre task).2.2.2.2.1
  have hstep := monitorStep_data_self env (monitorPass env pre task) mon (by rw [hgrp]; exact hf)
  rw [resolveSource_of_fails env _ mon hfail] at hstep
  unfold monitorPass at hstep ⊢
  rw [List.foldl_append, List.foldl_cons, foldl_monitorStep_data_ne env mon.id post _ hpost]
  exact hstep

/-- The default of a monitor without a pattern, or whose pattern does not match
the text of `0`: the number `0` for a `data_type` other than string, the text of
`0` for the `data_type` string without `multiply` and `divide`. -/
theorem failing_default (env : Env) (mon : MonitorDef)
    (hm : mon.data_match = "" ∨ env.regexMatch (env.toStr Raw.zero) mon.data_match = none) :
    (mon.data_type ≠ "string" → env.parseInt Raw.zero = JSNum.fin 0 →
      env.parseFloat Raw.zero = JSNum.fin 0 →
      scale env mon (coerce env mon (applyDataMatch env mon Raw.zero).1) =
        Value.num (JSNum.fin 0)) ∧
    (mon.data_type = "string" → mon.multiply = 0 → mon.divide = 0 →
      scale env mon (coerce env mon (applyDataMatch env mon Raw.zero).1) =
        Value.str (env.toStr Raw.zero)) := by
  have hz : (applyDataMatch env mon Raw.zero).1 = Raw.zero := by
    unfold applyDataMatch
    by_cases hdm : mon.data_match = ""
    · rw [if_neg (by simpa using hdm)]
    · rw [if_pos hdm]
      rcases hm with h | h
      · exact absurd h hdm
      · rw [h]
  rw [hz]
  constructor
  · intro hty hpi hpf
    have hc : coerce env mon Raw.zero = Value.num (JSNum.fin 0) := by
      unfold coerce
      by_cases hi : integerLike mon.data_type = true
      · rw [if_pos hi, hpi]
        rfl
      · rw [if_neg hi, if_neg hty, hpf]
        rfl
    rw [hc]
    unfold scale
    by_cases hmul : mon.multiply ≠ 0
    · rw [if_pos hmul]
      simp [toNum, JSNum.mul]
    · rw [if_neg hmul]
      by_cases hdiv : mon.divide ≠ 0
      · rw [if_pos hdiv]
        simp [toNum, JSNum.div, hdiv]
      · rw [if_neg hdiv]
  · intro hty hmul hdiv
    have hi : ¬ integerLike mon.data_type = true := by
      rw [hty]
      decide
    unfold scale coerce
    rw [if_neg (by simpa using hmul), if_neg (by simpa using hdiv), if_neg hi, if_pos hty]

/-! ### An alert that does not trigger -/

theorem alertStep_of_not_triggers (env : Env) (hd : HostData) (s : Params × List LogEvent)
    (a : AlertDef) (h : alertTriggers env s.1 a = false) : (alertStep env hd s a).1 = s.1 := by
  unfold alertTriggers at h
  unfold alertStep
  by_cases hf : groupFiltered env a.group_match s.1.group = true
  · rw [if_pos hf]
  · rw [if_neg hf]
    have ht : ¬ strictTrue (env.safeEval (env.sub a.expression s.1.data) s.1) = true := by
      intro hc
      simp [hf, hc] at h
    rw [if_neg ht]

/-- The `params` object the alert loop leaves depends on the `params` object it
starts from, and not on the lines logged before. -/
theorem foldl_alertStep_params (env : Env) (hd : HostData) :
    ∀ (defs : List AlertDef) (s s' : Params × List LogEvent), s.1 = s'.1 →
      (defs.foldl (alertStep env hd) s).1 = (defs.foldl (alertStep env hd) s').1 := by
  intro defs
  induction defs with
  | nil => intro s s' h; exact h
  | cons a rest ih =>
    intro s s' h
    rw [List.foldl_cons, List.foldl_cons]
    apply ih
    obtain ⟨p, l⟩ := s
    obtain ⟨p', l'⟩ := s'
    simp only at h
    subst h
    unfold alertStep
    simp only []
    split
    · rfl
    · split <;> rfl

/-- The alert loop with and without a definition that does not trigger at its
turn leaves the same `params` object. -/
theorem alertPass_remove (env : Env) (hd : HostData) (before after : List AlertDef)
    (a : AlertDef) (p : Params)
    (h : alertTriggers env (alertPass env hd before p).1 a = false) :
    (alertPass env hd (before ++ a :: after) p).1 = (alertPass env hd (before ++ after) p).1 := by
  unfold alertPass at h ⊢
  rw [List.foldl_append, List.foldl_append, List.foldl_cons]
  exact foldl_alertStep_params env hd after _ _ (alertStep_of_not_triggers env hd _ a h)

/-! ### The stages with and without a definition -/

/-- The monitor loop, the delta pass and the alert loop of a submission, with
and without the definition `mon`, when the definitions that follow `mon` and the
alert definitions do not depend on the value of `mon`: off the id of `mon` the
resolved values and the working map are the same, and the active alerts and the
lines logged by the alert loop are the same. -/
theorem stages_agree (env : Env) (srv : Server) (st : State) (task : Submission)
    (pre post : List MonitorDef) (mon : MonitorDef) (hsplit : srv.monitors = pre ++ mon :: post)
    (hpre : ∀ m ∈ pre, m.id ≠ mon.id)
    (hpost : ∀ m ∈ post, m.id ≠ mon.id ∧ MonitorIndependent env mon.id m)
    (ha : ∀ a ∈ srv.alerts, AlertIndependent env mon.id a) :
    (∀ k, k ≠ mon.id → Dict.get (monitorPass env srv.monitors task).data k =
      Dict.get (monitorPass env (pre ++ post) task).data k) ∧
    (∀ k, k ≠ mon.id → Dict.get (deltaStage env srv st task).2 k =
      Dict.get (deltaStage env { srv with monitors := pre ++ post } st task).2 k) ∧
    (alertStage env srv st task).1.alerts =
      (alertStage env { srv with monitors := pre ++ post } st task).1.alerts ∧
    (alertStage env srv st task).2 =
      (alertStage env { srv with monitors := pre ++ post } st task).2 := by
  have hm := monitorPass_agree env pre post mon task hpre hpost
  have hd := deltaPass_agree env (hostData st task.hostname) mon.id
    (monitorPass env (pre ++ mon :: post) task).delta_defs _ _ _ _ hm.params hm.data
  rw [← hm.delta_defs] at hd
  have hal := foldl_alertStep_agree env (hostData st task.hostname) mon.id srv.alerts
    ((deltaPass env (hostData st task.hostname)
      (monitorPass env (pre ++ mon :: post) task).delta_defs
      (monitorPass env (pre ++ mon :: post) task).params
      (monitorPass env (pre ++ mon :: post) task).data).1, [])
    ((deltaPass env (hostData st task.hostname)
      (monitorPass env (pre ++ post) task).delta_defs
      (monitorPass env (pre ++ post) task).params
      (monitorPass env (pre ++ post) task).data).1, []) ha hd.1 rfl
  unfold alertStage alertPass deltaStage
  simp only []
  rw [hsplit]
  exact ⟨hm.data, hd.2, hal.1.alerts, hal.2⟩

/-- The alert loop of a submission with and without an alert definition that
does not trigger at its turn leaves the same `params` object, and the id of the
definition is not active when no other definition has it. -/
theorem alertStage_remove (env : Env) (srv : Server) (st : State) (task : Submission)
    (before after : List AlertDef) (a : AlertDef) (hsplit : srv.alerts = before ++ a :: after)
    (h : alertTriggers env (alertPass env (hostData st task.hostname) before
      (deltaStage env srv st task).1).1 a = false) :
    (alertStage env srv st task).1 =
        (alertStage env { srv with alerts := before ++ after } st task).1 ∧
      ((∀ b ∈ before ++ after, b.id ≠ a.id) →
        a.id ∉ Dict.keys (alertStage env srv st task).1.alerts) := by
  have h1 : (alertStage env srv st task).1 =
      (alertStage env { srv with alerts := before ++ after } st task).1 := by
    unfold alertStage
    rw [hsplit]
    exact alertPass_remove env _ before after a _ h
  refine ⟨h1, fun hid => ?_⟩
  rw [h1]
  intro hmem
  have hdef := alertStage_active_defined env { srv with alerts := before ++ after } st task
    a.id hmem
  unfold findAlert at hdef
  rw [List.find?_isSome] at hdef
  obtain ⟨b, hb, hbid⟩ := hdef
  exact hid b hb (by simpa using hbid)

/-- The resolved values and the active alerts of the outcome are those the
monitor loop and the alert loop left. -/
theorem processDataSubmission_stages (env : Env) (srv : Server) (st : State)
    (task : Submission) (out : Outcome) (h : processDataSubmission env srv st task = some out) :
    out.params.data.monitors = (monitorPass env srv.monitors task).data ∧
      out.params.alerts = (alertStage env srv st task).1.alerts := by
  refine ⟨(processDataSubmission_transitions env srv st task out h).2.2.1, ?_⟩
  obtain ⟨g, nt, _, hnt, hp, _⟩ := processDataSubmission_inv env srv st task out h
  obtain ⟨_, _, n3, _⟩ := foldlM_newAlertStep srv g (alertsSnoozed env srv)
    (hostData st task.hostname) _ _ nt (Dict.nodup_keys _) hnt
  rw [hp, n3]

/-- C22 as stated fails. The templates of the monitors `a` (of `data_type`
integer) and `label` (of `data_type` string) are unresolved. The monitor `label`
resolves to the string `0`, not to the number `0`. And the alert `low`, on
`[monitors/a] < 5`, is active because the failing monitor `a` holds `0`, while
without the definition of `a` the placeholder is left as it is, the expression
does not evaluate to `true` (here it throws) and the alert is not active. -/
theorem expression_failure_counterexample :
    findGroup exSrvFail.groups (exTask 90000 "1000").group = some exGroup ∧
    sourceFails exEnvRef (monitorPass exEnvRef [] (exTask 90000 "1000")).params exFailMon = true ∧
    sourceFails exEnvRef (monitorPass exEnvRef [exFailMon] (exTask 90000 "1000")).params
      exFailLabel = true ∧
    (processDataSubmission exEnvRef exSrvFail (exState []) (exTask 90000 "1000")).map
        (fun o => (o.params.data.monitors, Dict.keys o.params.alerts)) =
      some ([("a", Value.num (JSNum.fin 0)), ("label", Value.str "0")], ["low"]) ∧
    exSrvFailLess = { exSrvFail with monitors := [exFailLabel] } ∧
    (processDataSubmission exEnvRef exSrvFailLess (exState []) (exTask 90000 "1000")).map
        (fun o => (o.params.data.monitors, Dict.keys o.params.alerts)) =
      some ([("label", Value.str "0")], []) := by
  refine ⟨by decide!, by decide!, by decide!, by decide!, rfl, by decide!⟩

/-- C22, amended. Expression failures are isolated. A submission whose group is
defined is processed to the end. A monitor of the submission whose template is
unresolved or whose evaluation throws resolves to the default `0` passed through
the `data_match`, `data_type` and `multiply` or `divide` steps: without a pattern
(or when the pattern does not match) that is the number `0` for a `data_type`
other than string, and the text of `0` for the `data_type` string. When the
definitions after the failing monitor and the alert definitions do not depend on
its value, the submission without the definition is processed to the end as
well, and leaves the same resolved values for all other monitors and the same
active alerts. An alert that does not trigger at its turn (it is filtered by the
group, its evaluation throws, or the result is not `true`) is not active when no
other definition has its id, and the submission without the definition leaves
the same resolved values and the same active alerts. -/
theorem expression_failures_isolated (env : Env) (srv : Server) (st : State)
    (task : Submission) (g : GroupDef) (hg : findGroup srv.groups task.group = some g) :
    ∃ out, processDataSubmission env srv st task = some out ∧
      (∀ pre mon post, srv.monitors = pre ++ mon :: post →
        (∀ m ∈ pre ++ post, m.id ≠ mon.id) →
        groupFiltered env mon.group_match task.group = false →
        sourceFails env (monitorPass env pre task).params mon = true →
        Dict.get out.params.data.monitors mon.id =
            some (scale env mon (coerce env mon (applyDataMatch env mon Raw.zero).1)) ∧
          ((mon.data_match = "" ∨
              env.regexMatch (env.toStr Raw.zero) mon.data_match = none) →
            (mon.data_type ≠ "string" → env.parseInt Raw.zero = JSNum.fin 0 →
              env.parseFloat Raw.zero = JSNum.fin 0 →
              Dict.get out.params.data.monitors mon.id = some (Value.num (JSNum.fin 0))) ∧
            (mon.data_type = "string" → mon.multiply = 0 → mon.divide = 0 →
              Dict.get out.params.data.monitors mon.id =
                some (Value.str (env.toStr Raw.zero)))) ∧
          ((∀ m ∈ post, MonitorIndependent env mon.id m) →
            (∀ a ∈ srv.alerts, AlertIndependent env mon.id a) →
            ∃ out', processDataSubmission env { srv with monitors := pre ++ post } st task =
                some out' ∧
              (∀ k, k ≠ mon.id → Dict.get out.params.data.monitors k =
                Dict.get out'.params.data.monitors k) ∧
              out.params.alerts = out'.params.alerts)) ∧
      (∀ before a after, srv.alerts = before ++ a :: after →
        alertTriggers env (alertPass env (hostData st task.hostname) before
          (deltaStage env srv st task).1).1 a = false →
        ((∀ b ∈ before ++ after, b.id ≠ a.id) → a.id ∉ Dict.keys out.params.alerts) ∧
          ∃ out', processDataSubmission env { srv with alerts := before ++ after } st task =
              some out' ∧
            out.params.data.monitors = out'.params.data.monitors ∧
            out.params.alerts = out'.params.alerts) := by
  obtain ⟨out, h⟩ := processDataSubmission_returns env srv st task g hg
  obtain ⟨s1, s2⟩ := processDataSubmission_stages env srv st task out h
  refine ⟨out, h, ?_, ?_⟩
  · intro pre mon post hsplit hids hf hfail
    have hpre : ∀ m ∈ pre, m.id ≠ mon.id :=
      fun m hm => hids m (List.mem_append_left _ hm)
    have hpost : ∀ m ∈ post, m.id ≠ mon.id :=
      fun m hm => hids m (List.mem_append_right _ hm)
    have hv : Dict.get out.params.data.monitors mon.id =
        some (scale env mon (coerce env mon (applyDataMatch env mon Raw.zero).1)) := by
      rw [s1, hsplit]
      exact monitorPass_failing_value env pre post mon task hpost hf hfail
    refine ⟨hv, ?_, ?_⟩
    · intro hm
      obtain ⟨d1, d2⟩ := failing_default env mon hm
      constructor
      · intro hty hpi hpf
        rw [hv, d1 hty hpi hpf]
      · intro hty hmul hdiv
        rw [hv, d2 hty hmul hdiv]
    · intro hmi hai
      obtain ⟨out', h'⟩ := processDataSubmission_returns env
        { srv with monitors := pre ++ post } st task g hg
      obtain ⟨s1', s2'⟩ := processDataSubmission_stages env _ st task out' h'
      obtain ⟨a1, _, a3, _⟩ := stages_agree env srv st task pre post mon hsplit hpre
        (fun m hm => ⟨hpost m hm, hmi m hm⟩) hai
      refine ⟨out', h', ?_, ?_⟩
      · intro k hk
        rw [s1, s1']
        exact a1 k hk
      · rw [s2, s2']
        exact a3
  · intro before a after hsplit hnt
    obtain ⟨r1, r2⟩ := alertStage_remove env srv st task before after a hsplit hnt
    constructor
    · intro hid
      rw [s2]
      exact r2 hid
    · obtain ⟨out', h'⟩ := processDataSubmission_returns env
        { srv with alerts := before ++ after } st task g hg
      obtain ⟨s1', s2'⟩ := processDataSubmission_stages env _ st task out' h'
      refine ⟨out', h', ?_, ?_⟩
      · rw [s1, s1']
      · rw [s2, s2', r1]

/-- In the example environment the monitor `label` and the alerts `bad` and
`hot` do not depend on the value of the monitor `a`. -/
theorem exSrvBad_independent :
    (∀ m ∈ [exFailLabel], MonitorIndependent exEnvRef exFailMon.id m) ∧
      ∀ a ∈ exSrvBad.alerts, AlertIndependent exEnvRef exFailMon.id a := by
  constructor
  · intro m hm
    rw [List.mem_singleton] at hm
    subst hm
    intro p p' _
    rfl
  · intro a ha
    have ha' : a = exBadAlert ∨ a = exAlert := by
      simpa [exSrvBad] using ha
    rcases ha' with ha' | ha' <;> subst ha' <;> intro p p' _ <;> exact ⟨rfl, rfl, rfl⟩

/-- Instance of C22 as amended: the templates of the monitors `a` and `label`
are unresolved and the expression of the alert `bad` throws. The submission is
processed to the end, `a` holds the number `0` and `label` the string `0`, `bad`
is not active, and the submission without the definition of `a` leaves the same
values for the other monitors and the same active alerts. -/
theorem expression_failures_isolated_witness :
    findGroup exSrvBad.groups (exTask 90000 "1000").group = some exGroup ∧
    ∃ out, processDataSubmission exEnvRef exSrvBad (exState []) (exTask 90000 "1000") =
        some out ∧
      Dict.get out.params.data.monitors "a" = some (Value.num (JSNum.fin 0)) ∧
      Dict.get out.params.data.monitors "label" = some (Value.str "0") ∧
      "bad" ∉ Dict.keys out.params.alerts ∧
      ∃ out', processDataSubmission exEnvRef { exSrvBad with monitors := [exFailLabel] }
          (exState []) (exTask 90000 "1000") = some out' ∧
        (∀ k, k ≠ "a" → Dict.get out.params.data.monitors k =
          Dict.get out'.params.data.monitors k) ∧
        out.params.alerts = out'.params.alerts := by
  refine ⟨by decide!, ?_⟩
  obtain ⟨out, h, hm, ha⟩ := expression_failures_isolated exEnvRef exSrvBad (exState [])
    (exTask 90000 "1000") exGroup (by decide!)
  obtain ⟨_, m1, m2⟩ := hm [] exFailMon [exFailLabel] rfl (by decide) (by decide!) (by decide!)
  obtain ⟨_, m3, _⟩ := hm [exFailMon] exFailLabel [] rfl (by decide) (by decide!) (by decide!)
  obtain ⟨a1, _⟩ := ha [] exBadAlert [exAlert] rfl (by decide!)
  have hz : exEnvRef.toStr Raw.zero = "0" := by decide!
  refine ⟨out, h, ?_, ?_, ?_, ?_⟩
  · exact (m1 (Or.inl rfl)).1 (by decide) (by decide!) (by decide!)
  · have h2 := (m3 (Or.inl rfl)).2 rfl rfl rfl
    rw [hz] at h2
    exact h2
  · exact a1 (by decide)
  · exact m2 exSrvBad_independent.1 exSrvBad_independent.2

end Performa
